import Mathlib

/-!
# Foreign Linux: filesystem shim (`src/fs/winfs.c`) and trap dispatcher (`src/syscall/syscall.c`)

A shallow embedding of the two C files.  Conventions used throughout:

* bytes and UTF-16 units are natural numbers; a C string is the list of its bytes
  before the terminating NUL;
* `size_t` quantities are natural numbers, C `int` values are integers, and a cast to a
  32-bit type is written out (`int32`, `dword`), as is a `size_t` subtraction that can
  wrap (`size_t bits`);
* functions that return `size_t` but store a negated errno in it (`num_read = -EIO`) are
  given an integer result: a non-negative result is the count, a negative one the errno;
* host calls whose outcome the code cannot control are either evaluated on an explicit
  host state (`HostFile`, `Host`) or answered by a response supplied by the caller of the
  model (`Transfer`, `OpenHost`, `UnlinkHost`, `Recycler`, `Env`);
* a function returns `none` where the C code has no defined result: a loop that the
  answers of the host keep going, or a copy that runs past the end of a local array.
-/

namespace Flinux

/-! ## Constants -/

abbrev Byte := Nat
abbrev WChar := Nat

/-- Linux errno values (`common/errno.h`). -/
def EPERM : Int := 1
def ENOENT : Int := 2
def EIO : Int := 5
def EBUSY : Int := 16
def EEXIST : Int := 17
def ENOTDIR : Int := 20
def EINVAL : Int := 22
def ELOOP : Int := 40

/-- Linux `PATH_MAX`. -/
def PATH_MAX : Nat := 4096

/-- Linux file type bits of `st_mode`. -/
def S_IFMT : Nat := 0o170000
def S_IFDIR : Nat := 0o040000
def S_IFREG : Nat := 0o100000
def S_IFLNK : Nat := 0o120000

/-- Linux directory entry types. -/
def DT_DIR : Nat := 4
def DT_REG : Nat := 8
def DT_LNK : Nat := 10

/-- Windows file attribute bits. -/
def FILE_ATTRIBUTE_READONLY : Nat := 0x1
def FILE_ATTRIBUTE_SYSTEM : Nat := 0x4
def FILE_ATTRIBUTE_DIRECTORY : Nat := 0x10

/-- Windows error codes. -/
def ERROR_HANDLE_EOF : Nat := 38
def ERROR_FILE_EXISTS : Nat := 80
def ERROR_ALREADY_EXISTS : Nat := 183

def UINT_MAX : Nat := 2 ^ 32 - 1

/-- Conversion of an integer to a C `int` (32 bits, two's complement). -/
def int32 (x : Int) : Int := (x + 2 ^ 31) % 2 ^ 32 - 2 ^ 31

/-- Conversion of an integer to a `DWORD` (32 bits, unsigned). -/
def dword (x : Int) : Nat := (x % 2 ^ 32).toNat

/-- Conversion of an integer to a `size_t` of `bits` bits (64 on the 64-bit build, 32 on
the 32-bit build). -/
def size_t (bits : Nat) (x : Int) : Nat := (x % 2 ^ bits).toNat

/-- C `strlen`: the number of bytes before the first NUL. -/
def strlen (s : List Byte) : Nat := (s.takeWhile (fun b => b != 0)).length

/-- The macro `WINFS_SYMLINK_HEADER`, the string literal `"!<SYMLINK>\379\378"`.  An octal
escape takes at most three octal digits and stops at the first character that is not
one, so `\379` is the byte `\37` (31) followed by the character `9`, and `\378` is `\37`
followed by `8`: fourteen bytes in all. -/
def WINFS_SYMLINK_HEADER : List Byte :=
  [0x21, 0x3C, 0x53, 0x59, 0x4D, 0x4C, 0x49, 0x4E, 0x4B, 0x3E, 0o37, 0x39, 0o37, 0x38]

/-- The macro `WINFS_SYMLINK_HEADER_LEN`, that is `sizeof(WINFS_SYMLINK_HEADER) - 1`. -/
def WINFS_SYMLINK_HEADER_LEN : Nat := WINFS_SYMLINK_HEADER.length

/-! ## Host files -/

/-- A file of the host, as seen through a handle. -/
structure HostFile where
  dwFileAttributes : Nat
  nFileIndexHigh : Nat
  nFileIndexLow : Nat
  nNumberOfLinks : Nat
  content : List Byte
  deriving DecidableEq, Repr

/-- Host `ReadFile` with an `OVERLAPPED` offset on a synchronous handle: `none` is a failed
call (reading at or past the end of the file), `some data` a successful one that
delivered `data`, at most `n` bytes. -/
def ReadFile_at (content : List Byte) (offset n : Nat) : Option (List Byte) :=
  if content.length ≤ offset then none else some ((content.drop offset).take n)

/-- Answer of the host to one `ReadFile` or `WriteFile` call on the implicit cursor. -/
inductive Transfer where
  | fail (err : Nat)
  | ok (n : Nat)
  deriving DecidableEq, Repr

/-- Number of bytes a host call moved when asked for `req` bytes; the host never moves
more than it was asked for.  `none` is a failed call. -/
def Transfer.moved (t : Transfer) (req : Nat) : Option Nat :=
  match t with
  | .fail _ => none
  | .ok n => some (min n req)

/-! ## Symbolic links -/

/-- Function `winfs_is_symlink(hFile)`: 1 when the first bytes of the file are the
header, else 0. -/
def winfs_is_symlink (content : List Byte) : Int :=
  match ReadFile_at content 0 WINFS_SYMLINK_HEADER_LEN with
  | none => 0
  | some header =>
    if header.length < WINFS_SYMLINK_HEADER_LEN then 0
    else if header ≠ WINFS_SYMLINK_HEADER then 0
    else 1

/-- Result of `winfs_read_symlink`: the returned `int` and the bytes stored through
`target` from index 0 on (`none` when `target` is not written). -/
structure ReadSymlink where
  ret : Int
  target : Option (List Byte)
  deriving DecidableEq, Repr

/-- Function `winfs_read_symlink(hFile, target, buflen)`.  `target_null` says whether
`target == NULL`.  With no buffer the length is computed from the file size, which
`GetFileSizeEx` reports as the length of the content; otherwise up to `buflen` bytes
after the header are read into `target` and a NUL is stored behind them. -/
def winfs_read_symlink (content : List Byte) (target_null : Bool) (buflen : Int) : ReadSymlink :=
  match ReadFile_at content 0 WINFS_SYMLINK_HEADER_LEN with
  | none => ⟨0, none⟩
  | some header =>
    if header.length < WINFS_SYMLINK_HEADER_LEN then ⟨0, none⟩
    else if header ≠ WINFS_SYMLINK_HEADER then ⟨0, none⟩
    else if target_null || buflen == 0 then
      -- GetFileSizeEx
      let size := content.length
      if size - WINFS_SYMLINK_HEADER_LEN ≥ PATH_MAX then ⟨0, none⟩
      else ⟨int32 (int32 size - WINFS_SYMLINK_HEADER_LEN), none⟩
    else
      match ReadFile_at content WINFS_SYMLINK_HEADER_LEN (dword buflen) with
      | none => ⟨0, none⟩
      | some data => ⟨int32 data.length, some (data ++ [0])⟩

/-- The files of the host by native path, and the error (if any) with which the host
refuses to create a file at a path that is free. -/
structure Host where
  files : List WChar → Option HostFile
  create_error : List WChar → Option Nat

/-- Replace the file at `path`. -/
def Host.put (h : Host) (path : List WChar) (f : HostFile) : Host :=
  { h with files := fun p => if p = path then some f else h.files p }

/-- Host `CreateFileW(path, .., CREATE_NEW, attributes, ..)`: fails when the path is taken. -/
def CreateFileW_new (h : Host) (path : List WChar) (attributes : Nat) : Except Nat Host :=
  match h.files path with
  | some _ => .error ERROR_FILE_EXISTS
  | none =>
    match h.create_error path with
    | some e => .error e
    | none => .ok (h.put path ⟨attributes, 0, 0, 1, []⟩)

/-- Host `WriteFile` at the end of a freshly created file: the bytes that reach the file. -/
def WriteFile_append (h : Host) (path : List WChar) (data : List Byte) (n : Nat) : Host :=
  match h.files path with
  | none => h
  | some f => h.put path { f with content := f.content ++ data.take n }

/-- Function `winfs_symlink(fs, target, linkpath)`.  `utf8_to_utf16_filename` is declared
in `str.h` and is a parameter here: from the file name, its length and the size of the
output buffer it gives the returned count and the UTF-16 units written.  `w1` and `w2`
are the answers of the host to the two `WriteFile` calls. -/
def winfs_symlink (utf8_to_utf16_filename : List Byte → Nat → Int → Int × List WChar)
    (h : Host) (target linkpath : List Byte) (w1 w2 : Transfer) : Int × Host :=
  let conv := utf8_to_utf16_filename linkpath (strlen linkpath + 1) PATH_MAX
  if conv.1 ≤ 0 then (- ENOENT, h)
  else
    let wlinkpath := conv.2
    match CreateFileW_new h wlinkpath FILE_ATTRIBUTE_SYSTEM with
    | .error err =>
      if err = ERROR_FILE_EXISTS ∨ err = ERROR_ALREADY_EXISTS then (- EEXIST, h)
      else (- ENOENT, h)
    | .ok h1 =>
      match w1.moved WINFS_SYMLINK_HEADER_LEN with
      | none => (- EIO, h1)
      | some n1 =>
        let h2 := WriteFile_append h1 wlinkpath WINFS_SYMLINK_HEADER n1
        if n1 < WINFS_SYMLINK_HEADER_LEN then (- EIO, h2)
        else
          let targetlen := dword (strlen target)
          match w2.moved targetlen with
          | none => (- EIO, h2)
          | some n2 =>
            let h3 := WriteFile_append h2 wlinkpath (target.take targetlen) n2
            if n2 < targetlen then (- EIO, h3)
            else (0, h3)

/-! ## Metadata -/

/-- The fields of `struct newstat` that `winfs_stat` derives from the file itself. -/
structure newstat where
  st_ino : Nat
  st_mode : Nat
  st_size : Nat
  st_nlink : Nat
  deriving DecidableEq, Repr

/-- Field `nFileSizeHigh` of `BY_HANDLE_FILE_INFORMATION`. -/
def nFileSizeHigh (f : HostFile) : Nat := f.content.length / 2 ^ 32 % 2 ^ 32

/-- Field `nFileSizeLow` of `BY_HANDLE_FILE_INFORMATION`. -/
def nFileSizeLow (f : HostFile) : Nat := f.content.length % 2 ^ 32

/-- Function `winfs_stat(f, buf)`: inode, mode, size and link count written to `buf`. -/
def winfs_stat (info : HostFile) : newstat :=
  let st_ino := info.nFileIndexHigh ^^^ info.nFileIndexLow
  let st_mode := if info.dwFileAttributes &&& FILE_ATTRIBUTE_READONLY ≠ 0 then 0o555 else 0o755
  if info.dwFileAttributes &&& FILE_ATTRIBUTE_DIRECTORY ≠ 0 then
    ⟨st_ino, st_mode ||| S_IFDIR, 0, info.nNumberOfLinks⟩
  else
    let r := (winfs_read_symlink info.content true 0).ret
    if info.dwFileAttributes &&& FILE_ATTRIBUTE_SYSTEM ≠ 0 ∧ r > 0 then
      ⟨st_ino, st_mode ||| S_IFLNK, r.toNat, info.nNumberOfLinks⟩
    else
      ⟨st_ino, st_mode ||| S_IFREG, nFileSizeHigh info * 2 ^ 32 + nFileSizeLow info,
        info.nNumberOfLinks⟩

/-! ## Directory enumeration -/

/-- One `FILE_ID_FULL_DIR_INFORMATION` record; `FileNameLength` is twice the length of
`FileName`. -/
structure DirInfo where
  FileIdHigh : Nat
  FileIdLow : Nat
  FileAttributes : Nat
  FileName : List WChar
  deriving DecidableEq, Repr

/-- Answer of the host to one `NtQueryDirectoryFile` call: a failure status (which
includes `STATUS_NO_MORE_FILES`), or the records it returned; no record means
`status_block.Information == 0`. -/
inductive DirQuery where
  | fail (status : Nat)
  | ok (entries : List DirInfo)
  deriving DecidableEq, Repr

/-- Entry type computed in the loop body of `winfs_getdents`.  `open_child name` is what
the relative `NtCreateFile(.., FILE_READ_DATA, .., FILE_OPEN, ..)` on the entry gives:
`none` when it fails, else the content readable through the new handle. -/
def getdents_type (open_child : List WChar → Option (List Byte)) (info : DirInfo) : Nat :=
  if info.FileAttributes &&& FILE_ATTRIBUTE_DIRECTORY ≠ 0 then DT_DIR
  else if info.FileAttributes &&& FILE_ATTRIBUTE_SYSTEM ≠ 0 then
    match open_child info.FileName with
    | some content => if winfs_is_symlink content ≠ 0 then DT_LNK else DT_REG
    | none => DT_REG
  else DT_REG

/-- Arguments of one `fill_callback` call (the destination pointer and the constant
`GETDENTS_UTF16` are left out). -/
structure FillCall where
  inode : Nat
  name : List WChar
  namelen : Nat
  type : Nat
  remaining : Nat
  deriving DecidableEq, Repr

/-- What an operation on a handle does with the lock of the handle, with the file
pointer, with the directory scan and with the flag `restart_scan`, as it appears in the
trace of `winfs_llseek` and `winfs_getdents`. -/
inductive HandleEvent where
  | AcquireSRWLockShared
  | ReleaseSRWLockShared
  | AcquireSRWLockExclusive
  | ReleaseSRWLockExclusive
  | SetFilePointerEx
  | NtQueryDirectoryFile
  | store_restart_scan (value : Int)
  deriving DecidableEq, Repr

/-- Outcome of `winfs_getdents`: the returned size, the flag left in the handle, the
`(buffer_size, restart_scan)` pair given to every `NtQueryDirectoryFile` call, the
`fill_callback` calls, and the lock and flag events, each list in order. -/
structure Getdents where
  ret : Int
  restart_scan : Int
  queries : List (Int × Int)
  calls : List FillCall
  events : List HandleEvent
  deriving DecidableEq, Repr

/-- The `do .. while (info->NextEntryOffset)` loop over the records of one query.  The
last component tells whether the loop left through `goto out`.  `size` is an `int` and
`count` a `size_t` of `bits` bits: the budget `count - size` handed to the callback is
computed in `size_t` and wraps when `size` exceeds `count`, and a sum or a record length
stored in `size` is cut to 32 bits. -/
def getdents_entries (bits : Nat) (open_child : List WChar → Option (List Byte))
    (fill_callback : FillCall → Int) (count : Nat) :
    List DirInfo → Int → List FillCall → Int × List FillCall × Bool
  | [], size, calls => (size, calls, false)
  | info :: rest, size, calls =>
    let inode := info.FileIdHigh ^^^ info.FileIdLow
    let type := getdents_type open_child info
    let call : FillCall :=
      ⟨inode, info.FileName, info.FileName.length, type, size_t bits ((count : Int) - size)⟩
    let reclen := fill_callback call
    if reclen < 0 then (int32 reclen, calls ++ [call], true)
    else
      getdents_entries bits open_child fill_callback count rest (int32 (size + reclen))
        (calls ++ [call])

/-- The `for (;;)` loop of `winfs_getdents` against the successive answers of the host;
`none` when the answers run out while the loop is still going.  The loop is left with
the lock still held; `winfs_getdents` releases it at `out`.  `buffer_size` is an `int`
that receives the `size_t` value `(count - size) / 2`. -/
def getdents_loop (bits : Nat) (open_child : List WChar → Option (List Byte))
    (fill_callback : FillCall → Int) (count : Nat) :
    List DirQuery → Int → Int → List (Int × Int) → List FillCall → List HandleEvent →
      Option Getdents
  | [], _, _, _, _, _ => none
  | q :: script, restart_scan, size, queries, calls, events =>
    let buffer_size0 := int32 ((size_t bits ((count : Int) - size) / 2 : Nat) : Int)
    let buffer_size := if buffer_size0 ≥ 32768 then 32768 else buffer_size0
    let queries1 := queries ++ [(buffer_size, restart_scan)]
    let events1 := events ++ [.NtQueryDirectoryFile, .store_restart_scan 0]
    match q with
    | .fail _ => some ⟨size, 0, queries1, calls, events1⟩
    | .ok [] => some ⟨size, 0, queries1, calls, events1⟩
    | .ok (info :: rest) =>
      let r := getdents_entries bits open_child fill_callback count (info :: rest) size calls
      if r.2.2 then some ⟨r.1, 0, queries1, r.2.1, events1⟩
      else
        getdents_loop bits open_child fill_callback count script 0 r.1 queries1 r.2.1 events1

/-- Function `winfs_getdents(f, dirent, count, fill_callback)` on a handle whose flag is
`restart_scan`, on a build whose `size_t` has `bits` bits. -/
def winfs_getdents (bits : Nat) (open_child : List WChar → Option (List Byte))
    (fill_callback : FillCall → Int) (restart_scan : Int) (count : Nat)
    (script : List DirQuery) : Option Getdents :=
  (getdents_loop bits open_child fill_callback count script restart_scan 0 [] []
    [.AcquireSRWLockShared]).map
    (fun r => { r with events := r.events ++ [.ReleaseSRWLockShared] })

/-! ## Data transfer -/

/-- One `ReadFile` or `WriteFile` request: the byte count and the `Offset`, `OffsetHigh`
fields of the `OVERLAPPED` structure (`none` for a NULL pointer). -/
structure Request where
  count_dword : Nat
  overlapped : Option (Nat × Nat)
  deriving DecidableEq, Repr

/-- Outcome of a transfer: the returned value and the requests made, in order. -/
structure Transferred where
  ret : Int
  requests : List Request
  deriving DecidableEq, Repr

/-- The `OVERLAPPED` offset fields for a `loff_t` offset. -/
def overlapped_of (offset : Int) : Nat × Nat := (dword offset, dword (offset / 2 ^ 32))

/-- Loop of `winfs_read` against the successive answers of the host; `none` when the
answers run out while the loop is still going. -/
def winfs_read_loop : List Transfer → Nat → Nat → List Request → Option Transferred
  | script, count, num_read, reqs =>
    if count = 0 then some ⟨num_read, reqs⟩
    else
      match script with
      | [] => none
      | t :: script1 =>
        let count_dword := min count UINT_MAX
        let reqs1 := reqs ++ [⟨count_dword, none⟩]
        match t with
        | .fail err =>
          if err = ERROR_HANDLE_EOF then some ⟨num_read, reqs1⟩
          else some ⟨- EIO, reqs1⟩
        | .ok n =>
          let num_read_dword := min n count_dword
          if num_read_dword = 0 then some ⟨num_read, reqs1⟩
          else winfs_read_loop script1 (count - num_read_dword) (num_read + num_read_dword) reqs1

/-- Function `winfs_read(f, buf, count)` against the answers `script` of the host. -/
def winfs_read (script : List Transfer) (count : Nat) : Option Transferred :=
  winfs_read_loop script count 0 []

/-- Loop of `winfs_write`; `overlapped_pointer` is the pointer chosen from `O_APPEND`. -/
def winfs_write_loop (overlapped_pointer : Option (Nat × Nat)) :
    List Transfer → Nat → Nat → List Request → Option Transferred
  | script, count, num_written, reqs =>
    if count = 0 then some ⟨num_written, reqs⟩
    else
      match script with
      | [] => none
      | t :: script1 =>
        let count_dword := min count UINT_MAX
        let reqs1 := reqs ++ [⟨count_dword, overlapped_pointer⟩]
        match t with
        | .fail _ => some ⟨- EIO, reqs1⟩
        | .ok n =>
          let num_written_dword := min n count_dword
          winfs_write_loop overlapped_pointer script1 (count - num_written_dword)
            (num_written + num_written_dword) reqs1

/-- Linux open flags (`common/fcntl.h`). -/
def O_WRONLY : Nat := 0o1
def O_RDWR : Nat := 0o2
def O_CREAT : Nat := 0o100
def O_EXCL : Nat := 0o200
def O_TRUNC : Nat := 0o1000
def O_APPEND : Nat := 0o2000
def O_DIRECTORY : Nat := 0o200000
def O_NOFOLLOW : Nat := 0o400000
def O_PATH : Nat := 0o10000000

/-- Function `winfs_write(f, buf, count)` on a file opened with `flags`. -/
def winfs_write (flags : Nat) (script : List Transfer) (count : Nat) : Option Transferred :=
  let overlapped_pointer :=
    if flags &&& O_APPEND ≠ 0 then some (0xFFFFFFFF, 0xFFFFFFFF) else none
  winfs_write_loop overlapped_pointer script count 0 []

/-- Loop of `winfs_pread`. -/
def winfs_pread_loop : List Transfer → Nat → Int → Nat → List Request → Option Transferred
  | script, count, offset, num_read, reqs =>
    if count = 0 then some ⟨num_read, reqs⟩
    else
      match script with
      | [] => none
      | t :: script1 =>
        let count_dword := min count UINT_MAX
        let reqs1 := reqs ++ [⟨count_dword, some (overlapped_of offset)⟩]
        match t with
        | .fail err =>
          if err = ERROR_HANDLE_EOF then some ⟨num_read, reqs1⟩
          else some ⟨- EIO, reqs1⟩
        | .ok n =>
          let num_read_dword := min n count_dword
          if num_read_dword = 0 then some ⟨num_read, reqs1⟩
          else winfs_pread_loop script1 (count - num_read_dword) (offset + num_read_dword)
            (num_read + num_read_dword) reqs1

/-- Function `winfs_pread(f, buf, count, offset)`. -/
def winfs_pread (script : List Transfer) (count : Nat) (offset : Int) : Option Transferred :=
  winfs_pread_loop script count offset 0 []

/-- Loop of `winfs_pwrite`. -/
def winfs_pwrite_loop : List Transfer → Nat → Int → Nat → List Request → Option Transferred
  | script, count, offset, num_written, reqs =>
    if count = 0 then some ⟨num_written, reqs⟩
    else
      match script with
      | [] => none
      | t :: script1 =>
        let count_dword := min count UINT_MAX
        let reqs1 := reqs ++ [⟨count_dword, some (overlapped_of offset)⟩]
        match t with
        | .fail _ => some ⟨- EIO, reqs1⟩
        | .ok n =>
          let num_written_dword := min n count_dword
          winfs_pwrite_loop script1 (count - num_written_dword) (offset + num_written_dword)
            (num_written + num_written_dword) reqs1

/-- Function `winfs_pwrite(f, buf, count, offset)`. -/
def winfs_pwrite (script : List Transfer) (count : Nat) (offset : Int) : Option Transferred :=
  winfs_pwrite_loop script count offset 0 []

/-! ## Path translation and open -/

/-- Outcome of `filename_to_nt_pathname`: the returned length and the stores into `buf`
as (index, value) pairs, in order. -/
structure NtPathname where
  ret : Int
  stores : List (Int × WChar)
  deriving DecidableEq, Repr

/-- The stores that put `units` into a buffer from index `start` on. -/
def stores_from (start : Int) (units : List WChar) : List (Int × WChar) :=
  units.enum.map (fun p => (start + (p.1 : Int), p.2))

/-- Host `GetCurrentDirectoryW(nBufferLength, lpBuffer)` when the current directory is
`cwd`: with room for the directory and its NUL it stores both and returns the length
without the NUL; otherwise it stores nothing and returns the size it needs, NUL included. -/
def GetCurrentDirectoryW (cwd : List WChar) (nBufferLength : Nat) : Nat × List WChar :=
  if cwd.length + 1 ≤ nBufferLength then (cwd.length, cwd ++ [0])
  else (cwd.length + 1, [])

/-- Function `filename_to_nt_pathname(filename, buf, buf_size)` when the current
directory is `cwd`. -/
def filename_to_nt_pathname (utf8_to_utf16_filename : List Byte → Nat → Int → Int × List WChar)
    (cwd : List WChar) (filename : List Byte) (buf_size : Int) : NtPathname :=
  if buf_size < 4 then ⟨0, []⟩
  else
    let s0 : List (Int × WChar) := [(0, 0x5C), (1, 0x3F), (2, 0x3F), (3, 0x5C)]
    let buf_size1 := buf_size - 4
    let g := GetCurrentDirectoryW cwd (dword buf_size1)
    let len : Int := int32 g.1
    let s1 := s0 ++ stores_from 4 g.2
    let out_size1 := 4 + len
    let buf_size2 := buf_size1 - len
    if filename.headD 0 = 0 then ⟨out_size1, s1⟩
    else
      let s2 := s1 ++ [(4 + len, 0x5C)]
      let out_size2 := out_size1 + 1
      let buf_size3 := buf_size2 - 1
      let c := utf8_to_utf16_filename filename (strlen filename) buf_size3
      let s3 := s2 ++ stores_from (4 + len + 1) c.2
      if c.1 = 0 then ⟨0, s3⟩ else ⟨out_size2 + c.1, s3⟩

/-- Windows access rights, dispositions and options used by `open_file`. -/
def GENERIC_READ : Nat := 0x80000000
def GENERIC_WRITE : Nat := 0x40000000
def GENERIC_ALL : Nat := 0x10000000
def DELETE : Nat := 0x00010000
def SYNCHRONIZE : Nat := 0x00100000
def FILE_READ_ATTRIBUTES : Nat := 0x80
def FILE_OPEN : Nat := 1
def FILE_CREATE : Nat := 2
def FILE_OPEN_IF : Nat := 3
def FILE_SYNCHRONOUS_IO_NONALERT : Nat := 0x20
def FILE_OPEN_FOR_BACKUP_INTENT : Nat := 0x4000
def FILE_OPEN_REMOTE_INSTANCE : Nat := 0x400
def STATUS_OBJECT_NAME_COLLISION : Nat := 0xC0000035

/-- The macro `NT_SUCCESS(status)`: the status, read as a signed 32-bit value, is not
negative. -/
def NT_SUCCESS (status : Nat) : Bool := decide (status < 0x80000000)

/-- Values a `HANDLE` variable can hold during an open: the handle from `NtCreateFile`,
the one from `ReOpenFile`, or the indeterminate value of a variable never assigned. -/
inductive Handle where
  | created
  | reopened
  | uninitialised
  deriving DecidableEq, Repr

/-- Answers of the host during one `open_file`: the statuses of `NtCreateFile` and
`NtQueryInformationFile`, the attributes reported, whether `ReOpenFile` succeeds, and the
content of the file as read through a handle with read access. -/
structure OpenHost where
  create_status : Nat
  query_status : Nat
  FileAttributes : Nat
  reopen_ok : Bool
  content : List Byte
  deriving DecidableEq, Repr

/-- Outcome of `open_file`: the returned value, the store into `*hFile` (`none` when
there is none), the handles obtained and the handles closed, the bytes stored through
`target`, and the (desired_access, create_disposition, create_options) of the
`NtCreateFile` call when it is made. -/
structure OpenFile where
  ret : Int
  hFile : Option Handle
  opened : List Handle
  closed : List Handle
  target : Option (List Byte)
  request : Option (Nat × Nat × Nat)
  deriving DecidableEq, Repr

/-- The part of `open_file` that follows the attribute test on a file with the system
flag, once `handle` can be read from. -/
def open_file_symlink_test (host : OpenHost) (flags : Nat) (target_null : Bool) (buflen : Int)
    (handle : Handle) (opened closed : List Handle) (request : Option (Nat × Nat × Nat)) :
    OpenFile :=
  let r := winfs_read_symlink host.content target_null buflen
  if r.ret > 0 then
    if flags &&& O_NOFOLLOW = 0 then ⟨1, none, opened, closed ++ [handle], r.target, request⟩
    else if flags &&& O_PATH = 0 then
      ⟨- ELOOP, none, opened, closed ++ [handle], r.target, request⟩
    else ⟨0, some handle, opened, closed, r.target, request⟩
  else ⟨0, some handle, opened, closed, r.target, request⟩

/-- The `create_options` that `open_file` derives from the access asked for. -/
def open_create_options (desired_access : Nat) : Nat :=
  if desired_access &&& GENERIC_ALL ≠ 0 then
    FILE_SYNCHRONOUS_IO_NONALERT ||| FILE_OPEN_FOR_BACKUP_INTENT ||| FILE_OPEN_REMOTE_INSTANCE
  else
    FILE_SYNCHRONOUS_IO_NONALERT |||
      (if desired_access &&& GENERIC_READ ≠ 0 then FILE_OPEN_FOR_BACKUP_INTENT else 0) |||
      (if desired_access &&& GENERIC_WRITE ≠ 0 then FILE_OPEN_REMOTE_INSTANCE else 0)

/-- Function `open_file(hFile, pathname, desired_access, create_disposition, flags,
bInherit, target, buflen)`.  `bInherit` only selects `OBJ_INHERIT` in the object
attributes handed to the host and is left out. -/
def open_file (utf8_to_utf16_filename : List Byte → Nat → Int → Int × List WChar)
    (cwd : List WChar) (host : OpenHost) (pathname : List Byte)
    (desired_access create_disposition flags : Nat) (target_null : Bool) (buflen : Int) :
    OpenFile :=
  -- name.Length is a USHORT
  let name_Length :=
    (2 * (filename_to_nt_pathname utf8_to_utf16_filename cwd pathname PATH_MAX).ret) % 2 ^ 16
  if name_Length = 0 then ⟨- ENOENT, none, [], [], none, none⟩
  else
    let create_options := open_create_options desired_access
    let desired_access1 := desired_access ||| SYNCHRONIZE ||| FILE_READ_ATTRIBUTES
    let request := some (desired_access1, create_disposition, create_options)
    if host.create_status = STATUS_OBJECT_NAME_COLLISION then
      ⟨- EEXIST, none, [], [], none, request⟩
    else if ¬ NT_SUCCESS host.create_status then ⟨- ENOENT, none, [], [], none, request⟩
    else if ¬ NT_SUCCESS host.query_status then
      ⟨- EIO, none, [.created], [.created], none, request⟩
    else if host.FileAttributes &&& FILE_ATTRIBUTE_SYSTEM ≠ 0 then
      if desired_access1 &&& GENERIC_READ = 0 then
        if ¬ host.reopen_ok then ⟨0, none, [.created], [], none, request⟩
        else
          open_file_symlink_test host flags target_null buflen .reopened
            [.created, .reopened] [.created] request
      else
        open_file_symlink_test host flags target_null buflen .created [.created] [] request
    else if host.FileAttributes &&& FILE_ATTRIBUTE_DIRECTORY = 0 ∧ flags &&& O_DIRECTORY ≠ 0 then
      ⟨- ENOTDIR, none, [.created], [], none, request⟩
    else ⟨0, some .created, [.created], [], none, request⟩

/-- The fields of `struct winfs_file` set by `winfs_open`. -/
structure winfs_file where
  handle : Handle
  flags : Nat
  restart_scan : Int
  pathlen : Nat
  pathname : List Byte
  deriving DecidableEq, Repr

/-- Outcome of `winfs_open`: the returned value, the object stored in `*fp`, the handles
obtained and closed, the bytes stored through `target`, and the handle whose file was
truncated, if truncation was requested. -/
structure Open where
  ret : Int
  fp : Option winfs_file
  opened : List Handle
  closed : List Handle
  target : Option (List Byte)
  truncated : Option Handle
  deriving DecidableEq, Repr

/-- The `desired_access` that `winfs_open` derives from the flags; `O_DELETE` is the value
of the internal flag `__O_DELETE`. -/
def open_desired_access (O_DELETE flags : Nat) : Nat :=
  let desired_access :=
    if flags &&& O_PATH ≠ 0 then 0
    else if flags &&& O_RDWR ≠ 0 then GENERIC_READ ||| GENERIC_WRITE
    else if flags &&& O_WRONLY ≠ 0 then GENERIC_WRITE
    else GENERIC_READ
  if flags &&& O_DELETE ≠ 0 then desired_access ||| DELETE else desired_access

/-- The `create_disposition` that `winfs_open` derives from the flags. -/
def open_create_disposition (flags : Nat) : Nat :=
  if flags &&& O_EXCL ≠ 0 then FILE_CREATE
  else if flags &&& O_CREAT ≠ 0 then FILE_OPEN_IF
  else FILE_OPEN

/-- Function `winfs_open(fs, pathname, flags, mode, fp, target, buflen)`.  `mode` is not
used by the code, and `fp_null` says whether `fp == NULL`. -/
def winfs_open (utf8_to_utf16_filename : List Byte → Nat → Int → Int × List WChar)
    (cwd : List WChar) (host : OpenHost) (O_DELETE : Nat) (pathname : List Byte) (flags : Nat)
    (fp_null : Bool) (target_null : Bool) (buflen : Int) : Open :=
  let o := open_file utf8_to_utf16_filename cwd host pathname
    (open_desired_access O_DELETE flags) (open_create_disposition flags) flags target_null buflen
  let handle := o.hFile.getD .uninitialised
  if o.ret < 0 ∨ o.ret = 1 then ⟨o.ret, none, o.opened, o.closed, o.target, none⟩
  else
    let truncated :=
      if flags &&& O_TRUNC ≠ 0 ∧ (flags &&& O_WRONLY ≠ 0 ∨ flags &&& O_RDWR ≠ 0) then some handle
      else none
    if ¬ fp_null then
      let pathlen := strlen pathname
      ⟨0, some ⟨handle, flags, 1, pathlen, pathname.take pathlen⟩, o.opened, o.closed,
        o.target, truncated⟩
    else ⟨0, none, o.opened, o.closed ++ [handle], o.target, truncated⟩

/-! ## Trap dispatcher -/

def DBG_CONTROL_C : Nat := 0x40010005
def EXCEPTION_ACCESS_VIOLATION : Nat := 0xC0000005
def EXCEPTION_CONTINUE_EXECUTION : Int := -1
def EXCEPTION_CONTINUE_SEARCH : Int := 0

/-- The registers of `CONTEXT` that the handler touches.  On the 32-bit build `Rax` ..
`Rdi` stand for `Eax` .. `Edi`, `Xip` for `Eip`, and `R8` .. `R15` are not there. -/
structure Context where
  Rax : Nat
  Rcx : Nat
  Rdx : Nat
  Rbx : Nat
  Rsp : Nat
  Rbp : Nat
  Rsi : Nat
  Rdi : Nat
  R8 : Nat
  R9 : Nat
  R10 : Nat
  R11 : Nat
  R12 : Nat
  R13 : Nat
  R14 : Nat
  R15 : Nat
  Xip : Nat
  deriving DecidableEq, Repr

/-- The fields of `EXCEPTION_RECORD` that the handler reads. -/
structure ExceptionRecord where
  ExceptionCode : Nat
  ExceptionInformation0 : Nat
  ExceptionInformation1 : Nat
  deriving DecidableEq, Repr

/-- The three guarded memory-access helpers of the memory manager. -/
inductive Helper where
  | mm_check_read
  | mm_check_read_string
  | mm_check_write
  deriving DecidableEq, Repr

/-- What the handler finds around it: the build (`_WIN64` or not), the memory of the
process, the routines it calls and the addresses of the nine labels. -/
structure Env where
  win64 : Bool
  byte_at : Nat → Nat
  qword_at : Nat → Nat
  mm_handle_page_fault : Nat → Bool
  dispatch_syscall : Context → Context
  sys_gettimeofday : Nat → Nat → Int
  sys_time : Nat → Int
  sys_getcpu : Nat → Nat → Nat → Int
  mm_check_read_begin : Nat
  mm_check_read_end : Nat
  mm_check_read_fail : Nat
  mm_check_read_string_begin : Nat
  mm_check_read_string_end : Nat
  mm_check_read_string_fail : Nat
  mm_check_write_begin : Nat
  mm_check_write_end : Nat
  mm_check_write_fail : Nat

/-- The calls the handler makes, as they appear in its trace. -/
inductive Event where
  | log_info_ip (xip : Nat)
  | mm_handle_page_fault (addr : Nat)
  | dispatch_syscall (ctx : Context)
  | sys_gettimeofday (tv tz : Nat)
  | sys_time (t : Nat)
  | sys_getcpu (cpu node tcache : Nat)
  | log_warning_failed (helper : Helper) (addr : Nat)
  | log_error_page_fault (kind addr xip : Nat)
  | log_info_crashed
  | mm_dump_memory_mappings
  | mm_dump_windows_memory_mappings
  | mm_dump_stack_trace (ctx : Context)
  | log_info_register (name : String) (value : Nat)
  | log_shutdown
  deriving DecidableEq, Repr

/-- Outcome of the handler: the returned disposition, the context it leaves and the
calls it made, in order. -/
structure Outcome where
  ret : Int
  ctx : Context
  trace : List Event
  deriving DecidableEq, Repr

/-- Width in bits of a pointer and of `XWORD`. -/
def Env.bits (env : Env) : Nat := if env.win64 then 64 else 32

/-- Conversion of an integer to a `DWORD64`. -/
def qword (x : Int) : Nat := (x % 2 ^ 64).toNat

/-- The register dump at the end of the handler. -/
def dump_registers (env : Env) (ctx : Context) : List Event :=
  if env.win64 then
    [.log_info_register "RAX" ctx.Rax, .log_info_register "RCX" ctx.Rcx,
     .log_info_register "RDX" ctx.Rdx, .log_info_register "RBX" ctx.Rbx,
     .log_info_register "RSP" ctx.Rsp, .log_info_register "RBP" ctx.Rbp,
     .log_info_register "RSI" ctx.Rsi, .log_info_register "RDI" ctx.Rdi,
     .log_info_register "R8" ctx.R8, .log_info_register "R9" ctx.R9,
     .log_info_register "R10" ctx.R10, .log_info_register "R11" ctx.R11,
     .log_info_register "R12" ctx.R12, .log_info_register "R13" ctx.R13,
     .log_info_register "R14" ctx.R14, .log_info_register "R15" ctx.R15]
  else
    [.log_info_register "EAX" ctx.Rax, .log_info_register "ECX" ctx.Rcx,
     .log_info_register "EDX" ctx.Rdx, .log_info_register "EBX" ctx.Rbx,
     .log_info_register "ESP" ctx.Rsp, .log_info_register "EBP" ctx.Rbp,
     .log_info_register "ESI" ctx.Rsi, .log_info_register "EDI" ctx.Rdi]

/-- The end of the handler, from `log_info("Application crashed, ..")` on. -/
def crash (env : Env) (ctx : Context) (trace : List Event) : Outcome :=
  ⟨EXCEPTION_CONTINUE_SEARCH, ctx,
    trace ++ [.log_info_crashed, .mm_dump_memory_mappings, .mm_dump_windows_memory_mappings,
      .mm_dump_stack_trace ctx] ++ dump_registers env ctx ++ [.log_shutdown]⟩

/-- The `log_error("Page fault(..)")` lines at the end of the access violation branch,
followed by the end of the handler. -/
def page_fault_crash (env : Env) (rec : ExceptionRecord) (ctx : Context)
    (trace : List Event) : Outcome :=
  if rec.ExceptionInformation0 = 0 ∨ rec.ExceptionInformation0 = 1 ∨
      rec.ExceptionInformation0 = 8 then
    crash env ctx (trace ++
      [.log_error_page_fault rec.ExceptionInformation0 rec.ExceptionInformation1 ctx.Xip])
  else crash env ctx trace

/-- The return from an emulated vsyscall: result in `Rax`, return address popped. -/
def vsyscall_return (env : Env) (ctx : Context) (result : Int) : Context :=
  { ctx with Rax := qword result, Xip := env.qword_at ctx.Rsp, Rsp := (ctx.Rsp + 8) % 2 ^ 64 }

/-- Function `exception_handler(ep)` on the record and the context that `ep` points to. -/
def exception_handler (env : Env) (rec : ExceptionRecord) (ctx : Context) : Outcome :=
  if rec.ExceptionCode = DBG_CONTROL_C then ⟨EXCEPTION_CONTINUE_SEARCH, ctx, []⟩
  else if rec.ExceptionCode = EXCEPTION_ACCESS_VIOLATION then
    let code := ctx.Xip
    if rec.ExceptionInformation0 = 8 then
      if env.win64 = true ∧ code = 0xFFFFFFFFFF600000 then
        ⟨EXCEPTION_CONTINUE_EXECUTION,
          vsyscall_return env ctx (env.sys_gettimeofday ctx.Rdi ctx.Rsi),
          [.sys_gettimeofday ctx.Rdi ctx.Rsi]⟩
      else if env.win64 = true ∧ code = 0xFFFFFFFFFF600400 then
        ⟨EXCEPTION_CONTINUE_EXECUTION, vsyscall_return env ctx (env.sys_time ctx.Rdi),
          [.sys_time ctx.Rdi]⟩
      else if env.win64 = true ∧ code = 0xFFFFFFFFFF600800 then
        ⟨EXCEPTION_CONTINUE_EXECUTION,
          vsyscall_return env ctx (env.sys_getcpu ctx.Rdi ctx.Rsi ctx.Rdx),
          [.sys_getcpu ctx.Rdi ctx.Rsi ctx.Rdx]⟩
      else if env.mm_handle_page_fault code = true then
        ⟨EXCEPTION_CONTINUE_EXECUTION, ctx, [.mm_handle_page_fault code]⟩
      else
        let next := (code + 0x1000) % 2 ^ env.bits
        if env.mm_handle_page_fault next = true then
          ⟨EXCEPTION_CONTINUE_EXECUTION, ctx,
            [.mm_handle_page_fault code, .mm_handle_page_fault next]⟩
        else
          page_fault_crash env rec ctx [.mm_handle_page_fault code, .mm_handle_page_fault next]
    else
      let t0 : List Event := [.log_info_ip ctx.Xip]
      if env.win64 = true ∧ env.byte_at code = 0xCD ∧ env.byte_at (code + 1) = 0x80 then
        let ctx1 := { ctx with Xip := (ctx.Xip + 2) % 2 ^ env.bits }
        ⟨EXCEPTION_CONTINUE_EXECUTION, env.dispatch_syscall ctx1, t0 ++ [.dispatch_syscall ctx1]⟩
      else
        let addr := rec.ExceptionInformation1
        let t1 := t0 ++ [.mm_handle_page_fault addr]
        if env.mm_handle_page_fault addr = true then ⟨EXCEPTION_CONTINUE_EXECUTION, ctx, t1⟩
        else
          let ip := ctx.Xip
          if env.mm_check_read_begin ≤ ip ∧ ip ≤ env.mm_check_read_end then
            ⟨EXCEPTION_CONTINUE_EXECUTION, { ctx with Xip := env.mm_check_read_fail },
              t1 ++ [.log_warning_failed .mm_check_read addr]⟩
          else if env.mm_check_read_string_begin ≤ ip ∧ ip ≤ env.mm_check_read_string_end then
            ⟨EXCEPTION_CONTINUE_EXECUTION, { ctx with Xip := env.mm_check_read_string_fail },
              t1 ++ [.log_warning_failed .mm_check_read_string addr]⟩
          else if env.mm_check_write_begin ≤ ip ∧ ip ≤ env.mm_check_write_end then
            ⟨EXCEPTION_CONTINUE_EXECUTION, { ctx with Xip := env.mm_check_write_fail },
              t1 ++ [.log_warning_failed .mm_check_write addr]⟩
          else page_fault_crash env rec ctx t1
  else crash env ctx []

/-- Number of calls of the page-fault resolver in a trace. -/
def resolver_calls (trace : List Event) : Nat :=
  (trace.filter (fun e => match e with
    | .mm_handle_page_fault _ => true
    | _ => false)).length

/-! ## Seek -/

/-- Linux `whence` values and the Windows move methods. -/
def SEEK_SET : Int := 0
def SEEK_CUR : Int := 1
def SEEK_END : Int := 2
def FILE_BEGIN : Nat := 0
def FILE_CURRENT : Nat := 1
def FILE_END : Nat := 2

/-- Host `SetFilePointerEx` on a file of `size` bytes whose pointer is at `position`: the
new pointer, or `none` when the call fails because the new pointer would be negative. -/
def SetFilePointerEx (position : Int) (size : Nat) (distance : Int) (method : Nat) :
    Option Int :=
  let base : Int :=
    if method = FILE_BEGIN then 0 else if method = FILE_CURRENT then position else size
  if base + distance < 0 then none else some (base + distance)

/-- Outcome of `winfs_llseek`: the returned value, the value stored in `*newoffset`
(`none` when nothing is stored, or when what is stored is the indeterminate value left by
a failed `SetFilePointerEx`), the flag and the file pointer of the handle afterwards, and
the lock, pointer and flag events in order. -/
structure Seek where
  ret : Int
  newoffset : Option Int
  restart_scan : Int
  position : Int
  events : List HandleEvent
  deriving DecidableEq, Repr

/-- Function `winfs_llseek(f, offset, newoffset, whence)` on a handle with the flag
`restart_scan` and the file pointer `position`, on a file of `size` bytes. -/
def winfs_llseek (restart_scan : Int) (position : Int) (size : Nat) (offset : Int)
    (whence : Int) : Seek :=
  if whence ≠ SEEK_SET ∧ whence ≠ SEEK_CUR ∧ whence ≠ SEEK_END then
    ⟨- EINVAL, none, restart_scan, position, []⟩
  else
    let dwMoveMethod :=
      if whence = SEEK_SET then FILE_BEGIN
      else if whence = SEEK_CUR then FILE_CURRENT
      else FILE_END
    let moved := SetFilePointerEx position size offset dwMoveMethod
    let position1 := moved.getD position
    if whence = SEEK_SET ∧ offset = 0 then
      ⟨0, moved, 1, position1,
        [.AcquireSRWLockExclusive, .SetFilePointerEx, .store_restart_scan 1,
          .ReleaseSRWLockExclusive]⟩
    else
      ⟨0, moved, restart_scan, position1,
        [.AcquireSRWLockExclusive, .SetFilePointerEx, .ReleaseSRWLockExclusive]⟩

/-! ## Operations table -/

/-- The entries of `winfs_ops`. -/
inductive FileOp where
  | close
  | getpath
  | read
  | write
  | pread
  | pwrite
  | readlink
  | truncate
  | fsync
  | llseek
  | stat
  | utimens
  | getdents
  | statfs
  deriving DecidableEq, Repr

/-- Mode in which a function takes the lock of the handle. -/
inductive LockMode where
  | shared
  | exclusive
  deriving DecidableEq, Repr

/-- The lock each function of `winfs_ops` takes on `f->rw_lock`: `winfs_close` takes
none, `winfs_llseek` calls `AcquireSRWLockExclusive`, every other function calls
`AcquireSRWLockShared`. -/
def FileOp.rw_lock : FileOp → Option LockMode
  | .close => none
  | .llseek => some .exclusive
  | _ => some .shared

/-- Whether the body of the function assigns `winfile->restart_scan`: only
`winfs_llseek` (`restart_scan = 1`) and `winfs_getdents` (`restart_scan = 0`) do. -/
def FileOp.assigns_restart_scan : FileOp → Bool
  | .llseek => true
  | .getdents => true
  | _ => false

/-! ## Unlink and rename -/

def STATUS_SUCCESS : Nat := 0
def STATUS_ACCESS_DENIED : Nat := 0xC0000022
def STATUS_SHARING_VIOLATION : Nat := 0xC0000043
def FILE_SHARE_READ : Nat := 1
def FILE_SHARE_WRITE : Nat := 2
def FILE_SHARE_DELETE : Nat := 4
def FILE_NON_DIRECTORY_FILE : Nat := 0x40

/-- The UTF-16 units of a string literal such as `L"$Recycle.Bin\\"`. -/
def wide (s : String) : List WChar := s.toList.map Char.toNat

/-- The content of a buffer that held `init` after a sequence of stores. -/
def buffer_after (init : Int → WChar) (stores : List (Int × WChar)) : Int → WChar :=
  fun i =>
    match stores.reverse.find? (fun s => s.1 == i) with
    | some s => s.2
    | none => init i

/-- The first `n` units of a buffer. -/
def buffer_units (buf : Int → WChar) (n : Nat) : List WChar :=
  (List.range n).map (fun (i : Nat) => buf (i : Int))

/-- The units of a buffer from index `i` up to the first NUL, at most `limit` of them. -/
def wide_string_at (buf : Int → WChar) : Nat → Int → List WChar
  | 0, _ => []
  | limit + 1, i => if buf i = 0 then [] else buf i :: wide_string_at buf limit (i + 1)

/-- Host `RtlInitUnicodeString(&s, p)`: the string at `p` up to its NUL; the length
field holds at most 32766 units. -/
def RtlInitUnicodeString (buf : Int → WChar) : List WChar := wide_string_at buf 32766 0

/-- Host `RtlAppendUnicodeStringToString` and `RtlAppendUnicodeToString` on a destination
whose buffer holds `max` units: the source is appended when it fits, else the destination
stays as it is (the status is not looked at by the code). -/
def RtlAppend (max : Nat) (dest src : List WChar) : List WChar :=
  if dest.length + src.length ≤ max then dest ++ src else dest

/-- Handles in `winfs_unlink` and `winfs_rename`: the one from the first `NtOpenFile`, the
one from the second, and the handle of the file being renamed. -/
inductive FsHandle where
  | first
  | second
  | file
  deriving DecidableEq, Repr

/-- The host calls of `winfs_unlink`, `move_to_recycle_bin` and `winfs_rename`:
`NtOpenFile` with its name, access, sharing and options; `NtQueryInformationFile` for
`FileInternalInformation`; `NtSetInformationFile` for `FileRenameInformation` with the new
name and `ReplaceIfExists`, and for `FileDispositionInformation` with `DeleteFile = TRUE`;
`NtClose`. -/
inductive HostCall where
  | NtOpenFile (name : List WChar) (DesiredAccess ShareAccess OpenOptions : Nat)
  | FileInternalInformation (handle : FsHandle)
  | FileRenameInformation (handle : FsHandle) (FileName : List WChar) (ReplaceIfExists : Bool)
  | FileDispositionInformation (handle : FsHandle)
  | NtClose (handle : FsHandle)
  deriving DecidableEq, Repr

/-- What `move_to_recycle_bin` and `winfs_unlink` take from outside: the string that
`RtlConvertSidToUnicodeString` gives for the SID of the user, `RtlHashUnicodeString`,
the digits that `RtlAppendInt64ToString(value, 16, ..)` and
`RtlAppendIntegerToString(value, 16, ..)` append, what the memory at `wpathname` in
`winfs_unlink` holds before it is written, and the offset in bytes of the member
`FileName` in `FILE_RENAME_INFORMATION` (the routines and the structure are declared in
`ntdll.h`; the offset is 20 with 8-byte handles and 12 with 4-byte handles). -/
structure Recycler where
  sid : List WChar
  hash : List WChar → Nat
  hex64 : Nat → List WChar
  hex32 : Nat → List WChar
  wpathname : Int → WChar
  FileName_offset : Nat

/-- Answers of the host during one `winfs_unlink`: the statuses of the first and of the
second `NtOpenFile`, of the file id query with the id it reports, of the rename and of
the disposition request. -/
structure UnlinkHost where
  open_status : Nat
  reopen_status : Nat
  internal_status : Nat
  IndexNumber : Nat
  rename_status : Nat
  disposition_status : Nat
  deriving DecidableEq, Repr

/-- The name that `move_to_recycle_bin` builds in `rename` from the memory at the pointer
`pathname`, the file id `IndexNumber` and the user of `R`; both `recyclepath` and
`renamepath` hold 512 units.  The root is made of the 7 units at `pathname`, whatever
they are (`RtlInitCountedUnicodeString` with 14 bytes); the string that is hashed is the
one `RtlInitUnicodeString` finds at `pathname`, which ends at the first NUL. -/
def recycle_name (R : Recycler) (pathname : Int → WChar) (IndexNumber : Nat) : List WChar :=
  let root := buffer_units pathname 7
  let recycle := RtlAppend 512 (RtlAppend 512 [] root) (wide "$Recycle.Bin\\")
  let rename0 := RtlAppend 512 [] recycle
  let rename1 := RtlAppend 512 rename0 R.sid
  let rename2 := RtlAppend 512 rename1 (wide "\\")
  let rename3 := RtlAppend 512 rename2 (wide ".flinux")
  let rename4 := RtlAppend 512 rename3 (R.hex64 IndexNumber)
  let rename5 := RtlAppend 512 rename4 (wide "_")
  RtlAppend 512 rename5 (R.hex32 (R.hash (RtlInitUnicodeString pathname)))

/-- Outcome of `move_to_recycle_bin`: the returned status and the host calls. -/
structure Recycled where
  status : Nat
  calls : List HostCall
  deriving DecidableEq, Repr

/-- Function `move_to_recycle_bin(handle, pathname)` on the memory at `pathname`.  The
request is staged in `char buf[512]`: the name is copied to `info->FileName` with
`memcpy(info->FileName, rename.Buffer, rename.Length)`.  When the copy would end past
the 512 bytes of `buf` the behaviour is undefined and the result is `none`. -/
def move_to_recycle_bin (R : Recycler) (host : UnlinkHost) (handle : FsHandle)
    (pathname : Int → WChar) : Option Recycled :=
  if ¬ NT_SUCCESS host.internal_status then
    some ⟨host.internal_status, [.FileInternalInformation handle]⟩
  else
    let rename := recycle_name R pathname host.IndexNumber
    if 512 < R.FileName_offset + 2 * rename.length then none
    else
      let calls : List HostCall :=
        [.FileInternalInformation handle, .FileRenameInformation handle rename false]
      if ¬ NT_SUCCESS host.rename_status then some ⟨host.rename_status, calls⟩
      else some ⟨STATUS_SUCCESS, calls⟩

/-- Outcome of `winfs_unlink` and of `winfs_rename`: the returned value and the host
calls, in order. -/
structure Unlinked where
  ret : Int
  calls : List HostCall
  deriving DecidableEq, Repr

/-- The end of `winfs_unlink`, from `/* Set disposition flag */` on. -/
def unlink_set_disposition (host : UnlinkHost) (handle : FsHandle) (calls : List HostCall) :
    Unlinked :=
  if ¬ NT_SUCCESS host.disposition_status then
    ⟨- EBUSY, calls ++ [.FileDispositionInformation handle]⟩
  else ⟨0, calls ++ [.FileDispositionInformation handle, .NtClose handle]⟩

/-- Function `winfs_unlink(fs, pathname)`; `none` when `move_to_recycle_bin` has no
defined result.  The pointer handed to `move_to_recycle_bin` is `wpathname` itself, to
which `filename_to_nt_pathname` has appended no NUL. -/
def winfs_unlink (utf8_to_utf16_filename : List Byte → Nat → Int → Int × List WChar)
    (cwd : List WChar) (R : Recycler) (host : UnlinkHost) (pathname : List Byte) :
    Option Unlinked :=
  let t := filename_to_nt_pathname utf8_to_utf16_filename cwd pathname PATH_MAX
  let len := t.ret
  if len ≤ 0 then some ⟨- ENOENT, []⟩
  else
    let wpathname := buffer_after R.wpathname t.stores
    -- object_name.Length is a USHORT, in bytes
    let object_name := buffer_units wpathname (((len * 2) % 2 ^ 16).toNat / 2)
    let open1 : HostCall :=
      .NtOpenFile object_name DELETE FILE_SHARE_DELETE
        (FILE_NON_DIRECTORY_FILE ||| FILE_OPEN_FOR_BACKUP_INTENT)
    if NT_SUCCESS host.open_status then some (unlink_set_disposition host .first [open1])
    else if host.open_status ≠ STATUS_SHARING_VIOLATION then some ⟨- ENOENT, [open1]⟩
    else
      let open2 : HostCall :=
        .NtOpenFile object_name DELETE (FILE_SHARE_READ ||| FILE_SHARE_WRITE ||| FILE_SHARE_DELETE)
          (FILE_NON_DIRECTORY_FILE ||| FILE_OPEN_FOR_BACKUP_INTENT)
      if ¬ NT_SUCCESS host.reopen_status then some ⟨- EBUSY, [open1, open2]⟩
      else
        match move_to_recycle_bin R host .second wpathname with
        | none => none
        | some m =>
          if ¬ NT_SUCCESS m.status then some ⟨- EBUSY, [open1, open2] ++ m.calls⟩
          else some (unlink_set_disposition host .second ([open1, open2] ++ m.calls))

/-- Answers of the host during one round of `winfs_rename`: the status of the rename
request, and the answers during the `winfs_unlink` of the destination if there is one. -/
structure RenameHost where
  rename_status : Nat
  unlink : UnlinkHost
  deriving DecidableEq, Repr

/-- The code of `winfs_rename` from the label `retry` on; `remaining` is the value of
`retry_count` after the decrement, `round` counts the rounds already made, `host round`
holds the answers of the host in that round, and `buf` is what the buffer of the rename
request holds before it is written.  The result is `none` when a `winfs_unlink` of the
destination has no defined result. -/
def winfs_rename_retry (utf8_to_utf16_filename : List Byte → Nat → Int → Int × List WChar)
    (cwd : List WChar) (R : Recycler) (buf : Int → WChar) (host : Nat → RenameHost)
    (newpath : List Byte) : Nat → Nat → List HostCall → Option Unlinked
  | 0, _, calls => some ⟨- EPERM, calls⟩
  | remaining + 1, round, calls =>
    let t := filename_to_nt_pathname utf8_to_utf16_filename cwd newpath PATH_MAX
    let FileNameLength := dword (2 * t.ret)
    if FileNameLength = 0 then some ⟨- ENOENT, calls⟩
    else
      let FileName := buffer_units (buffer_after buf t.stores) (FileNameLength / 2)
      let calls1 := calls ++ [.FileRenameInformation .file FileName true]
      if ¬ NT_SUCCESS (host round).rename_status then
        if (host round).rename_status = STATUS_ACCESS_DENIED then
          match winfs_unlink utf8_to_utf16_filename cwd R (host round).unlink newpath with
          | none => none
          | some u =>
            if u.ret ≠ 0 then some ⟨u.ret, calls1 ++ u.calls⟩
            else
              winfs_rename_retry utf8_to_utf16_filename cwd R buf host newpath remaining
                (round + 1) (calls1 ++ u.calls)
        else some ⟨- ENOENT, calls1⟩
      else some ⟨0, calls1⟩

/-- Function `winfs_rename(fs, f, newpath)`: `retry_count` starts at 5 and is decremented
before it is tested, so the first test sees 4. -/
def winfs_rename (utf8_to_utf16_filename : List Byte → Nat → Int → Int × List WChar)
    (cwd : List WChar) (R : Recycler) (buf : Int → WChar) (host : Nat → RenameHost)
    (newpath : List Byte) : Option Unlinked :=
  winfs_rename_retry utf8_to_utf16_filename cwd R buf host newpath 4 0 []

/-- Number of rename requests with `ReplaceIfExists` set among the host calls. -/
def rename_requests (calls : List HostCall) : Nat :=
  (calls.filter (fun c => match c with
    | .FileRenameInformation _ _ true => true
    | _ => false)).length

/-! ## Measures on transfers -/

/-- The chunking rule of the specification, as a check on the requests made against the
answers `script` for a transfer of `count` bytes: every request asks for
`min(remaining, 2^32 - 1)` bytes, where the remaining count starts at `count` and goes
down by what each answer moved. -/
def requests_chunked : Nat → List Transfer → List Request → Bool
  | _, _, [] => true
  | _, [], _ :: _ => false
  | count, t :: script, q :: reqs =>
    q.count_dword == min count (2 ^ 32 - 1) &&
      requests_chunked (count - (t.moved q.count_dword).getD 0) script reqs

/-- The bytes that the answers `script` moved for the requests `reqs`. -/
def bytes_moved : List Transfer → List Request → Nat
  | t :: script, q :: reqs => (t.moved q.count_dword).getD 0 + bytes_moved script reqs
  | _, _ => 0

/-! ## Sample inputs -/

/-- A transcoder for names made of ASCII bytes: every byte becomes one UTF-16 unit; it
fails (returns 0) when the units do not fit the buffer. -/
def ascii_to_utf16 (filename : List Byte) (len : Nat) (buf_size : Int) : Int × List WChar :=
  if (len : Int) ≤ buf_size then (len, (filename ++ [0]).take len) else (0, [])

/-- A host without files that never refuses to create one. -/
def emptyHost : Host := ⟨fun _ => none, fun _ => none⟩

/-- A 64-bit environment: the bytes `CD 80` at address 0x1000, zeros elsewhere; a
resolver that can populate only the page at 0x5000; a syscall dispatcher that puts 7 in
`Rax`; and three guarded helpers occupying 0x2000-0x200F, 0x2010-0x201F and
0x2020-0x202F, their failure labels being the last byte of each range. -/
def sampleEnv : Env where
  win64 := true
  byte_at := fun a => if a = 0x1000 then 0xCD else if a = 0x1001 then 0x80 else 0
  qword_at := fun _ => 0x4000
  mm_handle_page_fault := fun a => decide (a = 0x5000)
  dispatch_syscall := fun ctx => { ctx with Rax := 7 }
  sys_gettimeofday := fun _ _ => 0
  sys_time := fun _ => 1
  sys_getcpu := fun _ _ _ => 0
  mm_check_read_begin := 0x2000
  mm_check_read_end := 0x200F
  mm_check_read_fail := 0x200F
  mm_check_read_string_begin := 0x2010
  mm_check_read_string_end := 0x201F
  mm_check_read_string_fail := 0x201F
  mm_check_write_begin := 0x2020
  mm_check_write_end := 0x202F
  mm_check_write_fail := 0x202F

/-- A context with every register zero except the stack pointer and the instruction
pointer `xip`. -/
def sampleContext (xip : Nat) : Context :=
  ⟨0, 0, 0, 0, 0x7000, 0, 0, 0, 0, 0, 0, 0, 0, 0, 0, 0, xip⟩

/-- Hexadecimal digit as a UTF-16 unit, lower case. -/
def hex_digit (d : Nat) : WChar := if d < 10 then 48 + d else 87 + d

/-- Hexadecimal digits of a number, most significant first, none for zero. -/
def hex_digits (n : Nat) : List WChar := ((Nat.digits 16 n).reverse).map hex_digit

/-- A user with the SID `S-1-5-18`, a hash that adds the units of the string up modulo
`2^32`, hexadecimal digits without leading zeros, and a zeroed buffer. -/
def sampleRecycler : Recycler where
  sid := wide "S-1-5-18"
  hash := fun s => s.sum % 2 ^ 32
  hex64 := hex_digits
  hex32 := hex_digits
  wpathname := fun _ => 0
  FileName_offset := 20

/-- The sample user on a stack where the two units after the first 10 units of the
buffer `wpathname` hold the letter `A` from an earlier use, and a NUL follows. -/
def dirtyRecycler : Recycler :=
  { sampleRecycler with wpathname := fun i => if i = 10 ∨ i = 11 then 0x41 else 0 }

/-- A host on which the file is open elsewhere (the first open meets a sharing
violation) and every other request succeeds; the file id is 0x2A. -/
def busyUnlinkHost : UnlinkHost := ⟨STATUS_SHARING_VIOLATION, 0, 0, 0x2A, 0, 0⟩

/-- A host on which every request of `winfs_unlink` succeeds at once; the file id is
0x2A. -/
def idleUnlinkHost : UnlinkHost := ⟨0, 0, 0, 0x2A, 0, 0⟩

/-! # Theorems -/

theorem int32_of_bounds (n : Int) (h0 : -2 ^ 31 ≤ n) (h1 : n < 2 ^ 31) : int32 n = n := by
  unfold int32; omega

theorem readFile_header (content : List Byte) :
    ReadFile_at content 0 WINFS_SYMLINK_HEADER_LEN =
      if content = [] then none else some (content.take WINFS_SYMLINK_HEADER_LEN) := by
  unfold ReadFile_at
  cases content <;> simp

theorem header_len : WINFS_SYMLINK_HEADER_LEN = 14 := rfl

theorem take_eq_header_iff (content : List Byte) :
    content.take WINFS_SYMLINK_HEADER_LEN = WINFS_SYMLINK_HEADER ↔ WINFS_SYMLINK_HEADER <+: content := by
  rw [List.prefix_iff_eq_take]
  exact eq_comm

theorem winfs_is_symlink_iff (content : List Byte) :
    winfs_is_symlink content = 1 ↔ WINFS_SYMLINK_HEADER <+: content := by
  rw [← take_eq_header_iff]
  unfold winfs_is_symlink
  rw [readFile_header]
  by_cases hc : content = []
  · subst hc; simp [WINFS_SYMLINK_HEADER]
  · simp only [hc, if_false]
    by_cases hl : (content.take WINFS_SYMLINK_HEADER_LEN).length < WINFS_SYMLINK_HEADER_LEN
    · simp only [hl, if_true]
      constructor
      · intro h; simp at h
      · intro h; rw [h] at hl; simp [WINFS_SYMLINK_HEADER_LEN] at hl
    · simp only [hl, if_false]
      by_cases he : content.take WINFS_SYMLINK_HEADER_LEN = WINFS_SYMLINK_HEADER
      · simp [he]
      · simp [he]

theorem winfs_is_symlink_cases (content : List Byte) :
    winfs_is_symlink content = 0 ∨ winfs_is_symlink content = 1 := by
  unfold winfs_is_symlink
  split
  · simp
  · split_ifs <;> simp

theorem header_check_pass (content : List Byte) (h : WINFS_SYMLINK_HEADER <+: content) :
    ReadFile_at content 0 WINFS_SYMLINK_HEADER_LEN = some WINFS_SYMLINK_HEADER := by
  rw [readFile_header, (take_eq_header_iff content).mpr h]
  obtain ⟨t, rfl⟩ := h
  simp [WINFS_SYMLINK_HEADER]

theorem winfs_read_symlink_of_header (content : List Byte) (tn : Bool) (buflen : Int)
    (h : WINFS_SYMLINK_HEADER <+: content) :
    winfs_read_symlink content tn buflen =
      if tn || buflen == 0 then
        if content.length - WINFS_SYMLINK_HEADER_LEN ≥ PATH_MAX then ⟨0, none⟩
        else ⟨int32 (int32 content.length - WINFS_SYMLINK_HEADER_LEN), none⟩
      else
        match ReadFile_at content WINFS_SYMLINK_HEADER_LEN (dword buflen) with
        | none => ⟨0, none⟩
        | some data => ⟨int32 data.length, some (data ++ [0])⟩ := by
  unfold winfs_read_symlink
  rw [header_check_pass content h]
  simp [WINFS_SYMLINK_HEADER_LEN]

theorem winfs_read_symlink_no_header (content : List Byte) (tn : Bool) (buflen : Int)
    (h : ¬ WINFS_SYMLINK_HEADER <+: content) :
    winfs_read_symlink content tn buflen = ⟨0, none⟩ := by
  have h2 : content.take WINFS_SYMLINK_HEADER_LEN ≠ WINFS_SYMLINK_HEADER :=
    fun e => h ((take_eq_header_iff content).mp e)
  unfold winfs_read_symlink
  rw [readFile_header]
  by_cases hc : content = []
  · simp [hc]
  · simp only [hc, if_false]
    split_ifs <;> rfl

theorem prefix_length_le (content : List Byte) (h : WINFS_SYMLINK_HEADER <+: content) :
    WINFS_SYMLINK_HEADER_LEN ≤ content.length := h.length_le

theorem winfs_read_symlink_size_pos (content : List Byte) :
    0 < (winfs_read_symlink content true 0).ret ↔
      (WINFS_SYMLINK_HEADER <+: content ∧ WINFS_SYMLINK_HEADER_LEN < content.length ∧
        content.length - WINFS_SYMLINK_HEADER_LEN < PATH_MAX) := by
  by_cases h : WINFS_SYMLINK_HEADER <+: content
  · have hl := prefix_length_le content h
    rw [winfs_read_symlink_of_header content true 0 h]
    simp only [Bool.true_or, if_true, h, true_and]
    rw [header_len] at hl ⊢
    by_cases hp : content.length - 14 ≥ PATH_MAX
    · simp only [hp, if_true]
      constructor
      · intro h0; simp at h0
      · intro h0; omega
    · simp only [hp, if_false]
      unfold PATH_MAX at hp
      have e1 : int32 (content.length : Int) = content.length := int32_of_bounds _ (by omega) (by omega)
      rw [e1]
      have e2 : int32 ((content.length : Int) - (14 : Nat)) = (content.length : Int) - 14 :=
        int32_of_bounds _ (by omega) (by omega)
      rw [e2]
      unfold PATH_MAX
      omega
  · rw [winfs_read_symlink_no_header content true 0 h]
    simp [h]

theorem mode_type_bits (p : Nat) (hp : p = 0o555 ∨ p = 0o755) :
    (p ||| S_IFDIR) &&& S_IFMT = S_IFDIR ∧ (p ||| S_IFREG) &&& S_IFMT = S_IFREG ∧
    (p ||| S_IFLNK) &&& S_IFMT = S_IFLNK := by
  rcases hp with rfl | rfl <;> decide

theorem winfs_stat_type (f : HostFile)
    (hdir : f.dwFileAttributes &&& FILE_ATTRIBUTE_DIRECTORY = 0) :
    (winfs_stat f).st_mode &&& S_IFMT =
      if f.dwFileAttributes &&& FILE_ATTRIBUTE_SYSTEM ≠ 0 ∧ WINFS_SYMLINK_HEADER <+: f.content ∧
          WINFS_SYMLINK_HEADER_LEN < f.content.length ∧
          f.content.length - WINFS_SYMLINK_HEADER_LEN < PATH_MAX
      then S_IFLNK else S_IFREG := by
  have hmode : ∀ a : Nat, (if a &&& FILE_ATTRIBUTE_READONLY ≠ 0 then 0o555 else 0o755) = 0o555 ∨
      (if a &&& FILE_ATTRIBUTE_READONLY ≠ 0 then 0o555 else 0o755) = 0o755 := by
    intro a; split_ifs <;> simp
  have hb := mode_type_bits _ (hmode f.dwFileAttributes)
  have hpos := winfs_read_symlink_size_pos f.content
  unfold winfs_stat
  simp only [hdir, ne_eq, not_true_eq_false, if_false]
  by_cases hs : f.dwFileAttributes &&& FILE_ATTRIBUTE_SYSTEM = 0
  · simp only [hs, not_true_eq_false, false_and, if_false]
    exact hb.2.1
  · by_cases hr : 0 < (winfs_read_symlink f.content true 0).ret
    · have hc := hpos.mp hr
      simp only [hs, not_false_eq_true, true_and, gt_iff_lt, hr, if_true, hc, and_self]
      exact hb.2.2
    · have hc : ¬ (WINFS_SYMLINK_HEADER <+: f.content ∧
          WINFS_SYMLINK_HEADER_LEN < f.content.length ∧
          f.content.length - WINFS_SYMLINK_HEADER_LEN < PATH_MAX) := fun h => hr (hpos.mpr h)
      simp only [hs, not_false_eq_true, true_and, gt_iff_lt, hr, if_false, hc]
      exact hb.2.1

theorem getdents_type_of_file (open_child : List WChar → Option (List Byte)) (info : DirInfo)
    (hdir : info.FileAttributes &&& FILE_ATTRIBUTE_DIRECTORY = 0) :
    getdents_type open_child info =
      if info.FileAttributes &&& FILE_ATTRIBUTE_SYSTEM ≠ 0 ∧
          ∃ content, open_child info.FileName = some content ∧ WINFS_SYMLINK_HEADER <+: content
      then DT_LNK else DT_REG := by
  unfold getdents_type
  simp only [hdir, ne_eq, not_true_eq_false, if_false]
  by_cases hs : info.FileAttributes &&& FILE_ATTRIBUTE_SYSTEM = 0
  · simp [hs]
  · simp only [hs, not_false_eq_true, if_true, true_and]
    cases ho : open_child info.FileName with
    | none => simp
    | some content =>
      have hi := winfs_is_symlink_iff content
      rcases winfs_is_symlink_cases content with h0 | h1
      · have : ¬ WINFS_SYMLINK_HEADER <+: content := fun h => by
          have := hi.mpr h; omega
        simp [h0, this]
      · simp [h1, hi.mp h1]

theorem winfs_stat_oversize (f : HostFile)
    (hdir : f.dwFileAttributes &&& FILE_ATTRIBUTE_DIRECTORY = 0)
    (hbig : PATH_MAX ≤ f.content.length - WINFS_SYMLINK_HEADER_LEN) :
    (winfs_stat f).st_mode &&& S_IFMT = S_IFREG := by
  rw [winfs_stat_type f hdir, if_neg]
  intro h
  omega

/-- C3 (as amended): for every host file that is not a directory, `winfs_stat` reports
`S_IFLNK` exactly when the file has the system attribute, its content begins with the
magic header and the length behind the header is positive and below `PATH_MAX`;
`winfs_getdents` reports `DT_LNK` exactly when the file has the system attribute, the
open of the entry succeeds and the content read begins with the magic header; in every
other case `winfs_stat` reports `S_IFREG` and `winfs_getdents` reports `DT_REG`. -/
theorem link_type_detection (f : HostFile) (name : List WChar) (FileIdHigh FileIdLow : Nat)
    (open_child : List WChar → Option (List Byte))
    (hdir : f.dwFileAttributes &&& FILE_ATTRIBUTE_DIRECTORY = 0) :
    ((winfs_stat f).st_mode &&& S_IFMT = S_IFLNK ↔
      (f.dwFileAttributes &&& FILE_ATTRIBUTE_SYSTEM ≠ 0 ∧ WINFS_SYMLINK_HEADER <+: f.content ∧
        WINFS_SYMLINK_HEADER_LEN < f.content.length ∧
        f.content.length - WINFS_SYMLINK_HEADER_LEN < PATH_MAX)) ∧
    ((winfs_stat f).st_mode &&& S_IFMT = S_IFLNK ∨ (winfs_stat f).st_mode &&& S_IFMT = S_IFREG) ∧
    (getdents_type open_child ⟨FileIdHigh, FileIdLow, f.dwFileAttributes, name⟩ = DT_LNK ↔
      (f.dwFileAttributes &&& FILE_ATTRIBUTE_SYSTEM ≠ 0 ∧
        ∃ content, open_child name = some content ∧ WINFS_SYMLINK_HEADER <+: content)) ∧
    (getdents_type open_child ⟨FileIdHigh, FileIdLow, f.dwFileAttributes, name⟩ = DT_LNK ∨
      getdents_type open_child ⟨FileIdHigh, FileIdLow, f.dwFileAttributes, name⟩ = DT_REG) := by
  have h1 := winfs_stat_type f hdir
  have h2 := getdents_type_of_file open_child ⟨FileIdHigh, FileIdLow, f.dwFileAttributes, name⟩ hdir
  simp only at h2
  rw [h1, h2]
  refine ⟨?_, ?_, ?_, ?_⟩
  · split_ifs with h
    · simp [h]
    · simp only [h, iff_false]; decide
  · split_ifs <;> simp
  · split_ifs with h
    · simp only [true_iff]; exact h
    · simp only [h, iff_false]; decide
  · split_ifs <;> simp

/-- Witness of C3: a file with the system attribute that holds the header and the
target `a`. -/
theorem link_type_detection_witness :
    (4 : Nat) &&& FILE_ATTRIBUTE_DIRECTORY = 0 ∧
    (winfs_stat ⟨4, 0, 7, 1, WINFS_SYMLINK_HEADER ++ [0x61]⟩).st_mode &&& S_IFMT = S_IFLNK ∧
    getdents_type (fun _ => some (WINFS_SYMLINK_HEADER ++ [0x61])) ⟨0, 7, 4, [0x6C]⟩ = DT_LNK :=
  have h := link_type_detection ⟨4, 0, 7, 1, WINFS_SYMLINK_HEADER ++ [0x61]⟩ [0x6C] 0 7
    (fun _ => some (WINFS_SYMLINK_HEADER ++ [0x61])) (by decide)
  ⟨by decide, h.1.mpr (by decide), h.2.2.1.mpr ⟨by decide, _, rfl, by decide⟩⟩

/-- Counterexample to C3 as stated: a file with the system attribute whose content is
the header alone passes the link check, yet `winfs_stat` reports `S_IFREG` while
`winfs_getdents` reports `DT_LNK`; when the open of the entry fails `winfs_getdents`
reports `DT_REG`; and a file whose content is the header and `PATH_MAX` more bytes is
reported as `S_IFREG`. -/
theorem link_type_detection_fails :
    ((4 : Nat) &&& FILE_ATTRIBUTE_DIRECTORY = 0 ∧ (4 : Nat) &&& FILE_ATTRIBUTE_SYSTEM ≠ 0 ∧
      WINFS_SYMLINK_HEADER <+: WINFS_SYMLINK_HEADER) ∧
    (winfs_stat ⟨4, 0, 7, 1, WINFS_SYMLINK_HEADER⟩).st_mode &&& S_IFMT = S_IFREG ∧
    getdents_type (fun _ => some WINFS_SYMLINK_HEADER) ⟨0, 7, 4, [0x6C]⟩ = DT_LNK ∧
    getdents_type (fun _ => none) ⟨0, 7, 4, [0x6C]⟩ = DT_REG ∧
    (winfs_stat ⟨4, 0, 7, 1, WINFS_SYMLINK_HEADER ++ List.replicate PATH_MAX 0x61⟩).st_mode
      &&& S_IFMT = S_IFREG := by
  refine ⟨by decide, by decide, by decide, by decide, ?_⟩
  apply winfs_stat_oversize
  · rfl
  · simp [WINFS_SYMLINK_HEADER_LEN]

/-- C2 (the code at the failing input): the header is 14 bytes, the 10 characters
`!<SYMLINK>` and the 4 bytes `1F 39 1F 38`; `winfs_symlink` for the one-byte target `a`
writes the header and then the target, without a terminator, a file of 15 bytes. -/
theorem symlink_header_layout :
    WINFS_SYMLINK_HEADER_LEN = 14 ∧
    WINFS_SYMLINK_HEADER.take 10 = "!<SYMLINK>".toList.map Char.toNat ∧
    WINFS_SYMLINK_HEADER.drop 10 = [0o37, 0x39, 0o37, 0x38] ∧
    (winfs_symlink ascii_to_utf16 emptyHost [0x61] [0x6C] (.ok 14) (.ok 1)).1 = 0 ∧
    ((winfs_symlink ascii_to_utf16 emptyHost [0x61] [0x6C] (.ok 14) (.ok 1)).2.files
      [0x6C, 0]).map (fun f => f.content) = some (WINFS_SYMLINK_HEADER ++ [0x61]) ∧
    ((winfs_symlink ascii_to_utf16 emptyHost [0x61] [0x6C] (.ok 14) (.ok 1)).2.files
      [0x6C, 0]).map (fun f => f.content.length) = some 15 := by
  refine ⟨by decide, by decide, by decide, by decide, by decide, by decide⟩

theorem winfs_read_loop_error (e : Nat) (rest : List Transfer) (he : e ≠ ERROR_HANDLE_EOF) :
    ∀ (ns : List Nat) (count num_read : Nat) (reqs : List Request),
      (∀ n ∈ ns, 0 < n) → ns.sum < count →
      (winfs_read_loop (ns.map Transfer.ok ++ Transfer.fail e :: rest) count num_read reqs).map
        (fun r => r.ret) = some (- EIO) := by
  intro ns
  induction ns with
  | nil =>
    intro count num_read reqs _ hsum
    have hc : count ≠ 0 := by simp at hsum; omega
    simp [winfs_read_loop, hc, he]
  | cons n ns ih =>
    intro count num_read reqs hpos hsum
    have hn : 0 < n := hpos n (List.mem_cons_self _ _)
    simp only [List.sum_cons] at hsum
    have hc : count ≠ 0 := by omega
    have hm : min n (min count UINT_MAX) ≠ 0 := by
      unfold UINT_MAX; omega
    have hle : min n (min count UINT_MAX) ≤ n := Nat.min_le_left _ _
    simp only [List.map_cons, List.cons_append, winfs_read_loop, hc, if_false, hm]
    exact ih _ _ _ (fun m hmem => hpos m (List.mem_cons_of_mem _ hmem)) (by omega)

theorem winfs_pread_loop_error (e : Nat) (rest : List Transfer) (he : e ≠ ERROR_HANDLE_EOF) :
    ∀ (ns : List Nat) (count : Nat) (offset : Int) (num_read : Nat) (reqs : List Request),
      (∀ n ∈ ns, 0 < n) → ns.sum < count →
      (winfs_pread_loop (ns.map Transfer.ok ++ Transfer.fail e :: rest) count offset num_read
        reqs).map (fun r => r.ret) = some (- EIO) := by
  intro ns
  induction ns with
  | nil =>
    intro count offset num_read reqs _ hsum
    have hc : count ≠ 0 := by simp at hsum; omega
    simp [winfs_pread_loop, hc, he]
  | cons n ns ih =>
    intro count offset num_read reqs hpos hsum
    have hn : 0 < n := hpos n (List.mem_cons_self _ _)
    simp only [List.sum_cons] at hsum
    have hc : count ≠ 0 := by omega
    have hm : min n (min count UINT_MAX) ≠ 0 := by
      unfold UINT_MAX; omega
    have hle : min n (min count UINT_MAX) ≤ n := Nat.min_le_left _ _
    simp only [List.map_cons, List.cons_append, winfs_pread_loop, hc, if_false, hm]
    exact ih _ _ _ _ (fun m hmem => hpos m (List.mem_cons_of_mem _ hmem)) (by omega)

theorem winfs_write_loop_error (ov : Option (Nat × Nat)) (e : Nat) (rest : List Transfer) :
    ∀ (ns : List Nat) (count num_written : Nat) (reqs : List Request),
      ns.sum < count →
      (winfs_write_loop ov (ns.map Transfer.ok ++ Transfer.fail e :: rest) count num_written
        reqs).map (fun r => r.ret) = some (- EIO) := by
  intro ns
  induction ns with
  | nil =>
    intro count num_written reqs hsum
    have hc : count ≠ 0 := by simp at hsum; omega
    simp [winfs_write_loop, hc]
  | cons n ns ih =>
    intro count num_written reqs hsum
    simp only [List.sum_cons] at hsum
    have hc : count ≠ 0 := by omega
    have hle : min n (min count UINT_MAX) ≤ n := Nat.min_le_left _ _
    simp only [List.map_cons, List.cons_append, winfs_write_loop, hc, if_false]
    exact ih _ _ _ (by omega)

theorem winfs_pwrite_loop_error (e : Nat) (rest : List Transfer) :
    ∀ (ns : List Nat) (count : Nat) (offset : Int) (num_written : Nat) (reqs : List Request),
      ns.sum < count →
      (winfs_pwrite_loop (ns.map Transfer.ok ++ Transfer.fail e :: rest) count offset num_written
        reqs).map (fun r => r.ret) = some (- EIO) := by
  intro ns
  induction ns with
  | nil =>
    intro count offset num_written reqs hsum
    have hc : count ≠ 0 := by simp at hsum; omega
    simp [winfs_pwrite_loop, hc]
  | cons n ns ih =>
    intro count offset num_written reqs hsum
    simp only [List.sum_cons] at hsum
    have hc : count ≠ 0 := by omega
    have hle : min n (min count UINT_MAX) ≤ n := Nat.min_le_left _ _
    simp only [List.map_cons, List.cons_append, winfs_pwrite_loop, hc, if_false]
    exact ih _ _ _ _ (by omega)

/-- C4 (as amended): in `winfs_read`, `winfs_pread`, `winfs_write` and `winfs_pwrite`, when
the host reports an error (for the reads: any error but `ERROR_HANDLE_EOF`) on a chunk
that the loop reaches, the operation returns `-EIO`, whatever number of bytes the
earlier chunks of the call transferred. -/
theorem transfer_error_after_progress (ns : List Nat) (e : Nat) (rest : List Transfer)
    (count flags : Nat) (offset : Int)
    (hpos : ∀ n ∈ ns, 0 < n) (hsum : ns.sum < count) (he : e ≠ ERROR_HANDLE_EOF) :
    (winfs_read (ns.map Transfer.ok ++ Transfer.fail e :: rest) count).map (fun r => r.ret) =
      some (- EIO) ∧
    (winfs_pread (ns.map Transfer.ok ++ Transfer.fail e :: rest) count offset).map
      (fun r => r.ret) = some (- EIO) ∧
    (winfs_write flags (ns.map Transfer.ok ++ Transfer.fail e :: rest) count).map
      (fun r => r.ret) = some (- EIO) ∧
    (winfs_pwrite (ns.map Transfer.ok ++ Transfer.fail e :: rest) count offset).map
      (fun r => r.ret) = some (- EIO) :=
  ⟨winfs_read_loop_error e rest he ns count 0 [] hpos hsum,
   winfs_pread_loop_error e rest he ns count offset 0 [] hpos hsum,
   winfs_write_loop_error _ e rest ns count 0 [] hsum,
   winfs_pwrite_loop_error e rest ns count offset 0 [] hsum⟩

/-- Witness of C4: 8 bytes asked, chunks of 3 and 2 bytes transferred, then error 5. -/
theorem transfer_error_after_progress_witness :
    (winfs_read [.ok 3, .ok 2, .fail 5] 8).map (fun r => r.ret) = some (- EIO) ∧
    (winfs_pread [.ok 3, .ok 2, .fail 5] 8 100).map (fun r => r.ret) = some (- EIO) ∧
    (winfs_write O_APPEND [.ok 3, .ok 2, .fail 5] 8).map (fun r => r.ret) = some (- EIO) ∧
    (winfs_pwrite [.ok 3, .ok 2, .fail 5] 8 100).map (fun r => r.ret) = some (- EIO) :=
  transfer_error_after_progress [3, 2] 5 [] 8 O_APPEND 100 (by decide) (by decide) (by decide)

/-- Counterexample to C4 as stated: 2 bytes asked, 1 byte transferred by the first chunk,
error 5 on the second: each of the four operations returns `-EIO`, not 1. -/
theorem transfer_error_after_progress_fails :
    winfs_read [.ok 1, .fail 5] 2 = some ⟨- EIO, [⟨2, none⟩, ⟨1, none⟩]⟩ ∧
    winfs_pread [.ok 1, .fail 5] 2 0 = some ⟨- EIO, [⟨2, some (0, 0)⟩, ⟨1, some (1, 0)⟩]⟩ ∧
    winfs_write 0 [.ok 1, .fail 5] 2 = some ⟨- EIO, [⟨2, none⟩, ⟨1, none⟩]⟩ ∧
    winfs_pwrite [.ok 1, .fail 5] 2 0 = some ⟨- EIO, [⟨2, some (0, 0)⟩, ⟨1, some (1, 0)⟩]⟩ := by
  refine ⟨by decide, by decide, by decide, by decide⟩

/-- C5: for every count above zero, when the first host read fails with
`ERROR_HANDLE_EOF` or succeeds with zero bytes, `winfs_read` and `winfs_pread` (at any
offset) return 0. -/
theorem read_at_end_of_data (t : Transfer) (rest : List Transfer) (count : Nat) (offset : Int)
    (hcount : 0 < count) (heof : t = .fail ERROR_HANDLE_EOF ∨ t = .ok 0) :
    (winfs_read (t :: rest) count).map (fun r => r.ret) = some 0 ∧
    (winfs_pread (t :: rest) count offset).map (fun r => r.ret) = some 0 := by
  have hc : count ≠ 0 := by omega
  rcases heof with rfl | rfl <;>
    simp [winfs_read, winfs_pread, winfs_read_loop, winfs_pread_loop, hc]

/-- Witness of C5: 4096 bytes asked, the host answers `ERROR_HANDLE_EOF` (38). -/
theorem read_at_end_of_data_witness :
    (0 < 4096 ∧ (Transfer.fail 38 = .fail ERROR_HANDLE_EOF ∨ Transfer.fail 38 = .ok 0)) ∧
    (winfs_read [.fail 38] 4096).map (fun r => r.ret) = some 0 ∧
    (winfs_pread [.fail 38] 4096 10).map (fun r => r.ret) = some 0 :=
  ⟨by decide, read_at_end_of_data (.fail 38) [] 4096 10 (by decide) (by decide)⟩

theorem nt_success_not_collision (status : Nat) (h : NT_SUCCESS status = true) :
    status ≠ STATUS_OBJECT_NAME_COLLISION := by
  unfold NT_SUCCESS at h
  unfold STATUS_OBJECT_NAME_COLLISION
  simp at h
  omega

theorem open_read_access (O_DELETE flags : Nat) :
    (open_desired_access O_DELETE flags ||| SYNCHRONIZE ||| FILE_READ_ATTRIBUTES) &&&
        GENERIC_READ = 0 ↔
      (flags &&& O_PATH ≠ 0 ∨ (flags &&& O_RDWR = 0 ∧ flags &&& O_WRONLY ≠ 0)) := by
  unfold open_desired_access
  by_cases h1 : flags &&& O_DELETE = 0 <;> by_cases h2 : flags &&& O_PATH = 0 <;>
    by_cases h3 : flags &&& O_RDWR = 0 <;> by_cases h4 : flags &&& O_WRONLY = 0 <;>
    simp only [h1, h2, h3, h4, ne_eq, not_true_eq_false, not_false_eq_true, if_true, if_false,
      true_or, false_or, and_true, and_false, true_and, false_and, or_false, or_true,
      iff_true, iff_false] <;> decide

theorem read_symlink_target_of_pass (content : List Byte) (buflen : Int)
    (hpass : 0 < (winfs_read_symlink content false buflen).ret) (hbuf : buflen ≠ 0) :
    (winfs_read_symlink content false buflen).target =
      some ((content.drop WINFS_SYMLINK_HEADER_LEN).take (dword buflen) ++ [0]) := by
  by_cases h : WINFS_SYMLINK_HEADER <+: content
  · rw [winfs_read_symlink_of_header content false buflen h] at hpass ⊢
    simp only [Bool.false_or, beq_iff_eq, hbuf, if_false] at hpass ⊢
    unfold ReadFile_at at hpass ⊢
    by_cases hl : content.length ≤ WINFS_SYMLINK_HEADER_LEN
    · simp [hl] at hpass
    · simp [hl]
  · rw [winfs_read_symlink_no_header content false buflen h] at hpass
    simp at hpass

theorem open_file_system_file
    (conv : List Byte → Nat → Int → Int × List WChar) (cwd : List WChar) (host : OpenHost)
    (pathname : List Byte) (desired_access create_disposition flags : Nat)
    (target_null : Bool) (buflen : Int)
    (hname : (2 * (filename_to_nt_pathname conv cwd pathname PATH_MAX).ret) % 2 ^ 16 ≠ 0)
    (hcreate : NT_SUCCESS host.create_status = true)
    (hquery : NT_SUCCESS host.query_status = true)
    (hsys : host.FileAttributes &&& FILE_ATTRIBUTE_SYSTEM ≠ 0) :
    open_file conv cwd host pathname desired_access create_disposition flags target_null
        buflen =
      if (desired_access ||| SYNCHRONIZE ||| FILE_READ_ATTRIBUTES) &&& GENERIC_READ = 0 then
        if host.reopen_ok = true then
          open_file_symlink_test host flags target_null buflen .reopened
            [.created, .reopened] [.created]
            (some (desired_access ||| SYNCHRONIZE ||| FILE_READ_ATTRIBUTES, create_disposition,
              open_create_options desired_access))
        else
          ⟨0, none, [.created], [], none,
            some (desired_access ||| SYNCHRONIZE ||| FILE_READ_ATTRIBUTES, create_disposition,
              open_create_options desired_access)⟩
      else
        open_file_symlink_test host flags target_null buflen .created [.created] []
          (some (desired_access ||| SYNCHRONIZE ||| FILE_READ_ATTRIBUTES, create_disposition,
            open_create_options desired_access)) := by
  have hcol := nt_success_not_collision _ hcreate
  unfold open_file
  simp only [hname, hcol, hcreate, hquery, hsys, if_true, if_false, ne_eq, not_true_eq_false,
    not_false_eq_true]
  split_ifs <;> rfl

theorem symlink_test_pass (host : OpenHost) (flags : Nat) (target_null : Bool) (buflen : Int)
    (handle : Handle) (opened closed : List Handle) (request : Option (Nat × Nat × Nat))
    (hpass : 0 < (winfs_read_symlink host.content target_null buflen).ret) :
    open_file_symlink_test host flags target_null buflen handle opened closed request =
      if flags &&& O_NOFOLLOW = 0 then
        ⟨1, none, opened, closed ++ [handle],
          (winfs_read_symlink host.content target_null buflen).target, request⟩
      else if flags &&& O_PATH = 0 then
        ⟨- ELOOP, none, opened, closed ++ [handle],
          (winfs_read_symlink host.content target_null buflen).target, request⟩
      else
        ⟨0, some handle, opened, closed,
          (winfs_read_symlink host.content target_null buflen).target, request⟩ := by
  unfold open_file_symlink_test
  simp only [gt_iff_lt, hpass, if_true]

/-- C6 (as amended): when the path translates, the host opens the file and reports the
system attribute, the handle can be read from (the access asked for includes read, or
the reopen with read access succeeds) and the symlink content check passes, `winfs_open`
has three outcomes decided by the flags.  Without `O_NOFOLLOW` it returns 1, builds no file
object, has closed every handle it obtained, and the buffer holds what
`winfs_read_symlink` stored: with a buffer, the first `buflen` bytes of the target and a
NUL.  With `O_NOFOLLOW` and without `O_PATH` it returns `-ELOOP`, again with every handle
closed.  With both it returns 0 and the file object wraps the handle reopened on the
link file itself, which is left open. -/
theorem open_symlink_outcomes
    (conv : List Byte → Nat → Int → Int × List WChar) (cwd : List WChar) (host : OpenHost)
    (O_DELETE : Nat) (pathname : List Byte) (flags : Nat) (fp_null target_null : Bool)
    (buflen : Int)
    (hname : (2 * (filename_to_nt_pathname conv cwd pathname PATH_MAX).ret) % 2 ^ 16 ≠ 0)
    (hcreate : NT_SUCCESS host.create_status = true)
    (hquery : NT_SUCCESS host.query_status = true)
    (hsys : host.FileAttributes &&& FILE_ATTRIBUTE_SYSTEM ≠ 0)
    (hreopen : (flags &&& O_PATH ≠ 0 ∨ (flags &&& O_RDWR = 0 ∧ flags &&& O_WRONLY ≠ 0)) →
      host.reopen_ok = true)
    (hpass : 0 < (winfs_read_symlink host.content target_null buflen).ret) :
    (flags &&& O_NOFOLLOW = 0 →
      (winfs_open conv cwd host O_DELETE pathname flags fp_null target_null buflen).ret = 1 ∧
      (winfs_open conv cwd host O_DELETE pathname flags fp_null target_null buflen).fp = none ∧
      (winfs_open conv cwd host O_DELETE pathname flags fp_null target_null buflen).closed =
        (winfs_open conv cwd host O_DELETE pathname flags fp_null target_null buflen).opened ∧
      (winfs_open conv cwd host O_DELETE pathname flags fp_null target_null buflen).target =
        (winfs_read_symlink host.content target_null buflen).target ∧
      (target_null = false → buflen ≠ 0 →
        (winfs_open conv cwd host O_DELETE pathname flags fp_null target_null buflen).target =
          some ((host.content.drop WINFS_SYMLINK_HEADER_LEN).take (dword buflen) ++ [0]))) ∧
    (flags &&& O_NOFOLLOW ≠ 0 → flags &&& O_PATH = 0 →
      (winfs_open conv cwd host O_DELETE pathname flags fp_null target_null buflen).ret =
        - ELOOP ∧
      (winfs_open conv cwd host O_DELETE pathname flags fp_null target_null buflen).fp = none ∧
      (winfs_open conv cwd host O_DELETE pathname flags fp_null target_null buflen).closed =
        (winfs_open conv cwd host O_DELETE pathname flags fp_null target_null buflen).opened) ∧
    (flags &&& O_NOFOLLOW ≠ 0 → flags &&& O_PATH ≠ 0 →
      (winfs_open conv cwd host O_DELETE pathname flags fp_null target_null buflen).ret = 0 ∧
      (winfs_open conv cwd host O_DELETE pathname flags fp_null target_null buflen).opened =
        [.created, .reopened] ∧
      (fp_null = false →
        (winfs_open conv cwd host O_DELETE pathname flags fp_null target_null buflen).fp =
          some ⟨.reopened, flags, 1, strlen pathname, pathname.take (strlen pathname)⟩ ∧
        (winfs_open conv cwd host O_DELETE pathname flags fp_null target_null buflen).closed =
          [.created])) := by
  have hacc := open_read_access O_DELETE flags
  have ht : target_null = false → buflen ≠ 0 →
      (winfs_read_symlink host.content target_null buflen).target =
        some ((host.content.drop WINFS_SYMLINK_HEADER_LEN).take (dword buflen) ++ [0]) := by
    intro h1 h2
    subst h1
    exact read_symlink_target_of_pass host.content buflen hpass h2
  have hof := open_file_system_file conv cwd host pathname (open_desired_access O_DELETE flags)
    (open_create_disposition flags) flags target_null buflen hname hcreate hquery hsys
  have hELOOP : (- ELOOP : Int) < 0 := by decide
  unfold winfs_open
  rw [hof]
  by_cases hneed : (flags &&& O_PATH ≠ 0 ∨ (flags &&& O_RDWR = 0 ∧ flags &&& O_WRONLY ≠ 0))
  · rw [if_pos (hacc.mpr hneed), if_pos (hreopen hneed), symlink_test_pass _ _ _ _ _ _ _ _ hpass]
    refine ⟨?_, ?_, ?_⟩
    · intro hnf
      simp only [hnf, if_true]
      simpa using ht
    · intro hnf hp
      simp only [hnf, hp, if_true, if_false]
      simp [hELOOP]
    · intro hnf hp
      simp only [hnf, hp, if_false]
      cases fp_null <;> simp
  · have hp0 : flags &&& O_PATH = 0 := by
      by_contra h; exact hneed (Or.inl h)
    rw [if_neg (fun h => hneed (hacc.mp h)), symlink_test_pass _ _ _ _ _ _ _ _ hpass]
    refine ⟨?_, ?_, ?_⟩
    · intro hnf
      simp only [hnf, if_true]
      simpa using ht
    · intro hnf hp
      simp only [hnf, hp, if_true, if_false]
      simp [hELOOP]
    · intro _ hp
      exact absurd hp0 hp

/-- Witness of C6: the link `l` with target `a` in `C:\x`, opened read-only with a buffer
of 16 bytes. -/
theorem open_symlink_outcomes_witness :
    (winfs_open ascii_to_utf16 [0x43, 0x3A, 0x5C, 0x78] ⟨0, 0, 4, true, WINFS_SYMLINK_HEADER ++ [0x61]⟩
      0 [0x6C] 0 false false 16).ret = 1 ∧
    (winfs_open ascii_to_utf16 [0x43, 0x3A, 0x5C, 0x78] ⟨0, 0, 4, true, WINFS_SYMLINK_HEADER ++ [0x61]⟩
      0 [0x6C] 0 false false 16).fp = none ∧
    (winfs_open ascii_to_utf16 [0x43, 0x3A, 0x5C, 0x78] ⟨0, 0, 4, true, WINFS_SYMLINK_HEADER ++ [0x61]⟩
      0 [0x6C] 0 false false 16).target = some [0x61, 0] :=
  have h := (open_symlink_outcomes ascii_to_utf16 [0x43, 0x3A, 0x5C, 0x78]
    ⟨0, 0, 4, true, WINFS_SYMLINK_HEADER ++ [0x61]⟩ 0 [0x6C] 0 false false 16
    (by decide) (by decide) (by decide) (by decide) (by decide) (by decide)).1 (by decide)
  ⟨h.1, h.2.1, h.2.2.2.2 rfl (by decide)⟩

/-- C7: for a read or write access violation where the bytes at the instruction pointer
are not `CD 80` and the resolver fails on the faulting address, an instruction pointer
inside the range of `mm_check_read` makes the handler set it to `mm_check_read_fail`,
leave the other registers as they are, log the address and return
`EXCEPTION_CONTINUE_EXECUTION`, with no dump and no `log_shutdown`; likewise for
`mm_check_read_string` and `mm_check_write`, the ranges being tested in this order. -/
theorem guarded_access_redirect (env : Env) (rec : ExceptionRecord) (ctx : Context)
    (hav : rec.ExceptionCode = EXCEPTION_ACCESS_VIOLATION)
    (hrw : rec.ExceptionInformation0 = 0 ∨ rec.ExceptionInformation0 = 1)
    (htrap : ¬ (env.byte_at ctx.Xip = 0xCD ∧ env.byte_at (ctx.Xip + 1) = 0x80))
    (hpf : env.mm_handle_page_fault rec.ExceptionInformation1 = false) :
    ((env.mm_check_read_begin ≤ ctx.Xip ∧ ctx.Xip ≤ env.mm_check_read_end) →
      exception_handler env rec ctx =
        ⟨EXCEPTION_CONTINUE_EXECUTION, { ctx with Xip := env.mm_check_read_fail },
          [.log_info_ip ctx.Xip, .mm_handle_page_fault rec.ExceptionInformation1,
            .log_warning_failed .mm_check_read rec.ExceptionInformation1]⟩) ∧
    (¬ (env.mm_check_read_begin ≤ ctx.Xip ∧ ctx.Xip ≤ env.mm_check_read_end) →
      (env.mm_check_read_string_begin ≤ ctx.Xip ∧ ctx.Xip ≤ env.mm_check_read_string_end) →
      exception_handler env rec ctx =
        ⟨EXCEPTION_CONTINUE_EXECUTION, { ctx with Xip := env.mm_check_read_string_fail },
          [.log_info_ip ctx.Xip, .mm_handle_page_fault rec.ExceptionInformation1,
            .log_warning_failed .mm_check_read_string rec.ExceptionInformation1]⟩) ∧
    (¬ (env.mm_check_read_begin ≤ ctx.Xip ∧ ctx.Xip ≤ env.mm_check_read_end) →
      ¬ (env.mm_check_read_string_begin ≤ ctx.Xip ∧ ctx.Xip ≤ env.mm_check_read_string_end) →
      (env.mm_check_write_begin ≤ ctx.Xip ∧ ctx.Xip ≤ env.mm_check_write_end) →
      exception_handler env rec ctx =
        ⟨EXCEPTION_CONTINUE_EXECUTION, { ctx with Xip := env.mm_check_write_fail },
          [.log_info_ip ctx.Xip, .mm_handle_page_fault rec.ExceptionInformation1,
            .log_warning_failed .mm_check_write rec.ExceptionInformation1]⟩) := by
  have hcc : ¬ (EXCEPTION_ACCESS_VIOLATION = DBG_CONTROL_C) := by decide
  have h8 : rec.ExceptionInformation0 ≠ 8 := by rcases hrw with h | h <;> rw [h] <;> decide
  have ht : ¬ (env.win64 = true ∧ env.byte_at ctx.Xip = 0xCD ∧ env.byte_at (ctx.Xip + 1) = 0x80) :=
    fun h => htrap h.2
  refine ⟨?_, ?_, ?_⟩
  · intro h1
    unfold exception_handler
    simp [hcc, hav, h8, ht, hpf, h1]
  · intro h1 h2
    unfold exception_handler
    simp [hcc, hav, h8, ht, hpf, h1, h2]
  · intro h1 h2 h3
    unfold exception_handler
    simp [hcc, hav, h8, ht, hpf, h1, h2, h3]

/-- Witness of C7: a read fault inside `mm_check_read` and a write fault inside
`mm_check_write`, at addresses the resolver cannot populate. -/
theorem guarded_access_redirect_witness :
    exception_handler sampleEnv ⟨EXCEPTION_ACCESS_VIOLATION, 0, 0x9000⟩ (sampleContext 0x2004) =
      ⟨EXCEPTION_CONTINUE_EXECUTION, sampleContext 0x200F,
        [.log_info_ip 0x2004, .mm_handle_page_fault 0x9000,
          .log_warning_failed .mm_check_read 0x9000]⟩ ∧
    exception_handler sampleEnv ⟨EXCEPTION_ACCESS_VIOLATION, 1, 0x9000⟩ (sampleContext 0x2024) =
      ⟨EXCEPTION_CONTINUE_EXECUTION, sampleContext 0x202F,
        [.log_info_ip 0x2024, .mm_handle_page_fault 0x9000,
          .log_warning_failed .mm_check_write 0x9000]⟩ :=
  ⟨(guarded_access_redirect sampleEnv ⟨EXCEPTION_ACCESS_VIOLATION, 0, 0x9000⟩
      (sampleContext 0x2004) rfl (by decide) (by decide) (by decide)).1 (by decide),
   (guarded_access_redirect sampleEnv ⟨EXCEPTION_ACCESS_VIOLATION, 1, 0x9000⟩
      (sampleContext 0x2024) rfl (by decide) (by decide) (by decide)).2.2 (by decide) (by decide)
      (by decide)⟩

/-- C8: on the 64-bit build, for a read or write access violation with the bytes `CD 80`
at the instruction pointer, the handler logs the instruction pointer, advances it by 2
(modulo `2^64`, the width of `Rip`), calls `dispatch_syscall` once on that context and
returns `EXCEPTION_CONTINUE_EXECUTION`; the resolver is not called. -/
theorem trap_dispatches_syscall (env : Env) (rec : ExceptionRecord) (ctx : Context)
    (hwin : env.win64 = true)
    (hav : rec.ExceptionCode = EXCEPTION_ACCESS_VIOLATION)
    (hrw : rec.ExceptionInformation0 = 0 ∨ rec.ExceptionInformation0 = 1)
    (htrap : env.byte_at ctx.Xip = 0xCD ∧ env.byte_at (ctx.Xip + 1) = 0x80) :
    exception_handler env rec ctx =
      ⟨EXCEPTION_CONTINUE_EXECUTION,
        env.dispatch_syscall { ctx with Xip := (ctx.Xip + 2) % 2 ^ 64 },
        [.log_info_ip ctx.Xip, .dispatch_syscall { ctx with Xip := (ctx.Xip + 2) % 2 ^ 64 }]⟩ ∧
    resolver_calls (exception_handler env rec ctx).trace = 0 := by
  have hcc : ¬ (EXCEPTION_ACCESS_VIOLATION = DBG_CONTROL_C) := by decide
  have h8 : rec.ExceptionInformation0 ≠ 8 := by rcases hrw with h | h <;> rw [h] <;> decide
  have he : exception_handler env rec ctx =
      ⟨EXCEPTION_CONTINUE_EXECUTION,
        env.dispatch_syscall { ctx with Xip := (ctx.Xip + 2) % 2 ^ 64 },
        [.log_info_ip ctx.Xip, .dispatch_syscall { ctx with Xip := (ctx.Xip + 2) % 2 ^ 64 }]⟩ := by
    unfold exception_handler
    simp [hcc, hav, h8, hwin, htrap, Env.bits]
  refine ⟨he, ?_⟩
  rw [he]
  rfl

/-- Witness of C8: a read fault at 0x1000, where the sample memory holds `CD 80`. -/
theorem trap_dispatches_syscall_witness :
    exception_handler sampleEnv ⟨EXCEPTION_ACCESS_VIOLATION, 0, 0⟩ (sampleContext 0x1000) =
      ⟨EXCEPTION_CONTINUE_EXECUTION, { sampleContext 0x1002 with Rax := 7 },
        [.log_info_ip 0x1000, .dispatch_syscall (sampleContext 0x1002)]⟩ :=
  (trap_dispatches_syscall sampleEnv ⟨EXCEPTION_ACCESS_VIOLATION, 0, 0⟩ (sampleContext 0x1000)
    rfl rfl (by decide) (by decide)).1

/-- C9: for every exception whose code is `DBG_CONTROL_C` and every context, the handler
returns `EXCEPTION_CONTINUE_SEARCH` with the context unchanged and without any call. -/
theorem control_c_declined (env : Env) (rec : ExceptionRecord) (ctx : Context)
    (hcode : rec.ExceptionCode = DBG_CONTROL_C) :
    exception_handler env rec ctx = ⟨EXCEPTION_CONTINUE_SEARCH, ctx, []⟩ := by
  unfold exception_handler
  simp [hcode]

/-- Witness of C9: a `DBG_CONTROL_C` exception in the sample environment. -/
theorem control_c_declined_witness :
    exception_handler sampleEnv ⟨DBG_CONTROL_C, 0, 0⟩ (sampleContext 0x1000) =
      ⟨EXCEPTION_CONTINUE_SEARCH, sampleContext 0x1000, []⟩ :=
  control_c_declined sampleEnv ⟨DBG_CONTROL_C, 0, 0⟩ (sampleContext 0x1000) rfl

/-- Counterexample to C6 as stated: the link `l` with target `a` carries the system
attribute and passes the content check, and it is opened with `O_WRONLY` alone, so
without `O_NOFOLLOW`; the host refuses the reopen with read access.  `winfs_open` returns
0 and builds a file object, where the claim has the redirect outcome 1 and no object. -/
theorem open_symlink_outcomes_fails :
    ((4 : Nat) &&& FILE_ATTRIBUTE_SYSTEM ≠ 0 ∧
      0 < (winfs_read_symlink (WINFS_SYMLINK_HEADER ++ [0x61]) false 16).ret ∧
      O_WRONLY &&& O_NOFOLLOW = 0) ∧
    (winfs_open ascii_to_utf16 [0x43, 0x3A, 0x5C, 0x78]
      ⟨0, 0, 4, false, WINFS_SYMLINK_HEADER ++ [0x61]⟩ 0 [0x6C] O_WRONLY false false 16).ret = 0 ∧
    (winfs_open ascii_to_utf16 [0x43, 0x3A, 0x5C, 0x78]
      ⟨0, 0, 4, false, WINFS_SYMLINK_HEADER ++ [0x61]⟩ 0 [0x6C] O_WRONLY false false 16).fp ≠
        none ∧
    (winfs_open ascii_to_utf16 [0x43, 0x3A, 0x5C, 0x78]
      ⟨0, 0, 4, false, WINFS_SYMLINK_HEADER ++ [0x61]⟩ 0 [0x6C] O_WRONLY false false 16).target =
        none := by
  refine ⟨by decide, by decide, by decide, by decide⟩

theorem crash_eq (env : Env) (ctx : Context) (trace : List Event) :
    crash env ctx trace =
      ⟨EXCEPTION_CONTINUE_SEARCH, ctx,
        trace ++ ([.log_info_crashed, .mm_dump_memory_mappings, .mm_dump_windows_memory_mappings,
          .mm_dump_stack_trace ctx] ++ dump_registers env ctx ++ [.log_shutdown])⟩ := by
  simp [crash]

theorem log_shutdown_not_mem_dump_registers (env : Env) (ctx : Context) :
    Event.log_shutdown ∉ dump_registers env ctx := by
  unfold dump_registers
  split_ifs <;> simp

/-- C11 (as amended): for an execute fault that is not at a vsyscall address and for which
both calls of the resolver fail, the handler does not look at the guarded helper ranges:
it logs the page fault and ends in the fatal diagnostics, returning
`EXCEPTION_CONTINUE_SEARCH` with every register, the instruction pointer included, as it
was. -/
theorem execute_fault_unresolved (env : Env) (rec : ExceptionRecord) (ctx : Context)
    (hav : rec.ExceptionCode = EXCEPTION_ACCESS_VIOLATION)
    (hexec : rec.ExceptionInformation0 = 8)
    (hvs : env.win64 = true → ctx.Xip ≠ 0xFFFFFFFFFF600000 ∧ ctx.Xip ≠ 0xFFFFFFFFFF600400 ∧
      ctx.Xip ≠ 0xFFFFFFFFFF600800)
    (h1 : env.mm_handle_page_fault ctx.Xip = false)
    (h2 : env.mm_handle_page_fault ((ctx.Xip + 0x1000) % 2 ^ env.bits) = false) :
    exception_handler env rec ctx =
      ⟨EXCEPTION_CONTINUE_SEARCH, ctx,
        [.mm_handle_page_fault ctx.Xip,
          .mm_handle_page_fault ((ctx.Xip + 0x1000) % 2 ^ env.bits),
          .log_error_page_fault 8 rec.ExceptionInformation1 ctx.Xip,
          .log_info_crashed, .mm_dump_memory_mappings, .mm_dump_windows_memory_mappings,
          .mm_dump_stack_trace ctx] ++ dump_registers env ctx ++ [.log_shutdown]⟩ := by
  have hcc : ¬ (EXCEPTION_ACCESS_VIOLATION = DBG_CONTROL_C) := by decide
  have v1 : ¬ (env.win64 = true ∧ ctx.Xip = 0xFFFFFFFFFF600000) := fun h => (hvs h.1).1 h.2
  have v2 : ¬ (env.win64 = true ∧ ctx.Xip = 0xFFFFFFFFFF600400) := fun h => (hvs h.1).2.1 h.2
  have v3 : ¬ (env.win64 = true ∧ ctx.Xip = 0xFFFFFFFFFF600800) := fun h => (hvs h.1).2.2 h.2
  unfold exception_handler
  simp only [hcc, hav, hexec, v1, v2, v3, h1, h2, if_true, if_false]
  simp [page_fault_crash, crash, hexec]

/-- Witness of C11: an execute fault at 0x2004, inside the range of `mm_check_read`, in
the sample environment, where neither 0x2004 nor 0x3004 can be populated. -/
theorem execute_fault_unresolved_witness :
    (exception_handler sampleEnv ⟨EXCEPTION_ACCESS_VIOLATION, 8, 0x2004⟩
      (sampleContext 0x2004)).ret = EXCEPTION_CONTINUE_SEARCH ∧
    (exception_handler sampleEnv ⟨EXCEPTION_ACCESS_VIOLATION, 8, 0x2004⟩
      (sampleContext 0x2004)).ctx = sampleContext 0x2004 :=
  have h := execute_fault_unresolved sampleEnv ⟨EXCEPTION_ACCESS_VIOLATION, 8, 0x2004⟩
    (sampleContext 0x2004) rfl rfl (by decide) (by decide) (by decide)
  ⟨congrArg Outcome.ret h, congrArg Outcome.ctx h⟩

/-- Counterexample to C11 as stated: an execute fault with the instruction pointer 0x2004
inside the range of `mm_check_read` (0x2000-0x200F), both resolver calls failing.  The
handler returns `EXCEPTION_CONTINUE_SEARCH`, leaves the instruction pointer at 0x2004 and
shuts logging down; the same fault reported as a read fault is redirected to
`mm_check_read_fail`. -/
theorem execute_fault_unresolved_fails :
    (sampleEnv.mm_check_read_begin ≤ 0x2004 ∧ 0x2004 ≤ sampleEnv.mm_check_read_end ∧
      sampleEnv.mm_handle_page_fault 0x2004 = false ∧
      sampleEnv.mm_handle_page_fault 0x3004 = false) ∧
    (exception_handler sampleEnv ⟨EXCEPTION_ACCESS_VIOLATION, 8, 0x2004⟩
      (sampleContext 0x2004)).ret = EXCEPTION_CONTINUE_SEARCH ∧
    (exception_handler sampleEnv ⟨EXCEPTION_ACCESS_VIOLATION, 8, 0x2004⟩
      (sampleContext 0x2004)).ctx.Xip = 0x2004 ∧
    Event.log_shutdown ∈ (exception_handler sampleEnv ⟨EXCEPTION_ACCESS_VIOLATION, 8, 0x2004⟩
      (sampleContext 0x2004)).trace ∧
    (exception_handler sampleEnv ⟨EXCEPTION_ACCESS_VIOLATION, 0, 0x2004⟩
      (sampleContext 0x2004)).ctx.Xip = sampleEnv.mm_check_read_fail := by
  refine ⟨by decide, by decide, by decide, by decide, by decide⟩

/-- C12: on the 64-bit build, for an execute fault whose address is one of the vsyscall
slots, the handler calls `sys_gettimeofday(Rdi, Rsi)` (slot 0xFFFFFFFFFF600000),
`sys_time(Rdi)` (slot 0xFFFFFFFFFF600400) or `sys_getcpu(Rdi, Rsi, Rdx)` (slot
0xFFFFFFFFFF600800), stores the result in `Rax`, sets `Rip` to the 64-bit word at the old
`Rsp`, adds 8 to `Rsp` (modulo `2^64`), changes no other register, makes no other call,
the resolver included, and returns `EXCEPTION_CONTINUE_EXECUTION`. -/
theorem vsyscall_emulation (env : Env) (rec : ExceptionRecord) (ctx : Context)
    (hwin : env.win64 = true)
    (hav : rec.ExceptionCode = EXCEPTION_ACCESS_VIOLATION)
    (hexec : rec.ExceptionInformation0 = 8) :
    (ctx.Xip = 0xFFFFFFFFFF600000 →
      exception_handler env rec ctx =
        ⟨EXCEPTION_CONTINUE_EXECUTION,
          { ctx with Rax := qword (env.sys_gettimeofday ctx.Rdi ctx.Rsi),
                     Xip := env.qword_at ctx.Rsp, Rsp := (ctx.Rsp + 8) % 2 ^ 64 },
          [.sys_gettimeofday ctx.Rdi ctx.Rsi]⟩) ∧
    (ctx.Xip = 0xFFFFFFFFFF600400 →
      exception_handler env rec ctx =
        ⟨EXCEPTION_CONTINUE_EXECUTION,
          { ctx with Rax := qword (env.sys_time ctx.Rdi),
                     Xip := env.qword_at ctx.Rsp, Rsp := (ctx.Rsp + 8) % 2 ^ 64 },
          [.sys_time ctx.Rdi]⟩) ∧
    (ctx.Xip = 0xFFFFFFFFFF600800 →
      exception_handler env rec ctx =
        ⟨EXCEPTION_CONTINUE_EXECUTION,
          { ctx with Rax := qword (env.sys_getcpu ctx.Rdi ctx.Rsi ctx.Rdx),
                     Xip := env.qword_at ctx.Rsp, Rsp := (ctx.Rsp + 8) % 2 ^ 64 },
          [.sys_getcpu ctx.Rdi ctx.Rsi ctx.Rdx]⟩) := by
  have hcc : ¬ (EXCEPTION_ACCESS_VIOLATION = DBG_CONTROL_C) := by decide
  refine ⟨?_, ?_, ?_⟩ <;> intro hx <;> unfold exception_handler <;>
    simp [hcc, hav, hexec, hwin, hx, vsyscall_return]

/-- Witness of C12: a call of the `time` slot in the sample environment, where `sys_time`
gives 1 and the word on the stack is 0x4000. -/
theorem vsyscall_emulation_witness :
    exception_handler sampleEnv ⟨EXCEPTION_ACCESS_VIOLATION, 8, 0xFFFFFFFFFF600400⟩
        (sampleContext 0xFFFFFFFFFF600400) =
      ⟨EXCEPTION_CONTINUE_EXECUTION,
        { sampleContext 0x4000 with Rax := 1, Rsp := 0x7008 }, [.sys_time 0]⟩ :=
  (vsyscall_emulation sampleEnv ⟨EXCEPTION_ACCESS_VIOLATION, 8, 0xFFFFFFFFFF600400⟩
    (sampleContext 0xFFFFFFFFFF600400) rfl rfl rfl).2.1 rfl

theorem crash_outcome (env : Env) (ctx : Context) (pre : List Event)
    (hpre : Event.log_shutdown ∉ pre) :
    (crash env ctx pre).ret = EXCEPTION_CONTINUE_SEARCH ∧ (crash env ctx pre).ctx = ctx ∧
    ∃ before, Event.log_shutdown ∉ before ∧
      (crash env ctx pre).trace =
        before ++ [.mm_dump_memory_mappings, .mm_dump_windows_memory_mappings,
          .mm_dump_stack_trace ctx] ++ dump_registers env ctx ++ [.log_shutdown] := by
  refine ⟨rfl, rfl, pre ++ [.log_info_crashed], ?_, ?_⟩
  · simp [hpre]
  · simp [crash]

theorem page_fault_crash_outcome (env : Env) (rec : ExceptionRecord) (ctx : Context)
    (pre : List Event) (hpre : Event.log_shutdown ∉ pre) :
    (page_fault_crash env rec ctx pre).ret = EXCEPTION_CONTINUE_SEARCH ∧
    (page_fault_crash env rec ctx pre).ctx = ctx ∧
    ∃ before, Event.log_shutdown ∉ before ∧
      (page_fault_crash env rec ctx pre).trace =
        before ++ [.mm_dump_memory_mappings, .mm_dump_windows_memory_mappings,
          .mm_dump_stack_trace ctx] ++ dump_registers env ctx ++ [.log_shutdown] := by
  unfold page_fault_crash
  split_ifs
  · exact crash_outcome env ctx _ (by simp [hpre])
  · exact crash_outcome env ctx _ hpre

theorem dump_registers_eq (env : Env) (ctx : Context) :
    dump_registers env ctx =
            (if env.win64 = true then
                [.log_info_register "RAX" ctx.Rax, .log_info_register "RCX" ctx.Rcx,
                  .log_info_register "RDX" ctx.Rdx, .log_info_register "RBX" ctx.Rbx,
                  .log_info_register "RSP" ctx.Rsp, .log_info_register "RBP" ctx.Rbp,
                  .log_info_register "RSI" ctx.Rsi, .log_info_register "RDI" ctx.Rdi,
                  .log_info_register "R8" ctx.R8, .log_info_register "R9" ctx.R9,
                  .log_info_register "R10" ctx.R10, .log_info_register "R11" ctx.R11,
                  .log_info_register "R12" ctx.R12, .log_info_register "R13" ctx.R13,
                  .log_info_register "R14" ctx.R14, .log_info_register "R15" ctx.R15]
              else
                [.log_info_register "EAX" ctx.Rax, .log_info_register "ECX" ctx.Rcx,
                  .log_info_register "EDX" ctx.Rdx, .log_info_register "EBX" ctx.Rbx,
                  .log_info_register "ESP" ctx.Rsp, .log_info_register "EBP" ctx.Rbp,
                  .log_info_register "ESI" ctx.Rsi, .log_info_register "EDI" ctx.Rdi]) := by
  unfold dump_registers
  cases env.win64 <;> rfl

/-- C13: for every exception other than `DBG_CONTROL_C` and every context, the handler
either returns `EXCEPTION_CONTINUE_EXECUTION` without having called `log_shutdown`, or
returns `EXCEPTION_CONTINUE_SEARCH` with the context as it was, and its trace ends with
the dump of the memory mappings, the dump of the Windows memory mappings, the stack
trace, one log line for each general-purpose register of the build with the value the
context holds for it (`RAX`, `RCX`, `RDX`, `RBX`, `RSP`, `RBP`, `RSI`, `RDI`, `R8` ..
`R15` on the 64-bit build; `EAX`, `ECX`, `EDX`, `EBX`, `ESP`, `EBP`, `ESI`, `EDI` on the
32-bit build) and `log_shutdown`, in this order, `log_shutdown` not being called before.
An exception that is not an access violation takes the second path with no other call
than these and the line that announces the crash. -/
theorem resume_or_diagnose (env : Env) (rec : ExceptionRecord) (ctx : Context)
    (hcode : rec.ExceptionCode ≠ DBG_CONTROL_C) :
    (((exception_handler env rec ctx).ret = EXCEPTION_CONTINUE_EXECUTION ∧
        Event.log_shutdown ∉ (exception_handler env rec ctx).trace) ∨
      ((exception_handler env rec ctx).ret = EXCEPTION_CONTINUE_SEARCH ∧
        (exception_handler env rec ctx).ctx = ctx ∧
        ∃ before, Event.log_shutdown ∉ before ∧
          (exception_handler env rec ctx).trace =
            before ++ [.mm_dump_memory_mappings, .mm_dump_windows_memory_mappings,
              .mm_dump_stack_trace ctx] ++
            (if env.win64 = true then
                [.log_info_register "RAX" ctx.Rax, .log_info_register "RCX" ctx.Rcx,
                  .log_info_register "RDX" ctx.Rdx, .log_info_register "RBX" ctx.Rbx,
                  .log_info_register "RSP" ctx.Rsp, .log_info_register "RBP" ctx.Rbp,
                  .log_info_register "RSI" ctx.Rsi, .log_info_register "RDI" ctx.Rdi,
                  .log_info_register "R8" ctx.R8, .log_info_register "R9" ctx.R9,
                  .log_info_register "R10" ctx.R10, .log_info_register "R11" ctx.R11,
                  .log_info_register "R12" ctx.R12, .log_info_register "R13" ctx.R13,
                  .log_info_register "R14" ctx.R14, .log_info_register "R15" ctx.R15]
              else
                [.log_info_register "EAX" ctx.Rax, .log_info_register "ECX" ctx.Rcx,
                  .log_info_register "EDX" ctx.Rdx, .log_info_register "EBX" ctx.Rbx,
                  .log_info_register "ESP" ctx.Rsp, .log_info_register "EBP" ctx.Rbp,
                  .log_info_register "ESI" ctx.Rsi, .log_info_register "EDI" ctx.Rdi]) ++ [.log_shutdown])) ∧
    (rec.ExceptionCode ≠ EXCEPTION_ACCESS_VIOLATION →
      exception_handler env rec ctx =
        ⟨EXCEPTION_CONTINUE_SEARCH, ctx,
          [.log_info_crashed, .mm_dump_memory_mappings, .mm_dump_windows_memory_mappings,
            .mm_dump_stack_trace ctx] ++
            (if env.win64 = true then
                [.log_info_register "RAX" ctx.Rax, .log_info_register "RCX" ctx.Rcx,
                  .log_info_register "RDX" ctx.Rdx, .log_info_register "RBX" ctx.Rbx,
                  .log_info_register "RSP" ctx.Rsp, .log_info_register "RBP" ctx.Rbp,
                  .log_info_register "RSI" ctx.Rsi, .log_info_register "RDI" ctx.Rdi,
                  .log_info_register "R8" ctx.R8, .log_info_register "R9" ctx.R9,
                  .log_info_register "R10" ctx.R10, .log_info_register "R11" ctx.R11,
                  .log_info_register "R12" ctx.R12, .log_info_register "R13" ctx.R13,
                  .log_info_register "R14" ctx.R14, .log_info_register "R15" ctx.R15]
              else
                [.log_info_register "EAX" ctx.Rax, .log_info_register "ECX" ctx.Rcx,
                  .log_info_register "EDX" ctx.Rdx, .log_info_register "EBX" ctx.Rbx,
                  .log_info_register "ESP" ctx.Rsp, .log_info_register "EBP" ctx.Rbp,
                  .log_info_register "ESI" ctx.Rsi, .log_info_register "EDI" ctx.Rdi]) ++ [.log_shutdown]⟩) := by
  rw [← dump_registers_eq]
  constructor
  · have key : ∀ o : Outcome, o = exception_handler env rec ctx →
        ((o.ret = EXCEPTION_CONTINUE_EXECUTION ∧ Event.log_shutdown ∉ o.trace) ∨
          (o.ret = EXCEPTION_CONTINUE_SEARCH ∧ o.ctx = ctx ∧
            ∃ before, Event.log_shutdown ∉ before ∧
              o.trace =
                before ++ [.mm_dump_memory_mappings, .mm_dump_windows_memory_mappings,
                  .mm_dump_stack_trace ctx] ++ dump_registers env ctx ++ [.log_shutdown])) := by
      intro o ho
      unfold exception_handler at ho
      dsimp only at ho
      split_ifs at ho
      all_goals subst ho
      all_goals first
        | exact absurd ‹rec.ExceptionCode = DBG_CONTROL_C› hcode
        | (left; exact ⟨rfl, by simp⟩)
        | (right; exact page_fault_crash_outcome env rec ctx _ (by simp))
        | (right; exact crash_outcome env ctx _ (by simp))
    exact key _ rfl
  · intro hav
    unfold exception_handler
    simp [hcode, hav, crash]

/-- Witness of C13: a breakpoint exception (code 0x80000003) in the sample environment,
which is a 64-bit build; the context holds 0x7000 in `Rsp` and 0 in the other
general-purpose registers. -/
theorem resume_or_diagnose_witness :
    exception_handler sampleEnv ⟨0x80000003, 0, 0⟩ (sampleContext 0x1000) =
      ⟨EXCEPTION_CONTINUE_SEARCH, sampleContext 0x1000,
        [.log_info_crashed, .mm_dump_memory_mappings, .mm_dump_windows_memory_mappings,
          .mm_dump_stack_trace (sampleContext 0x1000),
          .log_info_register "RAX" 0, .log_info_register "RCX" 0,
          .log_info_register "RDX" 0, .log_info_register "RBX" 0,
          .log_info_register "RSP" 0x7000, .log_info_register "RBP" 0,
          .log_info_register "RSI" 0, .log_info_register "RDI" 0,
          .log_info_register "R8" 0, .log_info_register "R9" 0,
          .log_info_register "R10" 0, .log_info_register "R11" 0,
          .log_info_register "R12" 0, .log_info_register "R13" 0,
          .log_info_register "R14" 0, .log_info_register "R15" 0,
          .log_shutdown]⟩ :=
  (resume_or_diagnose sampleEnv ⟨0x80000003, 0, 0⟩ (sampleContext 0x1000) (by decide)).2
    (by decide)

theorem getdents_entries_calls (bits : Nat) (oc : List WChar → Option (List Byte))
    (cb : FillCall → Int)
    (count : Nat) (G : FillCall → Prop) :
    ∀ (entries : List DirInfo) (size : Int) (calls : List FillCall),
      (∀ info ∈ entries, ∀ c : FillCall, c.name = info.FileName →
        c.inode = info.FileIdHigh ^^^ info.FileIdLow → G c) →
      (∀ c ∈ calls, G c) →
      ∀ c ∈ (getdents_entries bits oc cb count entries size calls).2.1, G c := by
  intro entries
  induction entries with
  | nil => intro size calls _ hc; simpa [getdents_entries] using hc
  | cons info rest ih =>
    intro size calls hG hc
    have hnew : ∀ c ∈ calls ++ [(⟨info.FileIdHigh ^^^ info.FileIdLow, info.FileName,
        info.FileName.length, getdents_type oc info, size_t bits ((count : Int) - size)⟩ : FillCall)],
        G c := by
      intro c hmem
      rcases List.mem_append.mp hmem with h | h
      · exact hc c h
      · rw [List.mem_singleton] at h
        subst h
        exact hG info (List.mem_cons_self _ _) _ rfl rfl
    unfold getdents_entries
    dsimp only
    split_ifs
    · exact hnew
    · exact ih _ _ (fun i hi => hG i (List.mem_cons_of_mem _ hi)) hnew

theorem getdents_loop_calls (bits : Nat) (oc : List WChar → Option (List Byte))
    (cb : FillCall → Int)
    (count : Nat) (G : FillCall → Prop) :
    ∀ (script : List DirQuery) (rs size : Int) (queries : List (Int × Int))
      (calls : List FillCall) (events : List HandleEvent) (r : Getdents),
      (∀ entries, DirQuery.ok entries ∈ script → ∀ info ∈ entries, ∀ c : FillCall,
        c.name = info.FileName → c.inode = info.FileIdHigh ^^^ info.FileIdLow → G c) →
      (∀ c ∈ calls, G c) →
      getdents_loop bits oc cb count script rs size queries calls events = some r →
      ∀ c ∈ r.calls, G c := by
  intro script
  induction script with
  | nil => intro rs size queries calls events r _ _ h; simp [getdents_loop] at h
  | cons q script ih =>
    intro rs size queries calls events r hG hc h
    cases q with
    | fail st =>
      simp only [getdents_loop, Option.some.injEq] at h
      subst h; exact hc
    | ok entries =>
      cases entries with
      | nil =>
        simp only [getdents_loop, Option.some.injEq] at h
        subst h; exact hc
      | cons info rest =>
        have he := getdents_entries_calls bits oc cb count G (info :: rest) size calls
          (hG (info :: rest) (List.mem_cons_self _ _)) hc
        simp only [getdents_loop] at h
        split_ifs at h
        all_goals first
          | (simp only [Option.some.injEq] at h; subst h; exact he)
          | exact ih _ _ _ _ _ _ (fun e hm => hG e (List.mem_cons_of_mem _ hm)) he h

/-- C16: for every host file, `winfs_stat` reports as `st_ino` the XOR of the two halves
of its file index; for every answer of the host to a directory scan, each inode that
`winfs_getdents` passes to the callback is the XOR of the two halves of the file id of a
record the host returned, passed with the name of that record; and the XOR of two
halves below `2^32` is below `2^32`.  Both are functions of the halves alone. -/
theorem inode_is_xor_fold (f : HostFile) (bits : Nat) (oc : List WChar → Option (List Byte))
    (cb : FillCall → Int) (restart_scan : Int) (count : Nat) (script : List DirQuery)
    (r : Getdents) (hr : winfs_getdents bits oc cb restart_scan count script = some r) :
    (winfs_stat f).st_ino = f.nFileIndexHigh ^^^ f.nFileIndexLow ∧
    (f.nFileIndexHigh < 2 ^ 32 → f.nFileIndexLow < 2 ^ 32 → (winfs_stat f).st_ino < 2 ^ 32) ∧
    (∀ c ∈ r.calls, ∃ entries info, DirQuery.ok entries ∈ script ∧ info ∈ entries ∧
      c.name = info.FileName ∧ c.inode = info.FileIdHigh ^^^ info.FileIdLow ∧
      (info.FileIdHigh < 2 ^ 32 → info.FileIdLow < 2 ^ 32 → c.inode < 2 ^ 32)) := by
  have hino : (winfs_stat f).st_ino = f.nFileIndexHigh ^^^ f.nFileIndexLow := by
    unfold winfs_stat
    dsimp only
    split_ifs <;> rfl
  refine ⟨hino, ?_, ?_⟩
  · intro h1 h2
    rw [hino]
    exact Nat.xor_lt_two_pow h1 h2
  · unfold winfs_getdents at hr
    cases hl : getdents_loop bits oc cb count script restart_scan 0 [] []
        [HandleEvent.AcquireSRWLockShared] with
    | none => rw [hl] at hr; simp at hr
    | some r0 =>
      rw [hl] at hr
      simp only [Option.map_some', Option.some.injEq] at hr
      subst hr
      exact getdents_loop_calls bits oc cb count
        (fun c => ∃ entries info, DirQuery.ok entries ∈ script ∧ info ∈ entries ∧
          c.name = info.FileName ∧ c.inode = info.FileIdHigh ^^^ info.FileIdLow ∧
          (info.FileIdHigh < 2 ^ 32 → info.FileIdLow < 2 ^ 32 → c.inode < 2 ^ 32))
        script restart_scan 0 [] [] _ r0
        (fun entries hm info hi c hn hx =>
          ⟨entries, info, hm, hi, hn, hx, fun h1 h2 => hx ▸ Nat.xor_lt_two_pow h1 h2⟩)
        (by simp) hl

/-- Witness of C16: a directory with two records, file ids `(0, 7)` and `(1, 7)`; the
callback receives the inodes 7 and 6. -/
theorem inode_is_xor_fold_witness :
    winfs_getdents 64 (fun _ => none) (fun _ => 24) 1 4096
        [.ok [⟨0, 7, 0, [0x61]⟩], .ok [⟨1, 7, 0x10, [0x62]⟩], .fail 0x80000006] =
      some ⟨48, 0, [(2048, 1), (2036, 0), (2024, 0)],
        [⟨7, [0x61], 1, DT_REG, 4096⟩, ⟨6, [0x62], 1, DT_DIR, 4072⟩],
        [.AcquireSRWLockShared, .NtQueryDirectoryFile, .store_restart_scan 0,
          .NtQueryDirectoryFile, .store_restart_scan 0, .NtQueryDirectoryFile,
          .store_restart_scan 0, .ReleaseSRWLockShared]⟩ ∧
    (winfs_stat ⟨0, 1, 7, 1, []⟩).st_ino = 6 ∧
    ∀ c ∈ [(⟨7, [0x61], 1, DT_REG, 4096⟩ : FillCall), ⟨6, [0x62], 1, DT_DIR, 4072⟩],
      ∃ entries info,
        DirQuery.ok entries ∈
          [DirQuery.ok [⟨0, 7, 0, [0x61]⟩], .ok [⟨1, 7, 0x10, [0x62]⟩], .fail 0x80000006] ∧
        info ∈ entries ∧ c.name = info.FileName ∧
        c.inode = info.FileIdHigh ^^^ info.FileIdLow ∧
        (info.FileIdHigh < 2 ^ 32 → info.FileIdLow < 2 ^ 32 → c.inode < 2 ^ 32) :=
  have h := inode_is_xor_fold ⟨0, 1, 7, 1, []⟩ 64 (fun _ => none) (fun _ => 24) 1 4096
    [.ok [⟨0, 7, 0, [0x61]⟩], .ok [⟨1, 7, 0x10, [0x62]⟩], .fail 0x80000006] _
    (by decide : winfs_getdents 64 (fun _ => none) (fun _ => 24) 1 4096
        [.ok [⟨0, 7, 0, [0x61]⟩], .ok [⟨1, 7, 0x10, [0x62]⟩], .fail 0x80000006] =
      some ⟨48, 0, [(2048, 1), (2036, 0), (2024, 0)],
        [⟨7, [0x61], 1, DT_REG, 4096⟩, ⟨6, [0x62], 1, DT_DIR, 4072⟩],
        [.AcquireSRWLockShared, .NtQueryDirectoryFile, .store_restart_scan 0,
          .NtQueryDirectoryFile, .store_restart_scan 0, .NtQueryDirectoryFile,
          .store_restart_scan 0, .ReleaseSRWLockShared]⟩)
  ⟨by decide, h.1, h.2.2⟩

theorem getdents_loop_queries (bits : Nat) (oc : List WChar → Option (List Byte))
    (cb : FillCall → Int)
    (count : Nat) :
    ∀ (script : List DirQuery) (rs size : Int) (queries : List (Int × Int))
      (calls : List FillCall) (events : List HandleEvent) (r : Getdents),
      getdents_loop bits oc cb count script rs size queries calls events = some r →
      r.restart_scan = 0 ∧
        ∃ bs rest, r.queries = queries ++ (bs, rs) :: rest ∧ ∀ q ∈ rest, q.2 = 0 := by
  intro script
  induction script with
  | nil => intro rs size queries calls events r h; simp [getdents_loop] at h
  | cons q script ih =>
    intro rs size queries calls events r h
    cases q with
    | fail st =>
      simp only [getdents_loop, Option.some.injEq] at h
      subst h
      exact ⟨rfl, _, [], rfl, by simp⟩
    | ok entries =>
      cases entries with
      | nil =>
        simp only [getdents_loop, Option.some.injEq] at h
        subst h
        exact ⟨rfl, _, [], rfl, by simp⟩
      | cons info rest =>
        simp only [getdents_loop] at h
        split_ifs at h
        all_goals first
          | (simp only [Option.some.injEq] at h; subst h; exact ⟨rfl, _, [], rfl, by simp⟩)
          | (obtain ⟨h0, bs, rest1, hq, hz⟩ := ih _ _ _ _ _ _ h
             refine ⟨h0, ?_⟩
             rw [hq, List.append_assoc]
             refine ⟨_, (bs, 0) :: rest1, rfl, ?_⟩
             intro q hm
             rcases List.mem_cons.mp hm with e | e
             · rw [e]
             · exact hz q e)

theorem getdents_loop_returns (bits : Nat) (oc : List WChar → Option (List Byte))
    (cb : FillCall → Int)
    (count : Nat) :
    ∀ (script : List DirQuery) (rs size : Int) (queries : List (Int × Int))
      (calls : List FillCall) (events : List HandleEvent),
      (∃ q ∈ script, q = DirQuery.ok [] ∨ ∃ st, q = DirQuery.fail st) →
      (getdents_loop bits oc cb count script rs size queries calls events).isSome = true := by
  intro script
  induction script with
  | nil => intro rs size queries calls events h; obtain ⟨q, hm, _⟩ := h; simp at hm
  | cons q script ih =>
    intro rs size queries calls events h
    cases q with
    | fail st => simp [getdents_loop]
    | ok entries =>
      cases entries with
      | nil => simp [getdents_loop]
      | cons info rest =>
        have hs : ∃ q ∈ script, q = DirQuery.ok [] ∨ ∃ st, q = DirQuery.fail st := by
          obtain ⟨q, hm, hq⟩ := h
          rcases List.mem_cons.mp hm with e | e
          · subst e
            rcases hq with hq | ⟨st, hq⟩
            · simp at hq
            · simp at hq
          · exact ⟨q, e, hq⟩
        simp only [getdents_loop]
        split_ifs
        all_goals first
          | rfl
          | exact ih _ _ _ _ _ hs

/-- C19: the flag `restart_scan` of a handle.  Every file object that `winfs_open` stores
has the flag 1.  A `winfs_llseek` with a valid `whence` returns 0 and sets the flag to 1
exactly when `whence` is `SEEK_SET` and `offset` is 0; in every other case it leaves the
flag as it was, wherever the file pointer ends.  With an invalid `whence` it returns
`-EINVAL`, takes no lock, and leaves the flag and the file pointer alone.
`winfs_getdents` returns whenever the host at some point fails or reports no record; it
passes the current flag to its first query, 0 to every later query, and leaves the flag 0.
Of the functions in `winfs_ops`, only `llseek` and `getdents` assign the flag. -/
theorem restart_scan_machine
    (conv : List Byte → Nat → Int → Int × List WChar) (cwd : List WChar) (host : OpenHost)
    (O_DELETE : Nat) (pathname : List Byte) (flags : Nat) (fp_null target_null : Bool)
    (buflen : Int) (bits : Nat) (oc : List WChar → Option (List Byte)) (cb : FillCall → Int)
    (count : Nat) (script : List DirQuery) (restart_scan position : Int) (size : Nat)
    (offset whence : Int) :
    (∀ f, (winfs_open conv cwd host O_DELETE pathname flags fp_null target_null buflen).fp =
        some f → f.restart_scan = 1) ∧
    ((whence = SEEK_SET ∨ whence = SEEK_CUR ∨ whence = SEEK_END) →
      (winfs_llseek restart_scan position size offset whence).ret = 0 ∧
      (winfs_llseek restart_scan position size offset whence).restart_scan =
        if whence = SEEK_SET ∧ offset = 0 then 1 else restart_scan) ∧
    (¬ (whence = SEEK_SET ∨ whence = SEEK_CUR ∨ whence = SEEK_END) →
      winfs_llseek restart_scan position size offset whence =
        ⟨- EINVAL, none, restart_scan, position, []⟩) ∧
    ((∃ q ∈ script, q = DirQuery.ok [] ∨ ∃ st, q = DirQuery.fail st) →
      (winfs_getdents bits oc cb restart_scan count script).isSome = true) ∧
    (∀ r, winfs_getdents bits oc cb restart_scan count script = some r →
      r.restart_scan = 0 ∧
        ∃ bs rest, r.queries = (bs, restart_scan) :: rest ∧ ∀ q ∈ rest, q.2 = 0) ∧
    (∀ op : FileOp, op.assigns_restart_scan = true → op = .llseek ∨ op = .getdents) := by
  refine ⟨?_, ?_, ?_, ?_, ?_, ?_⟩
  · intro f hf
    unfold winfs_open at hf
    dsimp only at hf
    split_ifs at hf
    all_goals (simp only [Option.some.injEq] at hf; subst hf; rfl)
  · intro hw
    unfold winfs_llseek
    rw [if_neg (by intro h; rcases hw with e | e | e <;> simp [e] at h)]
    dsimp only
    split_ifs <;> exact ⟨rfl, rfl⟩
  · intro hw
    unfold winfs_llseek
    rw [if_pos ⟨fun e => hw (Or.inl e), fun e => hw (Or.inr (Or.inl e)),
      fun e => hw (Or.inr (Or.inr e))⟩]
  · intro hs
    have hl := getdents_loop_returns bits oc cb count script restart_scan 0 [] []
      [.AcquireSRWLockShared] hs
    rw [Option.isSome_iff_exists] at hl ⊢
    obtain ⟨v, hv⟩ := hl
    exact ⟨_, by unfold winfs_getdents; rw [hv]; rfl⟩
  · intro r hr
    unfold winfs_getdents at hr
    rw [Option.map_eq_some'] at hr
    obtain ⟨r0, h0, e⟩ := hr
    obtain ⟨hz, bs, rest, hq, hrest⟩ := getdents_loop_queries bits oc cb count script _ _ _ _ _ r0 h0
    subst e
    exact ⟨hz, bs, rest, by simpa using hq, hrest⟩
  · intro op h
    cases op <;> simp [FileOp.assigns_restart_scan] at h ⊢

/-- Witness of C19: a regular file `l` in `C:\x` opened read-only; a seek to the start
from position 5 with the flag 0; a seek with the `whence` 3; and a scan of three queries
on a handle whose flag is 1. -/
theorem restart_scan_machine_witness :
    (winfs_open ascii_to_utf16 [0x43, 0x3A, 0x5C, 0x78] ⟨0, 0, 0, true, []⟩ 0 [0x6C] 0 false
        false 16).fp = some ⟨.created, 0, 1, 1, [0x6C]⟩ ∧
    (winfs_llseek 0 5 10 0 SEEK_SET).restart_scan = 1 ∧
    winfs_llseek 0 5 10 0 3 = ⟨- EINVAL, none, 0, 5, []⟩ ∧
    (winfs_getdents 64 (fun _ => none) (fun _ => 24) 1 4096
        [.ok [⟨0, 7, 0, [0x61]⟩], .ok [⟨1, 7, 0x10, [0x62]⟩], .fail 0x80000006]).isSome = true ∧
    (winfs_getdents 64 (fun _ => none) (fun _ => 24) 1 4096
        [.ok [⟨0, 7, 0, [0x61]⟩], .ok [⟨1, 7, 0x10, [0x62]⟩], .fail 0x80000006]).map
      (fun r => (r.restart_scan, r.queries)) = some (0, [(2048, 1), (2036, 0), (2024, 0)]) :=
  have h := restart_scan_machine ascii_to_utf16 [0x43, 0x3A, 0x5C, 0x78] ⟨0, 0, 0, true, []⟩ 0
    [0x6C] 0 false false 16 64 (fun _ => none) (fun _ => 24) 4096
    [.ok [⟨0, 7, 0, [0x61]⟩], .ok [⟨1, 7, 0x10, [0x62]⟩], .fail 0x80000006] 1 5 10 0 SEEK_SET
  have h3 := (restart_scan_machine ascii_to_utf16 [0x43, 0x3A, 0x5C, 0x78] ⟨0, 0, 0, true, []⟩ 0
    [0x6C] 0 false false 16 64 (fun _ => none) (fun _ => 24) 4096 [] 0 5 10 0 3).2.2.1 (by decide)
  ⟨by decide, by decide, h3,
    h.2.2.2.1 ⟨.fail 0x80000006, by decide, Or.inr ⟨_, rfl⟩⟩, by decide⟩

/-- Counterexample to C19 as stated: from position 5 a seek by -5 relative to the current
position, and on a file of 10 bytes a seek by -10 relative to the end, both leave the
file pointer at 0 and the flag at 0, so the next `winfs_getdents` continues the scan. -/
theorem restart_scan_machine_fails :
    winfs_llseek 0 5 10 (-5) SEEK_CUR =
        ⟨0, some 0, 0, 0,
          [.AcquireSRWLockExclusive, .SetFilePointerEx, .ReleaseSRWLockExclusive]⟩ ∧
      winfs_llseek 0 5 10 (-10) SEEK_END =
        ⟨0, some 0, 0, 0,
          [.AcquireSRWLockExclusive, .SetFilePointerEx, .ReleaseSRWLockExclusive]⟩ ∧
      (winfs_getdents 64 (fun _ => none) (fun _ => 24)
        (winfs_llseek 0 5 10 (-5) SEEK_CUR).restart_scan 4096 [.fail 0x80000006]).map
          (fun r => r.queries) = some [(2048, 0)] := by
  decide

theorem getdents_loop_events (bits : Nat) (oc : List WChar → Option (List Byte))
    (cb : FillCall → Int)
    (count : Nat) :
    ∀ (script : List DirQuery) (rs size : Int) (queries : List (Int × Int))
      (calls : List FillCall) (events : List HandleEvent) (r : Getdents),
      getdents_loop bits oc cb count script rs size queries calls events = some r →
      ∃ n, r.events = events ++
        (List.replicate (n + 1) [HandleEvent.NtQueryDirectoryFile, .store_restart_scan 0]).flatten := by
  intro script
  induction script with
  | nil => intro rs size queries calls events r h; simp [getdents_loop] at h
  | cons q script ih =>
    intro rs size queries calls events r h
    cases q with
    | fail st =>
      simp only [getdents_loop, Option.some.injEq] at h
      subst h
      exact ⟨0, by simp⟩
    | ok entries =>
      cases entries with
      | nil =>
        simp only [getdents_loop, Option.some.injEq] at h
        subst h
        exact ⟨0, by simp⟩
      | cons info rest =>
        simp only [getdents_loop] at h
        split_ifs at h
        all_goals first
          | (simp only [Option.some.injEq] at h; subst h; exact ⟨0, by simp⟩)
          | (obtain ⟨n, hn⟩ := ih _ _ _ _ _ _ h
             exact ⟨n + 1, by rw [hn]; simp [List.replicate_succ, List.append_assoc]⟩)

/-- C20: the lock under which the flag `restart_scan` is written.  `winfs_llseek` with a
valid `whence` does everything between `AcquireSRWLockExclusive` and
`ReleaseSRWLockExclusive`.  `winfs_getdents`, whenever it returns, has taken the lock with
`AcquireSRWLockShared`, has then made one or more queries, each followed by the store
`restart_scan = 0`, and has released the lock with `ReleaseSRWLockShared`: it writes the
flag while holding the lock in shared mode only.  In `winfs_ops`, `llseek` is the only
entry that takes the lock in exclusive mode; `read`, `pread`, `stat`, `readlink` and
`statfs` take it in shared mode. -/
theorem getdents_stores_flag_under_shared_lock (bits : Nat)
    (oc : List WChar → Option (List Byte)) (cb : FillCall → Int) (restart_scan : Int)
    (count : Nat) (script : List DirQuery) (r : Getdents)
    (hr : winfs_getdents bits oc cb restart_scan count script = some r)
    (position : Int) (size : Nat) (offset whence : Int)
    (hw : whence = SEEK_SET ∨ whence = SEEK_CUR ∨ whence = SEEK_END) :
    (∃ n, r.events = [HandleEvent.AcquireSRWLockShared] ++
        (List.replicate (n + 1) [HandleEvent.NtQueryDirectoryFile, .store_restart_scan 0]).flatten ++
        [.ReleaseSRWLockShared]) ∧
      HandleEvent.AcquireSRWLockExclusive ∉ r.events ∧
      HandleEvent.store_restart_scan 0 ∈ r.events ∧
      (winfs_llseek restart_scan position size offset whence).events =
        [.AcquireSRWLockExclusive, .SetFilePointerEx] ++
          (if whence = SEEK_SET ∧ offset = 0 then [.store_restart_scan 1] else []) ++
          [.ReleaseSRWLockExclusive] ∧
      FileOp.rw_lock .getdents = some .shared ∧
      (∀ op : FileOp, op.rw_lock = some .exclusive ↔ op = .llseek) ∧
      (∀ op ∈ [FileOp.read, .pread, .stat, .readlink, .statfs], op.rw_lock = some .shared) := by
  have he : ∃ n, r.events = [HandleEvent.AcquireSRWLockShared] ++
      (List.replicate (n + 1) [HandleEvent.NtQueryDirectoryFile, .store_restart_scan 0]).flatten ++
      [.ReleaseSRWLockShared] := by
    unfold winfs_getdents at hr
    rw [Option.map_eq_some'] at hr
    obtain ⟨r0, h0, e⟩ := hr
    obtain ⟨n, hn⟩ := getdents_loop_events bits oc cb count script _ _ _ _ _ r0 h0
    subst e
    exact ⟨n, by simp only [hn]⟩
  refine ⟨he, ?_, ?_, ?_, rfl, ?_, ?_⟩
  · obtain ⟨n, hn⟩ := he
    rw [hn]
    simp [List.mem_flatten, List.mem_replicate]
  · obtain ⟨n, hn⟩ := he
    rw [hn]
    simp [List.replicate_succ]
  · unfold winfs_llseek
    rw [if_neg (by intro h; rcases hw with e | e | e <;> simp [e] at h)]
    dsimp only
    split_ifs <;> rfl
  · intro op
    cases op <;> simp [FileOp.rw_lock]
  · intro op hop
    simp only [List.mem_cons, List.mem_singleton, List.not_mem_nil, or_false] at hop
    rcases hop with e | e | e | e | e <;> subst e <;> rfl

/-- Witness of C20: a scan whose only query finds nothing more, on a handle whose flag is
1, and a seek to the start. -/
theorem getdents_stores_flag_under_shared_lock_witness :
    winfs_getdents 64 (fun _ => none) (fun _ => 24) 1 4096 [.fail 0x80000006] =
        some ⟨0, 0, [(2048, 1)], [],
          [.AcquireSRWLockShared, .NtQueryDirectoryFile, .store_restart_scan 0,
            .ReleaseSRWLockShared]⟩ ∧
      HandleEvent.AcquireSRWLockExclusive ∉
        [HandleEvent.AcquireSRWLockShared, .NtQueryDirectoryFile, .store_restart_scan 0,
          .ReleaseSRWLockShared] ∧
      (winfs_llseek 1 5 10 0 SEEK_SET).events =
        [.AcquireSRWLockExclusive, .SetFilePointerEx, .store_restart_scan 1,
          .ReleaseSRWLockExclusive] :=
  have h := getdents_stores_flag_under_shared_lock 64 (fun _ => none) (fun _ => 24) 1 4096
    [.fail 0x80000006]
    ⟨0, 0, [(2048, 1)], [],
      [.AcquireSRWLockShared, .NtQueryDirectoryFile, .store_restart_scan 0,
        .ReleaseSRWLockShared]⟩ (by decide) 5 10 0 SEEK_SET (Or.inl rfl)
  ⟨by decide, h.2.1, h.2.2.2.1⟩

theorem winfs_read_loop_terminates :
    ∀ (script : List Transfer) (count num_read : Nat) (reqs : List Request),
      count ≤ script.length →
      ∃ r tail, winfs_read_loop script count num_read reqs = some r ∧
        r.requests = reqs ++ tail ∧ requests_chunked count script tail = true ∧
        (r.ret = - EIO ∨ r.ret = ((num_read + bytes_moved script tail : Nat) : Int)) ∧
        (∀ i t, script[i]? = some t → (t = .fail ERROR_HANDLE_EOF ∨ t = .ok 0) →
          tail.length ≤ i + 1) := by
  intro script
  induction script with
  | nil =>
    intro count num_read reqs h
    have hc : count = 0 := by simpa using h
    refine ⟨⟨num_read, reqs⟩, [], by simp [winfs_read_loop, hc], by simp, rfl,
      Or.inr (by simp [bytes_moved]), by simp⟩
  | cons t script ih =>
    intro count num_read reqs h
    by_cases hc : count = 0
    · refine ⟨⟨num_read, reqs⟩, [], by simp [winfs_read_loop, hc], by simp, rfl,
        Or.inr (by simp [bytes_moved]), by simp⟩
    · have hu : min count UINT_MAX = min count (2 ^ 32 - 1) := rfl
      cases t with
      | fail err =>
        by_cases he : err = ERROR_HANDLE_EOF
        · refine ⟨⟨num_read, reqs ++ [⟨min count UINT_MAX, none⟩]⟩, [⟨min count UINT_MAX, none⟩],
            by simp [winfs_read_loop, hc, he], rfl, by simp [requests_chunked, hu],
            Or.inr (by simp [bytes_moved, Transfer.moved]), by simp⟩
        · refine ⟨⟨- EIO, reqs ++ [⟨min count UINT_MAX, none⟩]⟩, [⟨min count UINT_MAX, none⟩],
            by simp [winfs_read_loop, hc, he], rfl, by simp [requests_chunked, hu],
            Or.inl rfl, by simp⟩
      | ok n =>
        by_cases hm : min n (min count UINT_MAX) = 0
        · refine ⟨⟨num_read, reqs ++ [⟨min count UINT_MAX, none⟩]⟩, [⟨min count UINT_MAX, none⟩],
            by simp [winfs_read_loop, hc, hm], rfl, by simp [requests_chunked, hu],
            Or.inr (by simp [bytes_moved, Transfer.moved, hm]), by simp⟩
        · have hlen : count - min n (min count UINT_MAX) ≤ script.length := by
            simp only [List.length_cons] at h
            omega
          obtain ⟨r, tail, hr, hq, hch, hret, hstop⟩ :=
            ih (count - min n (min count UINT_MAX)) (num_read + min n (min count UINT_MAX))
              (reqs ++ [⟨min count UINT_MAX, none⟩]) hlen
          refine ⟨r, ⟨min count UINT_MAX, none⟩ :: tail, ?_, ?_, ?_, ?_, ?_⟩
          · simp only [winfs_read_loop, hc, if_false, hm]
            exact hr
          · rw [hq, List.append_assoc]
            rfl
          · simp only [requests_chunked, Transfer.moved, Option.getD_some, hu, beq_self_eq_true,
              Bool.true_and]
            rw [← hu]
            exact hch
          · rcases hret with e | e
            · exact Or.inl e
            · refine Or.inr ?_
              rw [e]
              simp only [bytes_moved, Transfer.moved, Option.getD_some]
              push_cast
              omega
          · intro i t ht hs
            cases i with
            | zero =>
              simp only [List.getElem?_cons_zero, Option.some.injEq] at ht
              subst ht
              rcases hs with e | e
              · simp at e
              · simp only [Transfer.ok.injEq] at e
                subst e
                exact absurd (Nat.zero_min _) hm
            | succ j =>
              simp only [List.getElem?_cons_succ] at ht
              have := hstop j t ht hs
              simp only [List.length_cons]
              omega

theorem winfs_pread_loop_terminates :
    ∀ (script : List Transfer) (count : Nat) (offset : Int) (num_read : Nat)
      (reqs : List Request),
      count ≤ script.length →
      ∃ r tail, winfs_pread_loop script count offset num_read reqs = some r ∧
        r.requests = reqs ++ tail ∧ requests_chunked count script tail = true ∧
        (r.ret = - EIO ∨ r.ret = ((num_read + bytes_moved script tail : Nat) : Int)) ∧
        (∀ i t, script[i]? = some t → (t = .fail ERROR_HANDLE_EOF ∨ t = .ok 0) →
          tail.length ≤ i + 1) := by
  intro script
  induction script with
  | nil =>
    intro count offset num_read reqs h
    have hc : count = 0 := by simpa using h
    refine ⟨⟨num_read, reqs⟩, [], by simp [winfs_pread_loop, hc], by simp, rfl,
      Or.inr (by simp [bytes_moved]), by simp⟩
  | cons t script ih =>
    intro count offset num_read reqs h
    by_cases hc : count = 0
    · refine ⟨⟨num_read, reqs⟩, [], by simp [winfs_pread_loop, hc], by simp, rfl,
        Or.inr (by simp [bytes_moved]), by simp⟩
    · have hu : min count UINT_MAX = min count (2 ^ 32 - 1) := rfl
      cases t with
      | fail err =>
        by_cases he : err = ERROR_HANDLE_EOF
        · refine ⟨⟨num_read, reqs ++ [⟨min count UINT_MAX, some (overlapped_of offset)⟩]⟩, [⟨min count UINT_MAX, some (overlapped_of offset)⟩],
            by simp [winfs_pread_loop, hc, he], rfl, by simp [requests_chunked, hu],
            Or.inr (by simp [bytes_moved, Transfer.moved]), by simp⟩
        · refine ⟨⟨- EIO, reqs ++ [⟨min count UINT_MAX, some (overlapped_of offset)⟩]⟩, [⟨min count UINT_MAX, some (overlapped_of offset)⟩],
            by simp [winfs_pread_loop, hc, he], rfl, by simp [requests_chunked, hu],
            Or.inl rfl, by simp⟩
      | ok n =>
        by_cases hm : min n (min count UINT_MAX) = 0
        · refine ⟨⟨num_read, reqs ++ [⟨min count UINT_MAX, some (overlapped_of offset)⟩]⟩, [⟨min count UINT_MAX, some (overlapped_of offset)⟩],
            by simp [winfs_pread_loop, hc, hm], rfl, by simp [requests_chunked, hu],
            Or.inr (by simp [bytes_moved, Transfer.moved, hm]), by simp⟩
        · have hlen : count - min n (min count UINT_MAX) ≤ script.length := by
            simp only [List.length_cons] at h
            omega
          obtain ⟨r, tail, hr, hq, hch, hret, hstop⟩ :=
            ih (count - min n (min count UINT_MAX)) (offset + min n (min count UINT_MAX))
              (num_read + min n (min count UINT_MAX))
              (reqs ++ [⟨min count UINT_MAX, some (overlapped_of offset)⟩]) hlen
          refine ⟨r, ⟨min count UINT_MAX, some (overlapped_of offset)⟩ :: tail, ?_, ?_, ?_, ?_, ?_⟩
          · simp only [winfs_pread_loop, hc, if_false, hm]
            exact hr
          · rw [hq, List.append_assoc]
            rfl
          · simp only [requests_chunked, Transfer.moved, Option.getD_some, hu, beq_self_eq_true,
              Bool.true_and]
            rw [← hu]
            exact hch
          · rcases hret with e | e
            · exact Or.inl e
            · refine Or.inr ?_
              rw [e]
              simp only [bytes_moved, Transfer.moved, Option.getD_some]
              push_cast
              omega
          · intro i t ht hs
            cases i with
            | zero =>
              simp only [List.getElem?_cons_zero, Option.some.injEq] at ht
              subst ht
              rcases hs with e | e
              · simp at e
              · simp only [Transfer.ok.injEq] at e
                subst e
                exact absurd (Nat.zero_min _) hm
            | succ j =>
              simp only [List.getElem?_cons_succ] at ht
              have := hstop j t ht hs
              simp only [List.length_cons]
              omega

theorem winfs_write_loop_terminates (ov : Option (Nat × Nat)) :
    ∀ (script : List Transfer) (count num_written : Nat) (reqs : List Request),
      count ≤ script.length → (∀ t ∈ script, t ≠ Transfer.ok 0) →
      ∃ r tail, winfs_write_loop ov script count num_written reqs = some r ∧
        r.requests = reqs ++ tail ∧ requests_chunked count script tail = true ∧
        (r.ret = - EIO ∨ r.ret = ((num_written + bytes_moved script tail : Nat) : Int)) := by
  intro script
  induction script with
  | nil =>
    intro count num_written reqs h _
    have hc : count = 0 := by simpa using h
    refine ⟨⟨num_written, reqs⟩, [], by simp [winfs_write_loop, hc], by simp, rfl,
      Or.inr (by simp [bytes_moved])⟩
  | cons t script ih =>
    intro count num_written reqs h hp
    by_cases hc : count = 0
    · refine ⟨⟨num_written, reqs⟩, [], by simp [winfs_write_loop, hc], by simp, rfl,
        Or.inr (by simp [bytes_moved])⟩
    · have hu : min count UINT_MAX = min count (2 ^ 32 - 1) := rfl
      cases t with
      | fail err =>
        refine ⟨⟨- EIO, reqs ++ [⟨min count UINT_MAX, ov⟩]⟩, [⟨min count UINT_MAX, ov⟩],
          by simp [winfs_write_loop, hc], rfl, by simp [requests_chunked, hu], Or.inl rfl⟩
      | ok n =>
        have hn : n ≠ 0 := fun e => hp (.ok n) (List.mem_cons_self _ _) (by rw [e])
        have hlen : count - min n (min count UINT_MAX) ≤ script.length := by
          simp only [List.length_cons] at h
          unfold UINT_MAX
          omega
        obtain ⟨r, tail, hr, hq, hch, hret⟩ :=
          ih (count - min n (min count UINT_MAX)) (num_written + min n (min count UINT_MAX))
            (reqs ++ [⟨min count UINT_MAX, ov⟩]) hlen
            (fun t ht => hp t (List.mem_cons_of_mem _ ht))
        refine ⟨r, ⟨min count UINT_MAX, ov⟩ :: tail, ?_, ?_, ?_, ?_⟩
        · simp only [winfs_write_loop, hc, if_false]
          exact hr
        · rw [hq, List.append_assoc]
          rfl
        · simp only [requests_chunked, Transfer.moved, Option.getD_some, hu, beq_self_eq_true,
            Bool.true_and]
          rw [← hu]
          exact hch
        · rcases hret with e | e
          · exact Or.inl e
          · refine Or.inr ?_
            rw [e]
            simp only [bytes_moved, Transfer.moved, Option.getD_some]
            push_cast
            omega

theorem winfs_write_loop_zero_progress (ov : Option (Nat × Nat)) (count : Nat)
    (hc : count ≠ 0) :
    ∀ (k num_written : Nat) (reqs : List Request),
      winfs_write_loop ov (List.replicate k (Transfer.ok 0)) count num_written reqs = none := by
  intro k
  induction k with
  | zero => intro num_written reqs; simp [winfs_write_loop, hc]
  | succ k ih =>
    intro num_written reqs
    simp only [List.replicate_succ, winfs_write_loop, hc, if_false, Nat.zero_min, Nat.sub_zero,
      Nat.add_zero]
    exact ih _ _

theorem winfs_pwrite_loop_terminates :
    ∀ (script : List Transfer) (count : Nat) (offset : Int) (num_written : Nat)
      (reqs : List Request),
      count ≤ script.length → (∀ t ∈ script, t ≠ Transfer.ok 0) →
      ∃ r tail, winfs_pwrite_loop script count offset num_written reqs = some r ∧
        r.requests = reqs ++ tail ∧ requests_chunked count script tail = true ∧
        (r.ret = - EIO ∨ r.ret = ((num_written + bytes_moved script tail : Nat) : Int)) := by
  intro script
  induction script with
  | nil =>
    intro count offset num_written reqs h _
    have hc : count = 0 := by simpa using h
    refine ⟨⟨num_written, reqs⟩, [], by simp [winfs_pwrite_loop, hc], by simp, rfl,
      Or.inr (by simp [bytes_moved])⟩
  | cons t script ih =>
    intro count offset num_written reqs h hp
    by_cases hc : count = 0
    · refine ⟨⟨num_written, reqs⟩, [], by simp [winfs_pwrite_loop, hc], by simp, rfl,
        Or.inr (by simp [bytes_moved])⟩
    · have hu : min count UINT_MAX = min count (2 ^ 32 - 1) := rfl
      cases t with
      | fail err =>
        refine ⟨⟨- EIO, reqs ++ [⟨min count UINT_MAX, some (overlapped_of offset)⟩]⟩, [⟨min count UINT_MAX, some (overlapped_of offset)⟩],
          by simp [winfs_pwrite_loop, hc], rfl, by simp [requests_chunked, hu], Or.inl rfl⟩
      | ok n =>
        have hn : n ≠ 0 := fun e => hp (.ok n) (List.mem_cons_self _ _) (by rw [e])
        have hlen : count - min n (min count UINT_MAX) ≤ script.length := by
          simp only [List.length_cons] at h
          unfold UINT_MAX
          omega
        obtain ⟨r, tail, hr, hq, hch, hret⟩ :=
          ih (count - min n (min count UINT_MAX)) (offset + min n (min count UINT_MAX))
            (num_written + min n (min count UINT_MAX))
            (reqs ++ [⟨min count UINT_MAX, some (overlapped_of offset)⟩]) hlen
            (fun t ht => hp t (List.mem_cons_of_mem _ ht))
        refine ⟨r, ⟨min count UINT_MAX, some (overlapped_of offset)⟩ :: tail, ?_, ?_, ?_, ?_⟩
        · simp only [winfs_pwrite_loop, hc, if_false]
          exact hr
        · rw [hq, List.append_assoc]
          rfl
        · simp only [requests_chunked, Transfer.moved, Option.getD_some, hu, beq_self_eq_true,
            Bool.true_and]
          rw [← hu]
          exact hch
        · rcases hret with e | e
          · exact Or.inl e
          · refine Or.inr ?_
            rw [e]
            simp only [bytes_moved, Transfer.moved, Option.getD_some]
            push_cast
            omega

theorem winfs_pwrite_loop_zero_progress (count : Nat)
    (hc : count ≠ 0) :
    ∀ (k : Nat) (offset : Int) (num_written : Nat) (reqs : List Request),
      winfs_pwrite_loop (List.replicate k (Transfer.ok 0)) count offset num_written reqs = none := by
  intro k
  induction k with
  | zero => intro offset num_written reqs; simp [winfs_pwrite_loop, hc]
  | succ k ih =>
    intro offset num_written reqs
    simp only [List.replicate_succ, winfs_pwrite_loop, hc, if_false, Nat.zero_min, Nat.sub_zero,
      Nat.add_zero]
    exact ih _ _ _

/-- C21: termination of the four transfer loops against the answers `script` of the host,
for a count that the answers can cover.  `winfs_read` and `winfs_pread` always return:
every request asks for `min(remaining, 2^32 - 1)` bytes, the result is `-EIO` or the
bytes moved, and no request follows an answer that is `ERROR_HANDLE_EOF` or a success
with zero bytes.  `winfs_write` and `winfs_pwrite` return, with the same requests and
result, when no answer is a success with zero bytes.  They have no test for zero
progress: while the host answers every `WriteFile` with a success of zero bytes, the
count stays what it was and the loop asks again, so that after any number `k` of such
answers the loop has not returned. -/
theorem transfer_loops_termination (script : List Transfer) (count flags : Nat)
    (offset : Int) (k : Nat) (hlen : count ≤ script.length) (hcount : 0 < count) :
    (∃ r, winfs_read script count = some r ∧
      requests_chunked count script r.requests = true ∧
      (r.ret = - EIO ∨ r.ret = (bytes_moved script r.requests : Int)) ∧
      (∀ i t, script[i]? = some t → (t = .fail ERROR_HANDLE_EOF ∨ t = .ok 0) →
        r.requests.length ≤ i + 1)) ∧
    (∃ r, winfs_pread script count offset = some r ∧
      requests_chunked count script r.requests = true ∧
      (r.ret = - EIO ∨ r.ret = (bytes_moved script r.requests : Int)) ∧
      (∀ i t, script[i]? = some t → (t = .fail ERROR_HANDLE_EOF ∨ t = .ok 0) →
        r.requests.length ≤ i + 1)) ∧
    ((∀ t ∈ script, t ≠ Transfer.ok 0) →
      (∃ r, winfs_write flags script count = some r ∧
        requests_chunked count script r.requests = true ∧
        (r.ret = - EIO ∨ r.ret = (bytes_moved script r.requests : Int))) ∧
      (∃ r, winfs_pwrite script count offset = some r ∧
        requests_chunked count script r.requests = true ∧
        (r.ret = - EIO ∨ r.ret = (bytes_moved script r.requests : Int)))) ∧
    winfs_write flags (List.replicate k (.ok 0)) count = none ∧
    winfs_pwrite (List.replicate k (.ok 0)) count offset = none := by
  refine ⟨?_, ?_, ?_, ?_, ?_⟩
  · obtain ⟨r, tail, hr, hq, hch, hret, hstop⟩ := winfs_read_loop_terminates script count 0 [] hlen
    rw [List.nil_append] at hq
    rw [Nat.zero_add, ← hq] at hret
    exact ⟨r, hr, hq ▸ hch, hret, hq ▸ hstop⟩
  · obtain ⟨r, tail, hr, hq, hch, hret, hstop⟩ :=
      winfs_pread_loop_terminates script count offset 0 [] hlen
    rw [List.nil_append] at hq
    rw [Nat.zero_add, ← hq] at hret
    exact ⟨r, hr, hq ▸ hch, hret, hq ▸ hstop⟩
  · intro hp
    constructor
    · obtain ⟨r, tail, hr, hq, hch, hret⟩ :=
        winfs_write_loop_terminates _ script count 0 [] hlen hp
      rw [List.nil_append] at hq
      rw [Nat.zero_add, ← hq] at hret
      exact ⟨r, hr, hq ▸ hch, hret⟩
    · obtain ⟨r, tail, hr, hq, hch, hret⟩ :=
        winfs_pwrite_loop_terminates script count offset 0 [] hlen hp
      rw [List.nil_append] at hq
      rw [Nat.zero_add, ← hq] at hret
      exact ⟨r, hr, hq ▸ hch, hret⟩
  · exact winfs_write_loop_zero_progress _ count (by omega) k 0 []
  · exact winfs_pwrite_loop_zero_progress count (by omega) k offset 0 []

/-- Witness of C21: 2 bytes asked.  Against two answers of 1 byte each, the four
operations return 2 after requests of 2 bytes and 1 byte.  Against three answers of zero
bytes, `winfs_read` and `winfs_pread` return 0 after one request, and `winfs_write` and
`winfs_pwrite` are still in the loop after the third. -/
theorem transfer_loops_termination_witness :
    (winfs_read [.ok 1, .ok 1] 2 = some ⟨2, [⟨2, none⟩, ⟨1, none⟩]⟩ ∧
      winfs_write 0 [.ok 1, .ok 1] 2 = some ⟨2, [⟨2, none⟩, ⟨1, none⟩]⟩ ∧
      (∃ r, winfs_pwrite [.ok 1, .ok 1] 2 0 = some r ∧
        requests_chunked 2 [.ok 1, .ok 1] r.requests = true ∧
        (r.ret = - EIO ∨ r.ret = (bytes_moved [.ok 1, .ok 1] r.requests : Int)))) ∧
    (winfs_read [.ok 0, .ok 0, .ok 0] 2 = some ⟨0, [⟨2, none⟩]⟩ ∧
      winfs_pread [.ok 0, .ok 0, .ok 0] 2 0 = some ⟨0, [⟨2, some (0, 0)⟩]⟩ ∧
      winfs_write 0 [.ok 0, .ok 0, .ok 0] 2 = none ∧
      winfs_pwrite [.ok 0, .ok 0, .ok 0] 2 0 = none) :=
  have h := transfer_loops_termination [.ok 1, .ok 1] 2 0 0 3 (by decide) (by decide)
  ⟨⟨by decide, by decide, (h.2.2.1 (by decide)).2⟩, by decide, by decide, h.2.2.2.1, h.2.2.2.2⟩

theorem symlink_test_fail (host : OpenHost) (flags : Nat) (target_null : Bool) (buflen : Int)
    (handle : Handle) (opened closed : List Handle) (request : Option (Nat × Nat × Nat))
    (hfail : (winfs_read_symlink host.content target_null buflen).ret ≤ 0) :
    open_file_symlink_test host flags target_null buflen handle opened closed request =
      ⟨0, some handle, opened, closed,
        (winfs_read_symlink host.content target_null buflen).target, request⟩ := by
  unfold open_file_symlink_test
  simp only [gt_iff_lt, not_lt.mpr hfail, if_false]

/-- C22: a path that translates, opened with `O_DIRECTORY` on a host object that is not a
directory and whose content does not pass the symlink check.  Without the system
attribute `winfs_open` returns `-ENOTDIR` and builds no file object.  With the system
attribute the test for `O_DIRECTORY` is not reached: `winfs_open` returns 0 and, given a
place for it, builds a file object on the file that is not a directory. -/
theorem directory_flag_on_system_file
    (conv : List Byte → Nat → Int → Int × List WChar) (cwd : List WChar) (host : OpenHost)
    (O_DELETE : Nat) (pathname : List Byte) (flags : Nat) (fp_null target_null : Bool)
    (buflen : Int)
    (hname : (2 * (filename_to_nt_pathname conv cwd pathname PATH_MAX).ret) % 2 ^ 16 ≠ 0)
    (hcreate : NT_SUCCESS host.create_status = true)
    (hquery : NT_SUCCESS host.query_status = true)
    (hflag : flags &&& O_DIRECTORY ≠ 0)
    (hnotdir : host.FileAttributes &&& FILE_ATTRIBUTE_DIRECTORY = 0)
    (hnolink : (winfs_read_symlink host.content target_null buflen).ret ≤ 0) :
    (host.FileAttributes &&& FILE_ATTRIBUTE_SYSTEM = 0 →
      (winfs_open conv cwd host O_DELETE pathname flags fp_null target_null buflen).ret =
        - ENOTDIR ∧
      (winfs_open conv cwd host O_DELETE pathname flags fp_null target_null buflen).fp = none) ∧
    (host.FileAttributes &&& FILE_ATTRIBUTE_SYSTEM ≠ 0 →
      (winfs_open conv cwd host O_DELETE pathname flags fp_null target_null buflen).ret = 0 ∧
      (fp_null = false →
        (winfs_open conv cwd host O_DELETE pathname flags fp_null target_null buflen).fp =
          some ⟨if (flags &&& O_PATH ≠ 0 ∨ (flags &&& O_RDWR = 0 ∧ flags &&& O_WRONLY ≠ 0)) then
              (if host.reopen_ok = true then Handle.reopened else Handle.uninitialised)
            else Handle.created,
            flags, 1, strlen pathname, pathname.take (strlen pathname)⟩)) := by
  have hacc := open_read_access O_DELETE flags
  have hENOTDIR : (- ENOTDIR : Int) < 0 := by decide
  constructor
  · intro hsys
    have hcol := nt_success_not_collision _ hcreate
    unfold winfs_open open_file
    simp only [hname, hcol, hcreate, hquery, hsys, hnotdir, hflag, if_true, if_false, ne_eq,
      not_true_eq_false, not_false_eq_true, and_self]
    simp [hENOTDIR]
  · intro hsys
    have hof := open_file_system_file conv cwd host pathname (open_desired_access O_DELETE flags)
      (open_create_disposition flags) flags target_null buflen hname hcreate hquery hsys
    unfold winfs_open
    rw [hof]
    by_cases hneed : (flags &&& O_PATH ≠ 0 ∨ (flags &&& O_RDWR = 0 ∧ flags &&& O_WRONLY ≠ 0))
    · rw [if_pos (hacc.mpr hneed), if_pos hneed]
      by_cases hre : host.reopen_ok = true
      · rw [if_pos hre, if_pos hre, symlink_test_fail _ _ _ _ _ _ _ _ hnolink]
        cases fp_null <;> simp
      · rw [if_neg hre, if_neg hre]
        cases fp_null <;> simp
    · rw [if_neg (fun h => hneed (hacc.mp h)), if_neg hneed,
        symlink_test_fail _ _ _ _ _ _ _ _ hnolink]
      cases fp_null <;> simp

/-- Witness of C22: in `C:\x`, the regular file `l` with content `a`, opened with
`O_DIRECTORY` alone.  Without the system attribute the result is `-ENOTDIR`; with it
the result is 0 and a file object on the handle of the file. -/
theorem directory_flag_on_system_file_witness :
    ((winfs_open ascii_to_utf16 [0x43, 0x3A, 0x5C, 0x78] ⟨0, 0, 0, true, [0x61]⟩ 0 [0x6C]
        O_DIRECTORY false false 16).ret = - ENOTDIR ∧
      (winfs_open ascii_to_utf16 [0x43, 0x3A, 0x5C, 0x78] ⟨0, 0, 0, true, [0x61]⟩ 0 [0x6C]
        O_DIRECTORY false false 16).fp = none) ∧
    winfs_open ascii_to_utf16 [0x43, 0x3A, 0x5C, 0x78] ⟨0, 0, FILE_ATTRIBUTE_SYSTEM, true, [0x61]⟩
        0 [0x6C] O_DIRECTORY false false 16 =
      ⟨0, some ⟨.created, O_DIRECTORY, 1, 1, [0x6C]⟩, [.created], [], none, none⟩ ∧
    (winfs_open ascii_to_utf16 [0x43, 0x3A, 0x5C, 0x78] ⟨0, 0, FILE_ATTRIBUTE_SYSTEM, true, [0x61]⟩
        0 [0x6C] O_DIRECTORY false false 16).ret = 0 :=
  ⟨(directory_flag_on_system_file ascii_to_utf16 [0x43, 0x3A, 0x5C, 0x78]
      ⟨0, 0, 0, true, [0x61]⟩ 0 [0x6C] O_DIRECTORY false false 16 (by decide) (by decide)
      (by decide) (by decide) (by decide) (by decide)).1 (by decide),
    by decide,
    ((directory_flag_on_system_file ascii_to_utf16 [0x43, 0x3A, 0x5C, 0x78]
      ⟨0, 0, FILE_ATTRIBUTE_SYSTEM, true, [0x61]⟩ 0 [0x6C] O_DIRECTORY false false 16 (by decide)
      (by decide) (by decide) (by decide) (by decide) (by decide)).2 (by decide)).1⟩

theorem open_file_zero_cases
    (conv : List Byte → Nat → Int → Int × List WChar) (cwd : List WChar) (host : OpenHost)
    (pathname : List Byte) (desired_access create_disposition flags : Nat)
    (target_null : Bool) (buflen : Int) (o : OpenFile)
    (ho : o = open_file conv cwd host pathname desired_access create_disposition flags
      target_null buflen)
    (h0 : o.ret = 0) :
    ((host.FileAttributes &&& FILE_ATTRIBUTE_SYSTEM ≠ 0 ∧
        (desired_access ||| SYNCHRONIZE ||| FILE_READ_ATTRIBUTES) &&& GENERIC_READ = 0 ∧
        host.reopen_ok = false) →
      o.hFile = none ∧ o.opened = [.created] ∧ o.closed = []) ∧
    (¬ (host.FileAttributes &&& FILE_ATTRIBUTE_SYSTEM ≠ 0 ∧
        (desired_access ||| SYNCHRONIZE ||| FILE_READ_ATTRIBUTES) &&& GENERIC_READ = 0 ∧
        host.reopen_ok = false) →
      ∃ h, h ≠ Handle.uninitialised ∧ o.hFile = some h ∧ h ∈ o.opened ∧ h ∉ o.closed) := by
  have e1 : ¬ ((- ENOENT : Int) = 0) := by decide
  have e2 : ¬ ((- EEXIST : Int) = 0) := by decide
  have e3 : ¬ ((- EIO : Int) = 0) := by decide
  have e4 : ¬ ((- ELOOP : Int) = 0) := by decide
  have e5 : ¬ ((- ENOTDIR : Int) = 0) := by decide
  have e6 : ¬ ((1 : Int) = 0) := by decide
  by_cases c1 : (2 * (filename_to_nt_pathname conv cwd pathname PATH_MAX).ret) % 2 ^ 16 = 0
  · unfold open_file at ho
    simp only [c1, if_true] at ho
    subst ho
    exact absurd h0 e1
  by_cases c2 : host.create_status = STATUS_OBJECT_NAME_COLLISION
  · unfold open_file at ho
    simp only [c1, c2, if_true, if_false] at ho
    subst ho
    exact absurd h0 e2
  by_cases c3 : NT_SUCCESS host.create_status = true
  swap
  · unfold open_file at ho
    simp only [c1, c2, c3, if_true, if_false, not_false_eq_true] at ho
    subst ho
    exact absurd h0 e1
  by_cases c4 : NT_SUCCESS host.query_status = true
  swap
  · unfold open_file at ho
    simp only [c1, c2, c3, c4, if_true, if_false, not_false_eq_true, not_true_eq_false] at ho
    subst ho
    exact absurd h0 e3
  by_cases c5 : host.FileAttributes &&& FILE_ATTRIBUTE_SYSTEM = 0
  · have nb : ¬ (host.FileAttributes &&& FILE_ATTRIBUTE_SYSTEM ≠ 0 ∧
        (desired_access ||| SYNCHRONIZE ||| FILE_READ_ATTRIBUTES) &&& GENERIC_READ = 0 ∧
        host.reopen_ok = false) := fun hb => hb.1 c5
    unfold open_file at ho
    simp only [c1, c2, c3, c4, c5, if_true, if_false, not_false_eq_true, not_true_eq_false,
      ne_eq] at ho
    by_cases c6 : host.FileAttributes &&& FILE_ATTRIBUTE_DIRECTORY = 0 ∧ ¬ flags &&& O_DIRECTORY = 0
    · rw [if_pos c6] at ho
      subst ho
      exact absurd h0 e5
    · rw [if_neg c6] at ho
      subst ho
      exact ⟨fun hb => absurd hb nb, fun _ => ⟨.created, by decide, rfl, by simp, by simp⟩⟩
  · rw [open_file_system_file conv cwd host pathname desired_access create_disposition flags
      target_null buflen c1 c3 c4 c5] at ho
    have close_test : ∀ (handle : Handle) (opened closed : List Handle)
        (request : Option (Nat × Nat × Nat)),
        o = open_file_symlink_test host flags target_null buflen handle opened closed request →
        o.hFile = some handle ∧ o.opened = opened ∧ o.closed = closed := by
      intro handle opened closed request hq
      by_cases hp : 0 < (winfs_read_symlink host.content target_null buflen).ret
      · rw [symlink_test_pass _ _ _ _ _ _ _ _ hp] at hq
        by_cases f1 : flags &&& O_NOFOLLOW = 0
        · rw [if_pos f1] at hq
          subst hq
          exact absurd h0 e6
        · rw [if_neg f1] at hq
          by_cases f2 : flags &&& O_PATH = 0
          · rw [if_pos f2] at hq
            subst hq
            exact absurd h0 e4
          · rw [if_neg f2] at hq
            subst hq
            exact ⟨rfl, rfl, rfl⟩
      · rw [symlink_test_fail _ _ _ _ _ _ _ _ (not_lt.mp hp)] at hq
        subst hq
        exact ⟨rfl, rfl, rfl⟩
    by_cases c6 : (desired_access ||| SYNCHRONIZE ||| FILE_READ_ATTRIBUTES) &&& GENERIC_READ = 0
    · rw [if_pos c6] at ho
      by_cases c7 : host.reopen_ok = true
      · rw [if_pos c7] at ho
        obtain ⟨a1, a2, a3⟩ := close_test _ _ _ _ ho
        refine ⟨fun hb => ?_, fun _ => ⟨.reopened, by decide, a1, by rw [a2]; simp,
          by rw [a3]; simp⟩⟩
        rw [c7] at hb
        exact absurd hb.2.2 (by decide)
      · rw [if_neg c7] at ho
        subst ho
        refine ⟨fun _ => ⟨rfl, rfl, rfl⟩, fun hn => absurd ⟨c5, c6, ?_⟩ hn⟩
        cases hr : host.reopen_ok
        · rfl
        · exact absurd hr c7
    · rw [if_neg c6] at ho
      obtain ⟨a1, a2, a3⟩ := close_test _ _ _ _ ho
      exact ⟨fun hb => absurd hb.2.1 c6, fun _ => ⟨.created, by decide, a1, by rw [a2]; simp,
        by rw [a3]; simp⟩⟩

/-- C23: what `open_file` leaves in `*hFile` when it returns 0.  On every path but one it
has stored a handle that this call obtained and has not closed.  The exception is the
file with the system attribute, opened without read access, whose reopen with read
access fails: `open_file` returns 0 without storing anything, and leaves the handle from
`NtCreateFile` open.  For a path that translates and a host that opens such a file,
`winfs_open` then returns 0, wraps the unassigned local `handle` in the file object (or
passes it to `CloseHandle` when `fp` is NULL), and truncates through it when asked to. -/
theorem open_file_unset_handle
    (conv : List Byte → Nat → Int → Int × List WChar) (cwd : List WChar) (host : OpenHost)
    (O_DELETE : Nat) (pathname : List Byte) (desired_access create_disposition flags : Nat)
    (fp_null target_null : Bool) (buflen : Int) :
    ((open_file conv cwd host pathname desired_access create_disposition flags target_null
        buflen).ret = 0 →
      ((host.FileAttributes &&& FILE_ATTRIBUTE_SYSTEM ≠ 0 ∧
          (desired_access ||| SYNCHRONIZE ||| FILE_READ_ATTRIBUTES) &&& GENERIC_READ = 0 ∧
          host.reopen_ok = false) →
        (open_file conv cwd host pathname desired_access create_disposition flags target_null
          buflen).hFile = none ∧
        (open_file conv cwd host pathname desired_access create_disposition flags target_null
          buflen).opened = [.created] ∧
        (open_file conv cwd host pathname desired_access create_disposition flags target_null
          buflen).closed = []) ∧
      (¬ (host.FileAttributes &&& FILE_ATTRIBUTE_SYSTEM ≠ 0 ∧
          (desired_access ||| SYNCHRONIZE ||| FILE_READ_ATTRIBUTES) &&& GENERIC_READ = 0 ∧
          host.reopen_ok = false) →
        ∃ h, h ≠ Handle.uninitialised ∧
          (open_file conv cwd host pathname desired_access create_disposition flags target_null
            buflen).hFile = some h ∧
          h ∈ (open_file conv cwd host pathname desired_access create_disposition flags
            target_null buflen).opened ∧
          h ∉ (open_file conv cwd host pathname desired_access create_disposition flags
            target_null buflen).closed)) ∧
    ((2 * (filename_to_nt_pathname conv cwd pathname PATH_MAX).ret) % 2 ^ 16 ≠ 0 →
      NT_SUCCESS host.create_status = true → NT_SUCCESS host.query_status = true →
      host.FileAttributes &&& FILE_ATTRIBUTE_SYSTEM ≠ 0 →
      (flags &&& O_PATH ≠ 0 ∨ (flags &&& O_RDWR = 0 ∧ flags &&& O_WRONLY ≠ 0)) →
      host.reopen_ok = false →
      winfs_open conv cwd host O_DELETE pathname flags fp_null target_null buflen =
        ⟨0,
          if fp_null = true then none
          else some ⟨.uninitialised, flags, 1, strlen pathname, pathname.take (strlen pathname)⟩,
          [.created],
          if fp_null = true then [.uninitialised] else [],
          none,
          if flags &&& O_TRUNC ≠ 0 ∧ (flags &&& O_WRONLY ≠ 0 ∨ flags &&& O_RDWR ≠ 0) then
            some .uninitialised
          else none⟩) := by
  constructor
  · intro h0
    exact open_file_zero_cases conv cwd host pathname desired_access create_disposition flags
      target_null buflen _ rfl h0
  · intro hname hcreate hquery hsys hneed hre
    have hof := open_file_system_file conv cwd host pathname (open_desired_access O_DELETE flags)
      (open_create_disposition flags) flags target_null buflen hname hcreate hquery hsys
    unfold winfs_open
    rw [hof, if_pos ((open_read_access O_DELETE flags).mpr hneed),
      if_neg (show ¬ host.reopen_ok = true by simp [hre])]
    cases fp_null <;> simp

/-- Witness of C23: in `C:\x`, the file `l` with the system attribute, opened with
`O_WRONLY | O_TRUNC` while the reopen with read access fails: `open_file` returns 0 with
nothing stored in `*hFile` and the created handle left open, and `winfs_open` returns 0
with a file object on the unassigned handle, after truncating through it. -/
theorem open_file_unset_handle_witness :
    open_file ascii_to_utf16 [0x43, 0x3A, 0x5C, 0x78] ⟨0, 0, FILE_ATTRIBUTE_SYSTEM, false, [0x61]⟩
        [0x6C] GENERIC_WRITE FILE_OPEN (O_WRONLY ||| O_TRUNC) false 16 =
      ⟨0, none, [.created], [], none,
        some (GENERIC_WRITE ||| SYNCHRONIZE ||| FILE_READ_ATTRIBUTES, FILE_OPEN,
          FILE_SYNCHRONOUS_IO_NONALERT ||| FILE_OPEN_REMOTE_INSTANCE)⟩ ∧
    winfs_open ascii_to_utf16 [0x43, 0x3A, 0x5C, 0x78]
        ⟨0, 0, FILE_ATTRIBUTE_SYSTEM, false, [0x61]⟩ 0 [0x6C] (O_WRONLY ||| O_TRUNC) false false
        16 =
      ⟨0, some ⟨.uninitialised, O_WRONLY ||| O_TRUNC, 1, 1, [0x6C]⟩, [.created], [], none,
        some .uninitialised⟩ :=
  ⟨by decide,
    (open_file_unset_handle ascii_to_utf16 [0x43, 0x3A, 0x5C, 0x78]
      ⟨0, 0, FILE_ATTRIBUTE_SYSTEM, false, [0x61]⟩ 0 [0x6C] GENERIC_WRITE FILE_OPEN
      (O_WRONLY ||| O_TRUNC) false false 16).2 (by decide) (by decide) (by decide) (by decide)
      (by decide) rfl⟩

theorem buffer_after_append (init : Int → WChar) (s t : List (Int × WChar)) :
    buffer_after init (s ++ t) = buffer_after (buffer_after init s) t := by
  funext j
  unfold buffer_after
  rw [List.reverse_append, List.find?_append]
  cases h : List.find? (fun s => s.1 == j) t.reverse <;> simp

theorem buffer_after_singleton (init : Int → WChar) (i : Int) (v : WChar) (j : Int) :
    buffer_after init [(i, v)] j = if i = j then v else init j := by
  unfold buffer_after
  by_cases h : i = j <;> simp [h]

theorem stores_from_snoc (start : Int) (us : List WChar) (u : WChar) :
    stores_from start (us ++ [u]) = stores_from start us ++ [(start + us.length, u)] := by
  unfold stores_from
  simp [List.enum_append, List.enumFrom_singleton]

theorem stores_from_append (start : Int) (a b : List WChar) :
    stores_from start (a ++ b) = stores_from start a ++ stores_from (start + a.length) b := by
  induction b using List.reverseRecOn with
  | nil => simp [stores_from]
  | append_singleton b u ih =>
    rw [← List.append_assoc, stores_from_snoc, ih, stores_from_snoc, List.append_assoc,
      List.length_append]
    push_cast
    rw [Int.add_assoc]

/-- What a buffer holds after `units` have been stored from index `start` on. -/
theorem buffer_after_stores_from (init : Int → WChar) (start : Int) (units : List WChar)
    (j : Int) :
    buffer_after init (stores_from start units) j =
      if start ≤ j ∧ j < start + units.length then units.getD (j - start).toNat 0
      else init j := by
  induction units using List.reverseRecOn with
  | nil =>
    have : ¬ (start ≤ j ∧ j < start + ((([] : List WChar).length : Nat) : Int)) := by
      simp only [List.length_nil]; omega
    rw [if_neg this]
    simp [stores_from, buffer_after]
  | append_singleton us u ih =>
    rw [stores_from_snoc, buffer_after_append, buffer_after_singleton, ih]
    by_cases h1 : start + (us.length : Int) = j
    · rw [if_pos h1]
      have h2 : start ≤ j ∧ j < start + (((us ++ [u]).length : Nat) : Int) := by
        simp only [List.length_append, List.length_singleton]; push_cast; omega
      rw [if_pos h2]
      have h3 : (j - start).toNat = us.length := by omega
      rw [h3, List.getD_append_right _ _ _ _ (le_refl _)]
      simp
    · rw [if_neg h1]
      by_cases h2 : start ≤ j ∧ j < start + (us.length : Int)
      · rw [if_pos h2]
        have h3 : start ≤ j ∧ j < start + (((us ++ [u]).length : Nat) : Int) := by
          simp only [List.length_append, List.length_singleton]; push_cast; omega
        rw [if_pos h3, List.getD_append _ _ _ _ (by omega)]
      · rw [if_neg h2]
        have h3 : ¬ (start ≤ j ∧ j < start + (((us ++ [u]).length : Nat) : Int)) := by
          simp only [List.length_append, List.length_singleton]; push_cast; omega
        rw [if_neg h3]

theorem buffer_units_stores_from (init : Int → WChar) (units : List WChar) (n : Nat)
    (hn : n ≤ units.length) :
    buffer_units (buffer_after init (stores_from 0 units)) n = units.take n := by
  apply List.ext_getElem
  · simp [buffer_units, hn]
  · intro i h1 h2
    simp only [buffer_units, List.getElem_map, List.getElem_range, List.getElem_take]
    rw [buffer_after_stores_from]
    have hi : i < n := by simpa [buffer_units] using h1
    rw [if_pos (by omega)]
    have : ((i : Int) - 0).toNat = i := by omega
    rw [this, List.getD_eq_getElem _ _ (by omega)]

theorem wide_string_at_succ (b : Int → WChar) (limit : Nat) (i : Int) :
    wide_string_at b (limit + 1) i =
      if b i = 0 then [] else b i :: wide_string_at b limit (i + 1) := rfl

theorem wide_string_at_congr (b c : Int → WChar) :
    ∀ (limit : Nat) (start : Int), (∀ j, start ≤ j → b j = c j) →
      wide_string_at b limit start = wide_string_at c limit start := by
  intro limit
  induction limit with
  | zero => intro start _; rfl
  | succ n ih =>
    intro start h
    rw [wide_string_at_succ, wide_string_at_succ, h start (le_refl _),
      ih (start + 1) (fun j hj => h j (by omega))]

theorem wide_string_at_units (b : Int → WChar) :
    ∀ (l : List WChar) (limit : Nat) (start : Int),
      (∀ k (hk : k < l.length), b (start + k) = l[k] ∧ l[k] ≠ 0) → l.length ≤ limit →
      wide_string_at b limit start =
        l ++ wide_string_at b (limit - l.length) (start + l.length) := by
  intro l
  induction l with
  | nil => intro limit start _ _; simp
  | cons u us ih =>
    intro limit start h hl
    obtain ⟨m, rfl⟩ : ∃ m, limit = m + 1 := ⟨limit - 1, by simp at hl; omega⟩
    have h0 := h 0 (by simp)
    simp only [List.getElem_cons_zero, Nat.cast_zero, add_zero] at h0
    rw [wide_string_at_succ, h0.1, if_neg h0.2, ih m (start + 1) (fun k hk => by
      have := h (k + 1) (by simpa using hk)
      simp only [List.getElem_cons_succ] at this
      rw [show start + 1 + (k : Int) = start + ((k + 1 : Nat) : Int) by push_cast; omega]
      exact this) (by simp at hl; omega)]
    simp only [List.length_cons, List.cons_append, Nat.add_sub_add_right]
    rw [show start + 1 + (us.length : Int) = start + ((us.length + 1 : Nat) : Int) by
      push_cast; omega]

theorem nt_pathname_translated (conv : List Byte → Nat → Int → Int × List WChar)
    (cwd w : List WChar) (filename : List Byte) (init : Int → WChar)
    (hfile : filename.headD 0 ≠ 0)
    (hconv : conv filename (strlen filename) (4091 - (cwd.length : Int)) =
      ((w.length : Int), w))
    (hw : w ≠ [])
    (hlen : 4 + cwd.length + 1 + w.length ≤ 4096) :
    (filename_to_nt_pathname conv cwd filename PATH_MAX).ret =
        ((4 + cwd.length + 1 + w.length : Nat) : Int) ∧
      buffer_after init (filename_to_nt_pathname conv cwd filename PATH_MAX).stores =
        buffer_after init (stores_from 0 ([0x5C, 0x3F, 0x3F, 0x5C] ++ cwd ++ [0x5C] ++ w)) := by
  have hwl : 0 < w.length := List.length_pos.mpr hw
  have hP : ((PATH_MAX : Nat) : Int) = 4096 := by decide
  have hg : GetCurrentDirectoryW cwd (dword ((PATH_MAX : Nat) - 4 : Int)) =
      (cwd.length, cwd ++ [0]) := by
    have : dword ((PATH_MAX : Nat) - 4 : Int) = 4092 := by decide
    rw [this]
    unfold GetCurrentDirectoryW
    rw [if_pos (by omega)]
  have hi : int32 ((cwd.length : Nat) : Int) = cwd.length := by
    unfold int32
    omega
  have hb : ((PATH_MAX : Nat) : Int) - 4 - (cwd.length : Int) - 1 = 4091 - (cwd.length : Int) := by
    rw [hP]; omega
  have hc0 : ¬ ((w.length : Int) = 0) := by omega
  unfold filename_to_nt_pathname
  rw [if_neg (by rw [hP]; decide)]
  simp only [hg, hi, hb, hconv, if_neg hfile, if_neg hc0]
  constructor
  · push_cast; omega
  · have hs0 : ([(0, 0x5C), (1, 0x3F), (2, 0x3F), (3, 0x5C)] : List (Int × WChar)) =
        stores_from 0 [0x5C, 0x3F, 0x3F, 0x5C] := by decide
    have hover : ∀ (X : Int → WChar) (i : Int) (a c : WChar),
        buffer_after (buffer_after X [(i, a)]) [(i, c)] = buffer_after X [(i, c)] := by
      intro X i a c
      funext j
      rw [buffer_after_singleton, buffer_after_singleton, buffer_after_singleton]
      split_ifs <;> rfl
    have hone : ∀ (start : Int) (u : WChar), stores_from start [u] = [(start, u)] := by
      intro start u
      simp [stores_from, List.enum]
    rw [hs0, stores_from_snoc, stores_from_append, stores_from_append, stores_from_append, hone]
    simp only [buffer_after_append, hover]
    have e1 : (0 : Int) + (([0x5C, 0x3F, 0x3F, 0x5C] : List WChar).length : Int) = 4 := by decide
    have e2 : (0 : Int) + ((([0x5C, 0x3F, 0x3F, 0x5C] : List WChar) ++ cwd).length : Int) =
        4 + (cwd.length : Int) := by
      simp only [List.length_append, List.length_cons, List.length_nil]; push_cast; omega
    have e3 : (0 : Int) + ((([0x5C, 0x3F, 0x3F, 0x5C] : List WChar) ++ cwd ++ [0x5C]).length : Int) =
        4 + (cwd.length : Int) + 1 := by
      simp only [List.length_append, List.length_cons, List.length_nil]; push_cast; omega
    rw [e1, e2, e3]

/-- The memory at a buffer after a successful translation: the translated path
`\??\`, current directory, `\`, converted name from index 0 on, and after it what the
buffer held before, no NUL in between. -/
theorem translated_path_facts (conv : List Byte → Nat → Int → Int × List WChar)
    (cwd w : List WChar) (filename : List Byte) (init : Int → WChar) (P : List WChar)
    (hfile : filename.headD 0 ≠ 0)
    (hconv : conv filename (strlen filename) (4091 - (cwd.length : Int)) =
      ((w.length : Int), w))
    (hw : w ≠ []) (hcwd : cwd ≠ [])
    (hlen : 4 + cwd.length + 1 + w.length ≤ 4096)
    (hcwd0 : ∀ u ∈ cwd, u ≠ 0) (hw0 : ∀ u ∈ w, u ≠ 0)
    (hP : P = [0x5C, 0x3F, 0x3F, 0x5C] ++ cwd ++ [0x5C] ++ w) :
    (filename_to_nt_pathname conv cwd filename PATH_MAX).ret = (P.length : Int) ∧
      7 ≤ P.length ∧ P.length ≤ 4096 ∧
      buffer_units
        (buffer_after init (filename_to_nt_pathname conv cwd filename PATH_MAX).stores)
        P.length = P ∧
      buffer_units
        (buffer_after init (filename_to_nt_pathname conv cwd filename PATH_MAX).stores)
        7 = P.take 7 ∧
      RtlInitUnicodeString
        (buffer_after init (filename_to_nt_pathname conv cwd filename PATH_MAX).stores) =
        P ++ wide_string_at init (32766 - P.length) P.length := by
  obtain ⟨hret, hbuf⟩ := nt_pathname_translated conv cwd w filename init hfile hconv hw hlen
  have hwl : 0 < w.length := List.length_pos.mpr hw
  have hcl : 0 < cwd.length := List.length_pos.mpr hcwd
  have hPl : P.length = 4 + cwd.length + 1 + w.length := by
    rw [hP]; simp only [List.length_append, List.length_cons, List.length_nil]
  have hP0 : ∀ u ∈ P, u ≠ 0 := by
    intro u hu
    rw [hP] at hu
    simp only [List.mem_append, List.mem_cons, List.mem_singleton, List.not_mem_nil,
      or_false] at hu
    rcases hu with ((h | h) | h) | h
    · rcases h with h | h | h | h <;> rw [h] <;> decide
    · exact hcwd0 u h
    · rw [h]; decide
    · exact hw0 u h
  rw [hbuf, ← hP]
  refine ⟨by rw [hret, hPl], by omega, by omega, ?_, ?_, ?_⟩
  · rw [buffer_units_stores_from init P P.length (le_refl _), List.take_length]
  · exact buffer_units_stores_from init P 7 (by omega)
  · unfold RtlInitUnicodeString
    rw [wide_string_at_units _ P 32766 0 (fun k hk => by
      rw [buffer_after_stores_from, if_pos (by omega)]
      have : ((0 : Int) + (k : Int) - 0).toNat = k := by omega
      rw [this, List.getD_eq_getElem _ _ hk]
      exact ⟨rfl, hP0 _ (List.getElem_mem _)⟩) (by omega)]
    rw [wide_string_at_congr _ init _ _ (fun j hj => by
      rw [buffer_after_stores_from, if_neg (by omega)])]
    simp

theorem sharing_violation_fails : NT_SUCCESS STATUS_SHARING_VIOLATION = false := by decide

theorem RtlAppend_fit (max : Nat) (dest src : List WChar) (h : dest.length + src.length ≤ max) :
    RtlAppend max dest src = dest ++ src := by
  simp [RtlAppend, h]

theorem buffer_units_length (b : Int → WChar) (n : Nat) : (buffer_units b n).length = n := by
  simp [buffer_units]

/-- The name built by `move_to_recycle_bin` when every piece fits the 512 units of
`renamepath`. -/
theorem recycle_name_fit (R : Recycler) (pathname : Int → WChar) (IndexNumber : Nat)
    (hfit : 29 + R.sid.length + (R.hex64 IndexNumber).length +
      (R.hex32 (R.hash (RtlInitUnicodeString pathname))).length ≤ 512) :
    recycle_name R pathname IndexNumber =
      buffer_units pathname 7 ++ wide "$Recycle.Bin\\" ++ R.sid ++ wide "\\" ++
        wide ".flinux" ++ R.hex64 IndexNumber ++ wide "_" ++
        R.hex32 (R.hash (RtlInitUnicodeString pathname)) := by
  have e0 : (buffer_units pathname 7).length = 7 := buffer_units_length _ _
  have e1 : (wide "$Recycle.Bin\\").length = 13 := by decide
  have e2 : (wide "\\").length = 1 := by decide
  have e3 : (wide ".flinux").length = 7 := by decide
  have e4 : (wide "_").length = 1 := by decide
  have s0 : RtlAppend 512 [] (buffer_units pathname 7) = buffer_units pathname 7 := by
    rw [RtlAppend_fit 512 [] _ (by simp only [List.length_nil]; omega), List.nil_append]
  have s1 : RtlAppend 512 (buffer_units pathname 7) (wide "$Recycle.Bin\\") =
      buffer_units pathname 7 ++ wide "$Recycle.Bin\\" := RtlAppend_fit 512 _ _ (by omega)
  have s2 : RtlAppend 512 [] (buffer_units pathname 7 ++ wide "$Recycle.Bin\\") =
      buffer_units pathname 7 ++ wide "$Recycle.Bin\\" := by
    rw [RtlAppend_fit 512 [] _ (by simp only [List.length_nil, List.length_append]; omega),
      List.nil_append]
  have s3 : RtlAppend 512 (buffer_units pathname 7 ++ wide "$Recycle.Bin\\") R.sid =
      buffer_units pathname 7 ++ wide "$Recycle.Bin\\" ++ R.sid :=
    RtlAppend_fit 512 _ _ (by simp only [List.length_append]; omega)
  have s4 : RtlAppend 512 (buffer_units pathname 7 ++ wide "$Recycle.Bin\\" ++ R.sid)
      (wide "\\") =
      buffer_units pathname 7 ++ wide "$Recycle.Bin\\" ++ R.sid ++ wide "\\" :=
    RtlAppend_fit 512 _ _ (by simp only [List.length_append]; omega)
  have s5 : RtlAppend 512
      (buffer_units pathname 7 ++ wide "$Recycle.Bin\\" ++ R.sid ++ wide "\\")
      (wide ".flinux") =
      buffer_units pathname 7 ++ wide "$Recycle.Bin\\" ++ R.sid ++ wide "\\" ++
        wide ".flinux" :=
    RtlAppend_fit 512 _ _ (by simp only [List.length_append]; omega)
  have s6 : RtlAppend 512
      (buffer_units pathname 7 ++ wide "$Recycle.Bin\\" ++ R.sid ++ wide "\\" ++
        wide ".flinux")
      (R.hex64 IndexNumber) =
      buffer_units pathname 7 ++ wide "$Recycle.Bin\\" ++ R.sid ++ wide "\\" ++
        wide ".flinux" ++ R.hex64 IndexNumber :=
    RtlAppend_fit 512 _ _ (by simp only [List.length_append]; omega)
  have s7 : RtlAppend 512
      (buffer_units pathname 7 ++ wide "$Recycle.Bin\\" ++ R.sid ++ wide "\\" ++
        wide ".flinux" ++ R.hex64 IndexNumber) (wide "_") =
      buffer_units pathname 7 ++ wide "$Recycle.Bin\\" ++ R.sid ++ wide "\\" ++
        wide ".flinux" ++ R.hex64 IndexNumber ++ wide "_" :=
    RtlAppend_fit 512 _ _ (by simp only [List.length_append]; omega)
  have s8 : RtlAppend 512
      (buffer_units pathname 7 ++ wide "$Recycle.Bin\\" ++ R.sid ++ wide "\\" ++
        wide ".flinux" ++ R.hex64 IndexNumber ++ wide "_")
      (R.hex32 (R.hash (RtlInitUnicodeString pathname))) =
      buffer_units pathname 7 ++ wide "$Recycle.Bin\\" ++ R.sid ++ wide "\\" ++
        wide ".flinux" ++ R.hex64 IndexNumber ++ wide "_" ++
        R.hex32 (R.hash (RtlInitUnicodeString pathname)) :=
    RtlAppend_fit 512 _ _ (by simp only [List.length_append]; omega)
  unfold recycle_name
  simp only []
  rw [s0, s1, s2, s3, s4, s5, s6, s7, s8]

theorem recycle_name_fit_length (R : Recycler) (pathname : Int → WChar) (IndexNumber : Nat)
    (hfit : 29 + R.sid.length + (R.hex64 IndexNumber).length +
      (R.hex32 (R.hash (RtlInitUnicodeString pathname))).length ≤ 512) :
    (recycle_name R pathname IndexNumber).length =
      29 + R.sid.length + (R.hex64 IndexNumber).length +
        (R.hex32 (R.hash (RtlInitUnicodeString pathname))).length := by
  have e0 : (buffer_units pathname 7).length = 7 := buffer_units_length _ _
  have e1 : (wide "$Recycle.Bin\\").length = 13 := by decide
  have e2 : (wide "\\").length = 1 := by decide
  have e3 : (wide ".flinux").length = 7 := by decide
  have e4 : (wide "_").length = 1 := by decide
  rw [recycle_name_fit R pathname IndexNumber hfit]
  simp only [List.length_append]
  omega

theorem RtlAppend_length_le (max : Nat) (dest src : List WChar) :
    (RtlAppend max dest src).length ≤ dest.length + src.length := by
  unfold RtlAppend
  split_ifs
  · simp
  · omega

/-- The name built by `move_to_recycle_bin` is never longer than its pieces together. -/
theorem recycle_name_length_le (R : Recycler) (pathname : Int → WChar) (IndexNumber : Nat) :
    (recycle_name R pathname IndexNumber).length ≤
      29 + R.sid.length + (R.hex64 IndexNumber).length +
        (R.hex32 (R.hash (RtlInitUnicodeString pathname))).length := by
  have e0 : (buffer_units pathname 7).length = 7 := buffer_units_length _ _
  have e1 : (wide "$Recycle.Bin\\").length = 13 := by decide
  have e2 : (wide "\\").length = 1 := by decide
  have e3 : (wide ".flinux").length = 7 := by decide
  have e4 : (wide "_").length = 1 := by decide
  unfold recycle_name
  simp only []
  have a0 := RtlAppend_length_le 512 [] (buffer_units pathname 7)
  have a1 := RtlAppend_length_le 512 (RtlAppend 512 [] (buffer_units pathname 7))
    (wide "$Recycle.Bin\\")
  have a2 := RtlAppend_length_le 512 []
    (RtlAppend 512 (RtlAppend 512 [] (buffer_units pathname 7)) (wide "$Recycle.Bin\\"))
  have a3 := RtlAppend_length_le 512 (RtlAppend 512 []
    (RtlAppend 512 (RtlAppend 512 [] (buffer_units pathname 7)) (wide "$Recycle.Bin\\"))) R.sid
  have a4 := RtlAppend_length_le 512 (RtlAppend 512 (RtlAppend 512 []
    (RtlAppend 512 (RtlAppend 512 [] (buffer_units pathname 7)) (wide "$Recycle.Bin\\"))) R.sid)
    (wide "\\")
  have a5 := RtlAppend_length_le 512 (RtlAppend 512 (RtlAppend 512 (RtlAppend 512 []
    (RtlAppend 512 (RtlAppend 512 [] (buffer_units pathname 7)) (wide "$Recycle.Bin\\"))) R.sid)
    (wide "\\")) (wide ".flinux")
  have a6 := RtlAppend_length_le 512 (RtlAppend 512 (RtlAppend 512 (RtlAppend 512
    (RtlAppend 512 []
    (RtlAppend 512 (RtlAppend 512 [] (buffer_units pathname 7)) (wide "$Recycle.Bin\\"))) R.sid)
    (wide "\\")) (wide ".flinux")) (R.hex64 IndexNumber)
  have a7 := RtlAppend_length_le 512 (RtlAppend 512 (RtlAppend 512 (RtlAppend 512
    (RtlAppend 512 (RtlAppend 512 []
    (RtlAppend 512 (RtlAppend 512 [] (buffer_units pathname 7)) (wide "$Recycle.Bin\\"))) R.sid)
    (wide "\\")) (wide ".flinux")) (R.hex64 IndexNumber)) (wide "_")
  have a8 := RtlAppend_length_le 512 (RtlAppend 512 (RtlAppend 512 (RtlAppend 512
    (RtlAppend 512 (RtlAppend 512 (RtlAppend 512 []
    (RtlAppend 512 (RtlAppend 512 [] (buffer_units pathname 7)) (wide "$Recycle.Bin\\"))) R.sid)
    (wide "\\")) (wide ".flinux")) (R.hex64 IndexNumber)) (wide "_"))
    (R.hex32 (R.hash (RtlInitUnicodeString pathname)))
  simp only [List.length_nil] at a0 a2
  omega

/-- The outcomes of `winfs_unlink` for a path that translates, by the answers of the
host; `name` is what the buffer holds over the length of the translation and `park` the
name built by `move_to_recycle_bin`. -/
theorem winfs_unlink_cases
    (conv : List Byte → Nat → Int → Int × List WChar) (cwd : List WChar) (R : Recycler)
    (host : UnlinkHost) (pathname : List Byte) (name park : List WChar)
    (hname : name = buffer_units
      (buffer_after R.wpathname (filename_to_nt_pathname conv cwd pathname PATH_MAX).stores)
      ((((filename_to_nt_pathname conv cwd pathname PATH_MAX).ret * 2) % 2 ^ 16).toNat / 2))
    (hpark : park = recycle_name R
      (buffer_after R.wpathname (filename_to_nt_pathname conv cwd pathname PATH_MAX).stores)
      host.IndexNumber)
    (h : 0 < (filename_to_nt_pathname conv cwd pathname PATH_MAX).ret) :
    (NT_SUCCESS host.open_status = true →
      NT_SUCCESS host.disposition_status = true →
      winfs_unlink conv cwd R host pathname =
        some ⟨0, [.NtOpenFile name DELETE FILE_SHARE_DELETE
            (FILE_NON_DIRECTORY_FILE ||| FILE_OPEN_FOR_BACKUP_INTENT),
          .FileDispositionInformation .first, .NtClose .first]⟩) ∧
    (NT_SUCCESS host.open_status = true →
      NT_SUCCESS host.disposition_status = false →
      winfs_unlink conv cwd R host pathname =
        some ⟨- EBUSY, [.NtOpenFile name DELETE FILE_SHARE_DELETE
            (FILE_NON_DIRECTORY_FILE ||| FILE_OPEN_FOR_BACKUP_INTENT),
          .FileDispositionInformation .first]⟩) ∧
    (NT_SUCCESS host.open_status = false →
      host.open_status ≠ STATUS_SHARING_VIOLATION →
      winfs_unlink conv cwd R host pathname =
        some ⟨- ENOENT, [.NtOpenFile name DELETE FILE_SHARE_DELETE
          (FILE_NON_DIRECTORY_FILE ||| FILE_OPEN_FOR_BACKUP_INTENT)]⟩) ∧
    (host.open_status = STATUS_SHARING_VIOLATION →
      NT_SUCCESS host.reopen_status = false →
      winfs_unlink conv cwd R host pathname =
        some ⟨- EBUSY, [.NtOpenFile name DELETE FILE_SHARE_DELETE
            (FILE_NON_DIRECTORY_FILE ||| FILE_OPEN_FOR_BACKUP_INTENT),
          .NtOpenFile name DELETE (FILE_SHARE_READ ||| FILE_SHARE_WRITE ||| FILE_SHARE_DELETE)
            (FILE_NON_DIRECTORY_FILE ||| FILE_OPEN_FOR_BACKUP_INTENT)]⟩) ∧
    (host.open_status = STATUS_SHARING_VIOLATION →
      NT_SUCCESS host.reopen_status = true →
      NT_SUCCESS host.internal_status = false →
      winfs_unlink conv cwd R host pathname =
        some ⟨- EBUSY, [.NtOpenFile name DELETE FILE_SHARE_DELETE
            (FILE_NON_DIRECTORY_FILE ||| FILE_OPEN_FOR_BACKUP_INTENT),
          .NtOpenFile name DELETE (FILE_SHARE_READ ||| FILE_SHARE_WRITE ||| FILE_SHARE_DELETE)
            (FILE_NON_DIRECTORY_FILE ||| FILE_OPEN_FOR_BACKUP_INTENT),
          .FileInternalInformation .second]⟩) ∧
    (host.open_status = STATUS_SHARING_VIOLATION →
      NT_SUCCESS host.reopen_status = true →
      NT_SUCCESS host.internal_status = true →
      512 < R.FileName_offset + 2 * park.length →
      winfs_unlink conv cwd R host pathname = none) ∧
    (host.open_status = STATUS_SHARING_VIOLATION →
      NT_SUCCESS host.reopen_status = true →
      NT_SUCCESS host.internal_status = true →
      R.FileName_offset + 2 * park.length ≤ 512 →
      NT_SUCCESS host.rename_status = false →
      winfs_unlink conv cwd R host pathname =
        some ⟨- EBUSY, [.NtOpenFile name DELETE FILE_SHARE_DELETE
            (FILE_NON_DIRECTORY_FILE ||| FILE_OPEN_FOR_BACKUP_INTENT),
          .NtOpenFile name DELETE (FILE_SHARE_READ ||| FILE_SHARE_WRITE ||| FILE_SHARE_DELETE)
            (FILE_NON_DIRECTORY_FILE ||| FILE_OPEN_FOR_BACKUP_INTENT),
          .FileInternalInformation .second,
          .FileRenameInformation .second park false]⟩) ∧
    (host.open_status = STATUS_SHARING_VIOLATION →
      NT_SUCCESS host.reopen_status = true →
      NT_SUCCESS host.internal_status = true →
      R.FileName_offset + 2 * park.length ≤ 512 →
      NT_SUCCESS host.rename_status = true →
      NT_SUCCESS host.disposition_status = false →
      winfs_unlink conv cwd R host pathname =
        some ⟨- EBUSY, [.NtOpenFile name DELETE FILE_SHARE_DELETE
            (FILE_NON_DIRECTORY_FILE ||| FILE_OPEN_FOR_BACKUP_INTENT),
          .NtOpenFile name DELETE (FILE_SHARE_READ ||| FILE_SHARE_WRITE ||| FILE_SHARE_DELETE)
            (FILE_NON_DIRECTORY_FILE ||| FILE_OPEN_FOR_BACKUP_INTENT),
          .FileInternalInformation .second,
          .FileRenameInformation .second park false,
          .FileDispositionInformation .second]⟩) ∧
    (host.open_status = STATUS_SHARING_VIOLATION →
      NT_SUCCESS host.reopen_status = true →
      NT_SUCCESS host.internal_status = true →
      R.FileName_offset + 2 * park.length ≤ 512 →
      NT_SUCCESS host.rename_status = true →
      NT_SUCCESS host.disposition_status = true →
      winfs_unlink conv cwd R host pathname =
        some ⟨0, [.NtOpenFile name DELETE FILE_SHARE_DELETE
            (FILE_NON_DIRECTORY_FILE ||| FILE_OPEN_FOR_BACKUP_INTENT),
          .NtOpenFile name DELETE (FILE_SHARE_READ ||| FILE_SHARE_WRITE ||| FILE_SHARE_DELETE)
            (FILE_NON_DIRECTORY_FILE ||| FILE_OPEN_FOR_BACKUP_INTENT),
          .FileInternalInformation .second,
          .FileRenameInformation .second park false,
          .FileDispositionInformation .second, .NtClose .second]⟩) := by
  have hn : ¬ (filename_to_nt_pathname conv cwd pathname PATH_MAX).ret ≤ 0 := by omega
  subst hname hpark
  refine ⟨?_, ?_, ?_, ?_, ?_, ?_, ?_, ?_, ?_⟩
  · intro h1 h2
    simp [winfs_unlink, hn, h1, h2, unlink_set_disposition]
  · intro h1 h2
    simp [winfs_unlink, hn, h1, h2, unlink_set_disposition]
  · intro h1 h2
    simp [winfs_unlink, hn, h1, h2]
  · intro h1 h2
    simp [winfs_unlink, hn, h1, h2, sharing_violation_fails]
  · intro h1 h2 h3
    simp [winfs_unlink, hn, h1, h2, h3, sharing_violation_fails, move_to_recycle_bin]
  · intro h1 h2 h3 h4
    simp [winfs_unlink, hn, h1, h2, h3, h4, sharing_violation_fails, move_to_recycle_bin]
  · intro h1 h2 h3 h4 h5
    have h4n : ¬ (512 < R.FileName_offset + 2 * (recycle_name R
        (buffer_after R.wpathname (filename_to_nt_pathname conv cwd pathname PATH_MAX).stores)
        host.IndexNumber).length) := by omega
    simp [winfs_unlink, hn, h1, h2, h3, h4n, h5, sharing_violation_fails, move_to_recycle_bin]
  · intro h1 h2 h3 h4 h5 h6
    have h4n : ¬ (512 < R.FileName_offset + 2 * (recycle_name R
        (buffer_after R.wpathname (filename_to_nt_pathname conv cwd pathname PATH_MAX).stores)
        host.IndexNumber).length) := by omega
    simp [winfs_unlink, hn, h1, h2, h3, h4n, h5, h6, sharing_violation_fails,
      move_to_recycle_bin, unlink_set_disposition]
    decide
  · intro h1 h2 h3 h4 h5 h6
    have h4n : ¬ (512 < R.FileName_offset + 2 * (recycle_name R
        (buffer_after R.wpathname (filename_to_nt_pathname conv cwd pathname PATH_MAX).stores)
        host.IndexNumber).length) := by omega
    simp [winfs_unlink, hn, h1, h2, h3, h4n, h5, h6, sharing_violation_fails,
      move_to_recycle_bin, unlink_set_disposition]
    decide

/-- The names in the host calls of `winfs_unlink` after a successful translation: the
file opened is the translated path `P`, and the name built for the rename, when it fits
`renamepath`, is the first 7 units of `P`, `$Recycle.Bin\`, the SID string, `\`,
`.flinux`, the digits of the file id, `_` and the digits of the hash of `P` followed by
`g`, the units that the buffer held after the path, up to the first NUL. -/
theorem unlink_names (conv : List Byte → Nat → Int → Int × List WChar)
    (cwd w : List WChar) (filename : List Byte) (R : Recycler) (IndexNumber : Nat)
    (P g : List WChar)
    (hfile : filename.headD 0 ≠ 0)
    (hconv : conv filename (strlen filename) (4091 - (cwd.length : Int)) =
      ((w.length : Int), w))
    (hw : w ≠ []) (hcwd : cwd ≠ [])
    (hlen : 4 + cwd.length + 1 + w.length ≤ 4096)
    (hcwd0 : ∀ u ∈ cwd, u ≠ 0) (hw0 : ∀ u ∈ w, u ≠ 0)
    (hP : P = [0x5C, 0x3F, 0x3F, 0x5C] ++ cwd ++ [0x5C] ++ w)
    (hg : g = wide_string_at R.wpathname (32766 - P.length) P.length) :
    0 < (filename_to_nt_pathname conv cwd filename PATH_MAX).ret ∧
    buffer_units
        (buffer_after R.wpathname (filename_to_nt_pathname conv cwd filename PATH_MAX).stores)
        ((((filename_to_nt_pathname conv cwd filename PATH_MAX).ret * 2) % 2 ^ 16).toNat / 2) =
      P ∧
    (29 + R.sid.length + (R.hex64 IndexNumber).length +
        (R.hex32 (R.hash (P ++ g))).length ≤ 512 →
      recycle_name R
          (buffer_after R.wpathname (filename_to_nt_pathname conv cwd filename PATH_MAX).stores)
          IndexNumber =
        P.take 7 ++ wide "$Recycle.Bin\\" ++ R.sid ++ wide "\\" ++ wide ".flinux" ++
          R.hex64 IndexNumber ++ wide "_" ++ R.hex32 (R.hash (P ++ g))) := by
  obtain ⟨hret, h7, h4096, hunits, hroot, hstr⟩ :=
    translated_path_facts conv cwd w filename R.wpathname P hfile hconv hw hcwd hlen hcwd0 hw0 hP
  have hn : (((P.length : Int) * 2) % 2 ^ 16).toNat / 2 = P.length := by omega
  refine ⟨by rw [hret]; omega, by rw [hret, hn]; exact hunits, ?_⟩
  intro hfit
  rw [← hg] at hstr
  rw [recycle_name_fit R _ IndexNumber (by rw [hstr]; exact hfit), hroot, hstr]

/-- C14: `winfs_unlink` on the answers of the host.  A path that does not translate
gives `-ENOENT` without any host call.  For a path that translates, it first opens the
file `name` for `DELETE` with `FILE_SHARE_DELETE` alone.  If that succeeds it requests
the delete disposition on that handle, with no rename.  If it fails with another status
than a sharing violation the result is `-ENOENT` and nothing else is called.  On a
sharing violation it opens `name` again with read, write and delete sharing, asks for
the file id and renames the file to `park` (without replacing), and requests the delete
disposition only after the rename succeeded.  The result is 0 exactly on the two paths
where the disposition request succeeded, and `-EBUSY` when the second open, the file id
query or the rename of the parking step, or the disposition request fails.  When `park`
does not fit the 512 bytes in which the rename request is staged, the copy runs past
them and there is no defined result.  After a successful translation `name` is the
translated path `P` (`\??\`, current directory, `\`, converted name), and `park`, when it
fits `renamepath`, is the first 7 units of `P`, `$Recycle.Bin\`, the SID string, `\`,
`.flinux`, the digits of the file id, `_`, and the digits of the hash of `P` followed by
the units `g` that the buffer held after the path, up to the first NUL.  The staged
request has room for `park` whenever the SID string has at most 184 units, the file id
at most 16 digits, the hash at most 8 digits, and `FileName` lies at most 20 bytes into
`FILE_RENAME_INFORMATION`. -/
theorem unlink_sequence
    (conv : List Byte → Nat → Int → Int × List WChar) (cwd : List WChar) (R : Recycler)
    (host : UnlinkHost) (pathname : List Byte) (name park : List WChar)
    (hname : name = buffer_units
      (buffer_after R.wpathname (filename_to_nt_pathname conv cwd pathname PATH_MAX).stores)
      ((((filename_to_nt_pathname conv cwd pathname PATH_MAX).ret * 2) % 2 ^ 16).toNat / 2))
    (hpark : park = recycle_name R
      (buffer_after R.wpathname (filename_to_nt_pathname conv cwd pathname PATH_MAX).stores)
      host.IndexNumber) :
    ((filename_to_nt_pathname conv cwd pathname PATH_MAX).ret ≤ 0 →
      winfs_unlink conv cwd R host pathname = some ⟨- ENOENT, []⟩) ∧
    (0 < (filename_to_nt_pathname conv cwd pathname PATH_MAX).ret →
      (NT_SUCCESS host.open_status = true →
        NT_SUCCESS host.disposition_status = true →
        winfs_unlink conv cwd R host pathname =
          some ⟨0, [.NtOpenFile name DELETE FILE_SHARE_DELETE
              (FILE_NON_DIRECTORY_FILE ||| FILE_OPEN_FOR_BACKUP_INTENT),
            .FileDispositionInformation .first, .NtClose .first]⟩) ∧
      (NT_SUCCESS host.open_status = true →
        NT_SUCCESS host.disposition_status = false →
        winfs_unlink conv cwd R host pathname =
          some ⟨- EBUSY, [.NtOpenFile name DELETE FILE_SHARE_DELETE
              (FILE_NON_DIRECTORY_FILE ||| FILE_OPEN_FOR_BACKUP_INTENT),
            .FileDispositionInformation .first]⟩) ∧
      (NT_SUCCESS host.open_status = false →
        host.open_status ≠ STATUS_SHARING_VIOLATION →
        winfs_unlink conv cwd R host pathname =
          some ⟨- ENOENT, [.NtOpenFile name DELETE FILE_SHARE_DELETE
            (FILE_NON_DIRECTORY_FILE ||| FILE_OPEN_FOR_BACKUP_INTENT)]⟩) ∧
      (host.open_status = STATUS_SHARING_VIOLATION →
        NT_SUCCESS host.reopen_status = false →
        winfs_unlink conv cwd R host pathname =
          some ⟨- EBUSY, [.NtOpenFile name DELETE FILE_SHARE_DELETE
              (FILE_NON_DIRECTORY_FILE ||| FILE_OPEN_FOR_BACKUP_INTENT),
            .NtOpenFile name DELETE (FILE_SHARE_READ ||| FILE_SHARE_WRITE ||| FILE_SHARE_DELETE)
              (FILE_NON_DIRECTORY_FILE ||| FILE_OPEN_FOR_BACKUP_INTENT)]⟩) ∧
      (host.open_status = STATUS_SHARING_VIOLATION →
        NT_SUCCESS host.reopen_status = true →
        NT_SUCCESS host.internal_status = false →
        winfs_unlink conv cwd R host pathname =
          some ⟨- EBUSY, [.NtOpenFile name DELETE FILE_SHARE_DELETE
              (FILE_NON_DIRECTORY_FILE ||| FILE_OPEN_FOR_BACKUP_INTENT),
            .NtOpenFile name DELETE (FILE_SHARE_READ ||| FILE_SHARE_WRITE ||| FILE_SHARE_DELETE)
              (FILE_NON_DIRECTORY_FILE ||| FILE_OPEN_FOR_BACKUP_INTENT),
            .FileInternalInformation .second]⟩) ∧
      (host.open_status = STATUS_SHARING_VIOLATION →
        NT_SUCCESS host.reopen_status = true →
        NT_SUCCESS host.internal_status = true →
        512 < R.FileName_offset + 2 * park.length →
        winfs_unlink conv cwd R host pathname = none) ∧
      (host.open_status = STATUS_SHARING_VIOLATION →
        NT_SUCCESS host.reopen_status = true →
        NT_SUCCESS host.internal_status = true →
        R.FileName_offset + 2 * park.length ≤ 512 →
        NT_SUCCESS host.rename_status = false →
        winfs_unlink conv cwd R host pathname =
          some ⟨- EBUSY, [.NtOpenFile name DELETE FILE_SHARE_DELETE
              (FILE_NON_DIRECTORY_FILE ||| FILE_OPEN_FOR_BACKUP_INTENT),
            .NtOpenFile name DELETE (FILE_SHARE_READ ||| FILE_SHARE_WRITE ||| FILE_SHARE_DELETE)
              (FILE_NON_DIRECTORY_FILE ||| FILE_OPEN_FOR_BACKUP_INTENT),
            .FileInternalInformation .second,
            .FileRenameInformation .second park false]⟩) ∧
      (host.open_status = STATUS_SHARING_VIOLATION →
        NT_SUCCESS host.reopen_status = true →
        NT_SUCCESS host.internal_status = true →
        R.FileName_offset + 2 * park.length ≤ 512 →
        NT_SUCCESS host.rename_status = true →
        NT_SUCCESS host.disposition_status = false →
        winfs_unlink conv cwd R host pathname =
          some ⟨- EBUSY, [.NtOpenFile name DELETE FILE_SHARE_DELETE
              (FILE_NON_DIRECTORY_FILE ||| FILE_OPEN_FOR_BACKUP_INTENT),
            .NtOpenFile name DELETE (FILE_SHARE_READ ||| FILE_SHARE_WRITE ||| FILE_SHARE_DELETE)
              (FILE_NON_DIRECTORY_FILE ||| FILE_OPEN_FOR_BACKUP_INTENT),
            .FileInternalInformation .second,
            .FileRenameInformation .second park false,
            .FileDispositionInformation .second]⟩) ∧
      (host.open_status = STATUS_SHARING_VIOLATION →
        NT_SUCCESS host.reopen_status = true →
        NT_SUCCESS host.internal_status = true →
        R.FileName_offset + 2 * park.length ≤ 512 →
        NT_SUCCESS host.rename_status = true →
        NT_SUCCESS host.disposition_status = true →
        winfs_unlink conv cwd R host pathname =
          some ⟨0, [.NtOpenFile name DELETE FILE_SHARE_DELETE
              (FILE_NON_DIRECTORY_FILE ||| FILE_OPEN_FOR_BACKUP_INTENT),
            .NtOpenFile name DELETE (FILE_SHARE_READ ||| FILE_SHARE_WRITE ||| FILE_SHARE_DELETE)
              (FILE_NON_DIRECTORY_FILE ||| FILE_OPEN_FOR_BACKUP_INTENT),
            .FileInternalInformation .second,
            .FileRenameInformation .second park false,
            .FileDispositionInformation .second, .NtClose .second]⟩)) ∧
    (∀ (w P g : List WChar), pathname.headD 0 ≠ 0 →
      conv pathname (strlen pathname) (4091 - (cwd.length : Int)) = ((w.length : Int), w) →
      w ≠ [] → cwd ≠ [] → 4 + cwd.length + 1 + w.length ≤ 4096 →
      (∀ u ∈ cwd, u ≠ 0) → (∀ u ∈ w, u ≠ 0) →
      P = [0x5C, 0x3F, 0x3F, 0x5C] ++ cwd ++ [0x5C] ++ w →
      g = wide_string_at R.wpathname (32766 - P.length) P.length →
      0 < (filename_to_nt_pathname conv cwd pathname PATH_MAX).ret ∧ name = P ∧
      (29 + R.sid.length + (R.hex64 host.IndexNumber).length +
          (R.hex32 (R.hash (P ++ g))).length ≤ 512 →
        park =
          P.take 7 ++ wide "$Recycle.Bin\\" ++ R.sid ++ wide "\\" ++ wide ".flinux" ++
            R.hex64 host.IndexNumber ++ wide "_" ++ R.hex32 (R.hash (P ++ g)))) ∧
    (R.sid.length ≤ 184 → (R.hex64 host.IndexNumber).length ≤ 16 →
      (∀ s, (R.hex32 (R.hash s)).length ≤ 8) → R.FileName_offset ≤ 20 →
      R.FileName_offset + 2 * park.length ≤ 512) := by
  refine ⟨?_, ?_, ?_, ?_⟩
  rotate_left 3
  · intro h1 h2 h3 h4
    have hl := recycle_name_length_le R
      (buffer_after R.wpathname (filename_to_nt_pathname conv cwd pathname PATH_MAX).stores)
      host.IndexNumber
    have h3s := h3 (RtlInitUnicodeString
      (buffer_after R.wpathname (filename_to_nt_pathname conv cwd pathname PATH_MAX).stores))
    rw [hpark]
    omega
  · intro h
    simp [winfs_unlink, h]
  · intro h
    exact winfs_unlink_cases conv cwd R host pathname name park hname hpark h
  · intro w P g hfile hconv hw hcwd hlen hcwd0 hw0 hP hg
    rw [hname, hpark]
    exact unlink_names conv cwd w pathname R host.IndexNumber P g hfile hconv hw hcwd hlen
      hcwd0 hw0 hP hg

theorem sample_hash_l :
    sampleRecycler.hash [0x5C, 0x3F, 0x3F, 0x5C, 0x43, 0x3A, 0x5C, 0x78, 0x5C, 0x6C] = 0x34f := by
  decide

theorem hex_digits_samples :
    hex_digits 0x2A = [0x32, 0x61] ∧ hex_digits 0x2B = [0x32, 0x62] ∧
      hex_digits 0x34f = [0x33, 0x34, 0x66] ∧ hex_digits 0x3d1 = [0x33, 0x64, 0x31] := by
  refine ⟨?_, ?_, ?_, ?_⟩ <;> norm_num [hex_digits, hex_digit]

/-- Witness of C14: the file `l` in `C:\x` while it is open elsewhere, with a zeroed
buffer: both opens are on `\??\C:\x\l`, the file id 0x2A is asked for, the file is renamed
to `\??\C:\$Recycle.Bin\S-1-5-18\.flinux2a_34f`, then come the disposition request and the
close. -/
theorem unlink_sequence_witness :
    winfs_unlink ascii_to_utf16 [0x43, 0x3A, 0x5C, 0x78] sampleRecycler busyUnlinkHost [0x6C] =
      some ⟨0,
        [.NtOpenFile [0x5C, 0x3F, 0x3F, 0x5C, 0x43, 0x3A, 0x5C, 0x78, 0x5C, 0x6C] 0x10000 4 0x4040,
          .NtOpenFile [0x5C, 0x3F, 0x3F, 0x5C, 0x43, 0x3A, 0x5C, 0x78, 0x5C, 0x6C] 0x10000 7 0x4040,
          .FileInternalInformation .second,
          .FileRenameInformation .second
            [0x5C, 0x3F, 0x3F, 0x5C, 0x43, 0x3A, 0x5C, 0x24, 0x52, 0x65, 0x63, 0x79, 0x63,
             0x6C, 0x65, 0x2E, 0x42, 0x69, 0x6E, 0x5C, 0x53, 0x2D, 0x31, 0x2D, 0x35, 0x2D,
             0x31, 0x38, 0x5C, 0x2E, 0x66, 0x6C, 0x69, 0x6E, 0x75, 0x78, 0x32, 0x61, 0x5F,
             0x33, 0x34, 0x66]
            false,
          .FileDispositionInformation .second, .NtClose .second]⟩ := by
  have h := unlink_sequence ascii_to_utf16 [0x43, 0x3A, 0x5C, 0x78] sampleRecycler
    busyUnlinkHost [0x6C] _ _ rfl rfl
  obtain ⟨d1, _, d3, _⟩ := hex_digits_samples
  have hfit : 29 + sampleRecycler.sid.length + (sampleRecycler.hex64 busyUnlinkHost.IndexNumber).length +
      (sampleRecycler.hex32 (sampleRecycler.hash
        ([0x5C, 0x3F, 0x3F, 0x5C, 0x43, 0x3A, 0x5C, 0x78, 0x5C, 0x6C] ++ []))).length ≤ 512 := by
    rw [List.append_nil, sample_hash_l]
    show _ + _ + (hex_digits 0x2A).length + (hex_digits 0x34f).length ≤ 512
    rw [d1, d3]
    decide
  obtain ⟨hpos, hn, hp⟩ := h.2.2.1 [0x6C] [0x5C, 0x3F, 0x3F, 0x5C, 0x43, 0x3A, 0x5C, 0x78, 0x5C, 0x6C] []
    (by decide) (by decide) (by decide) (by decide) (by decide) (by decide) (by decide) rfl
    (by decide)
  have hp2 := hp hfit
  rw [List.append_nil, sample_hash_l] at hp2
  have hpark : recycle_name sampleRecycler
      (buffer_after sampleRecycler.wpathname
        (filename_to_nt_pathname ascii_to_utf16 [0x43, 0x3A, 0x5C, 0x78] [0x6C] PATH_MAX).stores)
      busyUnlinkHost.IndexNumber =
            [0x5C, 0x3F, 0x3F, 0x5C, 0x43, 0x3A, 0x5C, 0x24, 0x52, 0x65, 0x63, 0x79, 0x63,
             0x6C, 0x65, 0x2E, 0x42, 0x69, 0x6E, 0x5C, 0x53, 0x2D, 0x31, 0x2D, 0x35, 0x2D,
             0x31, 0x38, 0x5C, 0x2E, 0x66, 0x6C, 0x69, 0x6E, 0x75, 0x78, 0x32, 0x61, 0x5F,
             0x33, 0x34, 0x66] := by
    rw [hp2]
    show _ ++ hex_digits 0x2A ++ _ ++ hex_digits 0x34f = _
    rw [d1, d3]
    decide
  have hcase := (h.2.1 hpos).2.2.2.2.2.2.2.2 rfl (by decide) (by decide)
    (by rw [hpark]; decide) (by decide) (by decide)
  rw [hcase, hn, hpark]
  decide

theorem rename_requests_append (a b : List HostCall) :
    rename_requests (a ++ b) = rename_requests a + rename_requests b := by
  simp [rename_requests]

theorem rename_requests_request (calls : List HostCall) (h : FsHandle) (n : List WChar) :
    rename_requests (calls ++ [HostCall.FileRenameInformation h n true]) =
      rename_requests calls + 1 := by
  simp [rename_requests]

theorem rename_requests_unlink
    (conv : List Byte → Nat → Int → Int × List WChar) (cwd : List WChar) (R : Recycler)
    (host : UnlinkHost) (pathname : List Byte) (u : Unlinked)
    (hu : winfs_unlink conv cwd R host pathname = some u) :
    rename_requests u.calls = 0 := by
  by_cases h : (filename_to_nt_pathname conv cwd pathname PATH_MAX).ret ≤ 0
  · have : winfs_unlink conv cwd R host pathname = some ⟨- ENOENT, []⟩ := by
      simp [winfs_unlink, h]
    rw [this] at hu
    simp only [Option.some.injEq] at hu
    subst hu
    rfl
  · obtain ⟨c1, c2, c3, c4, c5, c6, c7, c8, c9⟩ :=
      winfs_unlink_cases conv cwd R host pathname _ _ rfl rfl (by omega)
    have hsv : NT_SUCCESS STATUS_SHARING_VIOLATION = false := by decide
    cases h1 : NT_SUCCESS host.open_status with
    | true =>
      cases h2 : NT_SUCCESS host.disposition_status with
      | true => rw [c1 h1 h2] at hu; simp only [Option.some.injEq] at hu; subst hu; rfl
      | false => rw [c2 h1 h2] at hu; simp only [Option.some.injEq] at hu; subst hu; rfl
    | false =>
      by_cases h2 : host.open_status = STATUS_SHARING_VIOLATION
      · cases h3 : NT_SUCCESS host.reopen_status with
        | false => rw [c4 h2 h3] at hu; simp only [Option.some.injEq] at hu; subst hu; rfl
        | true =>
          cases h4 : NT_SUCCESS host.internal_status with
          | false => rw [c5 h2 h3 h4] at hu; simp only [Option.some.injEq] at hu; subst hu; rfl
          | true =>
            by_cases h5 : 512 < R.FileName_offset + 2 * (recycle_name R
                (buffer_after R.wpathname
                  (filename_to_nt_pathname conv cwd pathname PATH_MAX).stores)
                host.IndexNumber).length
            · rw [c6 h2 h3 h4 h5] at hu
              exact absurd hu (by simp)
            · cases h6 : NT_SUCCESS host.rename_status with
              | false =>
                rw [c7 h2 h3 h4 (by omega) h6] at hu
                simp only [Option.some.injEq] at hu; subst hu; rfl
              | true =>
                cases h7 : NT_SUCCESS host.disposition_status with
                | false =>
                  rw [c8 h2 h3 h4 (by omega) h6 h7] at hu
                  simp only [Option.some.injEq] at hu; subst hu; rfl
                | true =>
                  rw [c9 h2 h3 h4 (by omega) h6 h7] at hu
                  simp only [Option.some.injEq] at hu; subst hu; rfl
      · rw [c3 h1 h2] at hu; simp only [Option.some.injEq] at hu; subst hu; rfl

theorem rename_requests_retry_le
    (conv : List Byte → Nat → Int → Int × List WChar) (cwd : List WChar) (R : Recycler)
    (buf : Int → WChar) (host : Nat → RenameHost) (newpath : List Byte) :
    ∀ (remaining round : Nat) (calls : List HostCall) (r : Unlinked),
      winfs_rename_retry conv cwd R buf host newpath remaining round calls = some r →
      rename_requests r.calls ≤ rename_requests calls + remaining := by
  intro remaining
  induction remaining with
  | zero =>
    intro round calls r hr
    simp only [winfs_rename_retry, Option.some.injEq] at hr
    subst hr
    simp
  | succ n ih =>
    intro round calls r hr
    unfold winfs_rename_retry at hr
    dsimp only at hr
    by_cases h1 : dword (2 * (filename_to_nt_pathname conv cwd newpath PATH_MAX).ret) = 0
    · rw [if_pos h1] at hr
      simp only [Option.some.injEq] at hr
      subst hr
      dsimp only; omega
    · rw [if_neg h1] at hr
      by_cases h2 : ¬ NT_SUCCESS (host round).rename_status = true
      · rw [if_pos h2] at hr
        by_cases h3 : (host round).rename_status = STATUS_ACCESS_DENIED
        · rw [if_pos h3] at hr
          cases hu : winfs_unlink conv cwd R (host round).unlink newpath with
          | none => rw [hu] at hr; exact absurd hr (by simp)
          | some u =>
            rw [hu] at hr
            dsimp only at hr
            have hz := rename_requests_unlink conv cwd R (host round).unlink newpath u hu
            by_cases h4 : u.ret ≠ 0
            · rw [if_pos h4] at hr
              simp only [Option.some.injEq] at hr
              subst hr
              dsimp only
              rw [rename_requests_append, rename_requests_request, hz]
              omega
            · rw [if_neg h4] at hr
              refine le_trans (ih _ _ r hr) ?_
              rw [rename_requests_append, rename_requests_request, hz]
              omega
        · rw [if_neg h3] at hr
          simp only [Option.some.injEq] at hr
          subst hr
          dsimp only
          rw [rename_requests_request]
          omega
      · rw [if_neg h2] at hr
        simp only [Option.some.injEq] at hr
        subst hr
        dsimp only
        rw [rename_requests_request]
        omega

theorem rename_retry_defined
    (conv : List Byte → Nat → Int → Int × List WChar) (cwd : List WChar) (R : Recycler)
    (buf : Int → WChar) (host : Nat → RenameHost) (newpath : List Byte)
    (hdef : ∀ i, winfs_unlink conv cwd R (host i).unlink newpath ≠ none) :
    ∀ (remaining round : Nat) (calls : List HostCall),
      ∃ r, winfs_rename_retry conv cwd R buf host newpath remaining round calls = some r := by
  intro remaining
  induction remaining with
  | zero => intro round calls; exact ⟨_, rfl⟩
  | succ n ih =>
    intro round calls
    unfold winfs_rename_retry
    dsimp only
    by_cases h1 : dword (2 * (filename_to_nt_pathname conv cwd newpath PATH_MAX).ret) = 0
    · rw [if_pos h1]; exact ⟨_, rfl⟩
    · rw [if_neg h1]
      by_cases h2 : ¬ NT_SUCCESS (host round).rename_status = true
      · rw [if_pos h2]
        by_cases h3 : (host round).rename_status = STATUS_ACCESS_DENIED
        · rw [if_pos h3]
          cases hu : winfs_unlink conv cwd R (host round).unlink newpath with
          | none => exact absurd hu (hdef round)
          | some u =>
            dsimp only
            by_cases h4 : u.ret ≠ 0
            · rw [if_pos h4]; exact ⟨_, rfl⟩
            · rw [if_neg h4]; exact ih _ _
        · rw [if_neg h3]; exact ⟨_, rfl⟩
      · rw [if_neg h2]; exact ⟨_, rfl⟩

/-- The first `k` rounds of `winfs_rename`, when each is refused with access denied and
each unlink of the destination returns 0 after the calls `U`. -/
theorem rename_retry_denied
    (conv : List Byte → Nat → Int → Int × List WChar) (cwd : List WChar) (R : Recycler)
    (buf : Int → WChar) (host : Nat → RenameHost) (newpath : List Byte) (U : Nat → List HostCall)
    (hname : dword (2 * (filename_to_nt_pathname conv cwd newpath PATH_MAX).ret) ≠ 0) :
    ∀ (k remaining round : Nat) (calls : List HostCall),
      (∀ i, i < k → (host (round + i)).rename_status = STATUS_ACCESS_DENIED ∧
        winfs_unlink conv cwd R (host (round + i)).unlink newpath = some ⟨0, U (round + i)⟩) →
      winfs_rename_retry conv cwd R buf host newpath (remaining + k) round calls =
        winfs_rename_retry conv cwd R buf host newpath remaining (round + k)
          (calls ++ ((List.range k).map (fun i =>
            HostCall.FileRenameInformation FsHandle.file
              (buffer_units (buffer_after buf
                (filename_to_nt_pathname conv cwd newpath PATH_MAX).stores)
                (dword (2 * (filename_to_nt_pathname conv cwd newpath PATH_MAX).ret) / 2)) true ::
              U (round + i))).flatten) := by
  intro k
  induction k with
  | zero => intro remaining round calls _; simp
  | succ n ih =>
    intro remaining round calls h
    have h0 := h 0 (by omega)
    simp only [Nat.add_zero] at h0
    have hden : NT_SUCCESS STATUS_ACCESS_DENIED = false := by decide
    have hstep : winfs_rename_retry conv cwd R buf host newpath (remaining + n + 1) round calls =
        winfs_rename_retry conv cwd R buf host newpath (remaining + n) (round + 1)
          (calls ++ [HostCall.FileRenameInformation FsHandle.file
            (buffer_units (buffer_after buf
              (filename_to_nt_pathname conv cwd newpath PATH_MAX).stores)
              (dword (2 * (filename_to_nt_pathname conv cwd newpath PATH_MAX).ret) / 2)) true] ++
            U round) := by
      conv_lhs => unfold winfs_rename_retry
      simp [hname, h0.1, h0.2, hden]
    rw [show remaining + (n + 1) = remaining + n + 1 by omega, hstep,
      ih remaining (round + 1) _ (fun i hi => by
        have := h (i + 1) (by omega)
        rwa [show round + (i + 1) = round + 1 + i by omega] at this),
      show round + 1 + n = round + (n + 1) by omega]
    congr 1
    have hfun : ((fun i => HostCall.FileRenameInformation FsHandle.file
          (buffer_units (buffer_after buf
            (filename_to_nt_pathname conv cwd newpath PATH_MAX).stores)
            (dword (2 * (filename_to_nt_pathname conv cwd newpath PATH_MAX).ret) / 2)) true ::
          U (round + i)) ∘ Nat.succ) =
        (fun i => HostCall.FileRenameInformation FsHandle.file
          (buffer_units (buffer_after buf
            (filename_to_nt_pathname conv cwd newpath PATH_MAX).stores)
            (dword (2 * (filename_to_nt_pathname conv cwd newpath PATH_MAX).ret) / 2)) true ::
          U (round + 1 + i)) := by
      funext i
      simp only [Function.comp, Nat.succ_eq_add_one]
      rw [show round + (i + 1) = round + 1 + i by omega]
    rw [List.range_succ_eq_map, List.map_cons, List.flatten_cons, List.map_map, hfun]
    simp only [List.append_assoc, List.singleton_append, List.cons_append, Nat.add_zero,
      List.nil_append]

/-- C15: `winfs_rename` on the answers of the host.  As long as each unlink of the
destination has a defined result it returns, after at most 4 rename requests with
`ReplaceIfExists`.  When the new path does not translate it returns `-ENOENT` without a
request.  Otherwise every round sends the request `req`, which carries what the buffer
holds over the length of the translation.  While the request is refused with access
denied and `winfs_unlink` of the new path returns 0 after the host calls `U i`, it asks
again: it returns 0 at the first request that succeeds, the error of the unlink when an
unlink fails, `-ENOENT` at any other refusal and `-EPERM` after the fourth refusal, and
its host calls are, round after round, the request followed by the calls of the unlink.
After a successful translation the name in `req` is the translated path `P`, and the
unlink of a destination that nothing holds open is the open of `P` for `DELETE` with
`FILE_SHARE_DELETE`, the delete disposition and the close. -/
theorem rename_bounded_retry
    (conv : List Byte → Nat → Int → Int × List WChar) (cwd : List WChar) (R : Recycler)
    (buf : Int → WChar) (host : Nat → RenameHost) (newpath : List Byte) :
    ((∀ i, winfs_unlink conv cwd R (host i).unlink newpath ≠ none) →
      ∃ r, winfs_rename conv cwd R buf host newpath = some r ∧ rename_requests r.calls ≤ 4) ∧
    (dword (2 * (filename_to_nt_pathname conv cwd newpath PATH_MAX).ret) = 0 →
      winfs_rename conv cwd R buf host newpath = some ⟨- ENOENT, []⟩) ∧
    (dword (2 * (filename_to_nt_pathname conv cwd newpath PATH_MAX).ret) ≠ 0 →
      ∀ (U : Nat → List HostCall) (req : HostCall),
      req = .FileRenameInformation .file
        (buffer_units
          (buffer_after buf (filename_to_nt_pathname conv cwd newpath PATH_MAX).stores)
          (dword (2 * (filename_to_nt_pathname conv cwd newpath PATH_MAX).ret) / 2)) true →
      (∀ k, k < 4 →
        (∀ i, i < k → (host i).rename_status = STATUS_ACCESS_DENIED ∧
          winfs_unlink conv cwd R (host i).unlink newpath = some ⟨0, U i⟩) →
        (NT_SUCCESS (host k).rename_status = true →
          winfs_rename conv cwd R buf host newpath =
            some ⟨0, ((List.range k).map (fun i => req :: U i)).flatten ++ [req]⟩) ∧
        ((host k).rename_status = STATUS_ACCESS_DENIED →
          ∀ u, winfs_unlink conv cwd R (host k).unlink newpath = some u → u.ret ≠ 0 →
          winfs_rename conv cwd R buf host newpath =
            some ⟨u.ret,
              ((List.range k).map (fun i => req :: U i)).flatten ++ [req] ++ u.calls⟩) ∧
        (NT_SUCCESS (host k).rename_status = false →
          (host k).rename_status ≠ STATUS_ACCESS_DENIED →
          winfs_rename conv cwd R buf host newpath =
            some ⟨- ENOENT, ((List.range k).map (fun i => req :: U i)).flatten ++ [req]⟩)) ∧
      ((∀ i, i < 4 → (host i).rename_status = STATUS_ACCESS_DENIED ∧
          winfs_unlink conv cwd R (host i).unlink newpath = some ⟨0, U i⟩) →
        winfs_rename conv cwd R buf host newpath =
          some ⟨- EPERM, ((List.range 4).map (fun i => req :: U i)).flatten⟩)) ∧
    (∀ (w P : List WChar), newpath.headD 0 ≠ 0 →
      conv newpath (strlen newpath) (4091 - (cwd.length : Int)) = ((w.length : Int), w) →
      w ≠ [] → cwd ≠ [] → 4 + cwd.length + 1 + w.length ≤ 4096 →
      (∀ u ∈ cwd, u ≠ 0) → (∀ u ∈ w, u ≠ 0) →
      P = [0x5C, 0x3F, 0x3F, 0x5C] ++ cwd ++ [0x5C] ++ w →
      dword (2 * (filename_to_nt_pathname conv cwd newpath PATH_MAX).ret) ≠ 0 ∧
      buffer_units
          (buffer_after buf (filename_to_nt_pathname conv cwd newpath PATH_MAX).stores)
          (dword (2 * (filename_to_nt_pathname conv cwd newpath PATH_MAX).ret) / 2) = P ∧
      ∀ i, NT_SUCCESS (host i).unlink.open_status = true →
        NT_SUCCESS (host i).unlink.disposition_status = true →
        winfs_unlink conv cwd R (host i).unlink newpath =
          some ⟨0, [.NtOpenFile P DELETE FILE_SHARE_DELETE
              (FILE_NON_DIRECTORY_FILE ||| FILE_OPEN_FOR_BACKUP_INTENT),
            .FileDispositionInformation .first, .NtClose .first]⟩) := by
  have hden : NT_SUCCESS STATUS_ACCESS_DENIED = false := by decide
  refine ⟨?_, ?_, ?_, ?_⟩
  · intro hdef
    obtain ⟨r, hr⟩ := rename_retry_defined conv cwd R buf host newpath hdef 4 0 []
    refine ⟨r, hr, ?_⟩
    have := rename_requests_retry_le conv cwd R buf host newpath 4 0 [] r hr
    simpa [rename_requests] using this
  · intro h
    simp [winfs_rename, winfs_rename_retry, h]
  · intro hname U req hreq
    subst hreq
    constructor
    · intro k hk hpre
      have he := rename_retry_denied conv cwd R buf host newpath U hname k (3 - k + 1) 0 []
        (fun i hi => by simpa using hpre i hi)
      have he2 : winfs_rename conv cwd R buf host newpath =
          winfs_rename_retry conv cwd R buf host newpath (3 - k + 1) k
            (((List.range k).map (fun i =>
              HostCall.FileRenameInformation FsHandle.file
                (buffer_units (buffer_after buf
                  (filename_to_nt_pathname conv cwd newpath PATH_MAX).stores)
                  (dword (2 * (filename_to_nt_pathname conv cwd newpath PATH_MAX).ret) / 2))
                true :: U i)).flatten) := by
        unfold winfs_rename
        rw [show (4 : Nat) = 3 - k + 1 + k by omega, he]
        simp only [Nat.zero_add, List.nil_append]
      rw [he2]
      unfold winfs_rename_retry
      refine ⟨?_, ?_, ?_⟩
      · intro hs
        simp [hname, hs]
      · intro hd u hu hne
        simp [hname, hd, hden, hu, hne]
      · intro hs hd
        simp [hname, hs, hd]
    · intro hall
      have he := rename_retry_denied conv cwd R buf host newpath U hname 4 0 0 []
        (fun i hi => by simpa using hall i hi)
      unfold winfs_rename
      rw [show (4 : Nat) = 0 + 4 by omega, he]
      simp [winfs_rename_retry]
  · intro w P hfile hconv hw hcwd hlen hcwd0 hw0 hP
    obtain ⟨hret, h7, h4096, hunits, _, _⟩ :=
      translated_path_facts conv cwd w newpath buf P hfile hconv hw hcwd hlen hcwd0 hw0 hP
    obtain ⟨hpos, hnm, _⟩ := unlink_names conv cwd w newpath R 0 P _ hfile hconv hw hcwd hlen
      hcwd0 hw0 hP rfl
    have hd : dword (2 * (P.length : Int)) = 2 * P.length := by
      unfold dword
      omega
    refine ⟨by rw [hret, hd]; omega, ?_, ?_⟩
    · rw [hret, hd, Nat.mul_div_cancel_left _ (by decide : 0 < 2)]
      exact hunits
    · intro i h1 h2
      rw [(winfs_unlink_cases conv cwd R (host i).unlink newpath _ _ rfl rfl hpos).1 h1 h2, hnm]

/-- Witness of C15: renaming onto `l` in `C:\x` when the first request is refused with
access denied and nothing holds the destination open: the request for `\??\C:\x\l`, the
open of `\??\C:\x\l` for `DELETE`, the delete disposition, the close, and the request
again, which succeeds. -/
theorem rename_bounded_retry_witness :
    winfs_rename ascii_to_utf16 [0x43, 0x3A, 0x5C, 0x78] sampleRecycler (fun _ => 0)
        (fun i => ⟨if i = 0 then STATUS_ACCESS_DENIED else 0, idleUnlinkHost⟩) [0x6C] =
      some ⟨0,
        [.FileRenameInformation .file
            [0x5C, 0x3F, 0x3F, 0x5C, 0x43, 0x3A, 0x5C, 0x78, 0x5C, 0x6C] true,
          .NtOpenFile [0x5C, 0x3F, 0x3F, 0x5C, 0x43, 0x3A, 0x5C, 0x78, 0x5C, 0x6C] 0x10000 4
            0x4040,
          .FileDispositionInformation .first, .NtClose .first,
          .FileRenameInformation .file
            [0x5C, 0x3F, 0x3F, 0x5C, 0x43, 0x3A, 0x5C, 0x78, 0x5C, 0x6C] true]⟩ := by
  have h := rename_bounded_retry ascii_to_utf16 [0x43, 0x3A, 0x5C, 0x78] sampleRecycler
    (fun _ => 0) (fun i => ⟨if i = 0 then STATUS_ACCESS_DENIED else 0, idleUnlinkHost⟩) [0x6C]
  obtain ⟨hne, hname, hunl⟩ := h.2.2.2 [0x6C]
    [0x5C, 0x3F, 0x3F, 0x5C, 0x43, 0x3A, 0x5C, 0x78, 0x5C, 0x6C]
    (by decide) (by decide) (by decide) (by decide) (by decide) (by decide) (by decide) rfl
  have h3 := ((h.2.2.1 hne
    (fun _ => [.NtOpenFile [0x5C, 0x3F, 0x3F, 0x5C, 0x43, 0x3A, 0x5C, 0x78, 0x5C, 0x6C] DELETE
        FILE_SHARE_DELETE (FILE_NON_DIRECTORY_FILE ||| FILE_OPEN_FOR_BACKUP_INTENT),
      .FileDispositionInformation .first, .NtClose .first]) _ rfl).1 1 (by decide)
    (fun i hi => by
      have : i = 0 := by omega
      subst this
      exact ⟨by decide, hunl 0 (by decide) (by decide)⟩)).1 (by decide)
  rw [h3, hname]
  decide

theorem append_separator_inj (x : WChar) :
    ∀ (l1 l2 r1 r2 : List WChar), x ∉ l1 → x ∉ l2 → l1 ++ x :: r1 = l2 ++ x :: r2 →
      l1 = l2 ∧ r1 = r2 := by
  intro l1
  induction l1 with
  | nil =>
    intro l2 r1 r2 _ h2 h
    cases l2 with
    | nil => simpa using h
    | cons b l2 =>
      simp only [List.nil_append, List.cons_append, List.cons.injEq] at h
      exact absurd (h.1 ▸ List.mem_cons_self _ _) h2
  | cons a l1 ih =>
    intro l2 r1 r2 h1 h2 h
    cases l2 with
    | nil =>
      simp only [List.nil_append, List.cons_append, List.cons.injEq] at h
      exact absurd (h.1 ▸ List.mem_cons_self _ _) h1
    | cons b l2 =>
      simp only [List.cons_append, List.cons.injEq] at h
      obtain ⟨e1, e2⟩ := ih l2 r1 r2 (fun hm => h1 (List.mem_cons_of_mem _ hm))
        (fun hm => h2 (List.mem_cons_of_mem _ hm)) h.2
      exact ⟨by rw [h.1, e1], e2⟩

theorem move_to_recycle_bin_fit (R : Recycler) (host : UnlinkHost) (handle : FsHandle)
    (pathname : Int → WChar)
    (hint : NT_SUCCESS host.internal_status = true)
    (hfit : R.FileName_offset + 2 * (29 + R.sid.length + (R.hex64 host.IndexNumber).length +
      (R.hex32 (R.hash (RtlInitUnicodeString pathname))).length) ≤ 512) :
    move_to_recycle_bin R host handle pathname =
      some ⟨if NT_SUCCESS host.rename_status = true then STATUS_SUCCESS else host.rename_status,
        [.FileInternalInformation handle,
          .FileRenameInformation handle
            (buffer_units pathname 7 ++ wide "$Recycle.Bin\\" ++ R.sid ++ wide "\\" ++
              wide ".flinux" ++ R.hex64 host.IndexNumber ++ wide "_" ++
              R.hex32 (R.hash (RtlInitUnicodeString pathname))) false]⟩ := by
  have hl := recycle_name_fit_length R pathname host.IndexNumber (by omega)
  have hn := recycle_name_fit R pathname host.IndexNumber (by omega)
  unfold move_to_recycle_bin
  simp only [hint, not_true_eq_false, if_false]
  rw [if_neg (by rw [hl]; omega), hn]
  cases NT_SUCCESS host.rename_status <;> simp

/-- C18: the name under which `move_to_recycle_bin` parks a file.  When the file id
query succeeds and the name fits the 512 bytes in which the request is staged, the
request renames the file to: the 7 units at `pathname`, `$Recycle.Bin\`, the SID string,
`\`, `.flinux`, the digits of the file id, `_`, and the digits of the hash of the string
at `pathname`, which runs up to the first NUL.  For two calls with the same 7 units, when
the renderings of numbers are injective and the digits of a file id hold no `_`, equal
names mean equal file ids and equal hashes.  `winfs_unlink` hands over its buffer, in
which no NUL follows the translated path `P`: the string that is hashed is `P` followed
by the units `g` that the buffer held after the path before the call, up to the first
NUL, and it is `P` only when the unit after the path happened to be NUL. -/
theorem parking_name_covers_buffer (R : Recycler) (host : UnlinkHost) :
    (∀ (handle : FsHandle) (pathname : Int → WChar),
      NT_SUCCESS host.internal_status = true →
      R.FileName_offset + 2 * (29 + R.sid.length + (R.hex64 host.IndexNumber).length +
        (R.hex32 (R.hash (RtlInitUnicodeString pathname))).length) ≤ 512 →
      move_to_recycle_bin R host handle pathname =
        some ⟨if NT_SUCCESS host.rename_status = true then STATUS_SUCCESS
            else host.rename_status,
          [.FileInternalInformation handle,
            .FileRenameInformation handle
              (buffer_units pathname 7 ++ wide "$Recycle.Bin\\" ++ R.sid ++ wide "\\" ++
                wide ".flinux" ++ R.hex64 host.IndexNumber ++ wide "_" ++
                R.hex32 (R.hash (RtlInitUnicodeString pathname))) false]⟩) ∧
    (∀ (p1 p2 : Int → WChar) (id1 id2 : Nat),
      29 + R.sid.length + (R.hex64 id1).length +
        (R.hex32 (R.hash (RtlInitUnicodeString p1))).length ≤ 512 →
      29 + R.sid.length + (R.hex64 id2).length +
        (R.hex32 (R.hash (RtlInitUnicodeString p2))).length ≤ 512 →
      buffer_units p1 7 = buffer_units p2 7 →
      Function.Injective R.hex64 → Function.Injective R.hex32 → (∀ n, 0x5F ∉ R.hex64 n) →
      recycle_name R p1 id1 = recycle_name R p2 id2 →
      id1 = id2 ∧ R.hash (RtlInitUnicodeString p1) = R.hash (RtlInitUnicodeString p2)) ∧
    (∀ (conv : List Byte → Nat → Int → Int × List WChar) (cwd w : List WChar)
      (pathname : List Byte) (P g : List WChar),
      pathname.headD 0 ≠ 0 →
      conv pathname (strlen pathname) (4091 - (cwd.length : Int)) = ((w.length : Int), w) →
      w ≠ [] → cwd ≠ [] → 4 + cwd.length + 1 + w.length ≤ 4096 →
      (∀ u ∈ cwd, u ≠ 0) → (∀ u ∈ w, u ≠ 0) →
      P = [0x5C, 0x3F, 0x3F, 0x5C] ++ cwd ++ [0x5C] ++ w →
      g = wide_string_at R.wpathname (32766 - P.length) P.length →
      (R.wpathname P.length = 0 → g = []) ∧
      (R.wpathname P.length ≠ 0 → ∃ rest, g = R.wpathname P.length :: rest) ∧
      (host.open_status = STATUS_SHARING_VIOLATION →
        NT_SUCCESS host.reopen_status = true → NT_SUCCESS host.internal_status = true →
        NT_SUCCESS host.rename_status = true → NT_SUCCESS host.disposition_status = true →
        R.FileName_offset + 2 * (29 + R.sid.length + (R.hex64 host.IndexNumber).length +
          (R.hex32 (R.hash (P ++ g))).length) ≤ 512 →
        winfs_unlink conv cwd R host pathname =
          some ⟨0, [.NtOpenFile P DELETE FILE_SHARE_DELETE
              (FILE_NON_DIRECTORY_FILE ||| FILE_OPEN_FOR_BACKUP_INTENT),
            .NtOpenFile P DELETE (FILE_SHARE_READ ||| FILE_SHARE_WRITE ||| FILE_SHARE_DELETE)
              (FILE_NON_DIRECTORY_FILE ||| FILE_OPEN_FOR_BACKUP_INTENT),
            .FileInternalInformation .second,
            .FileRenameInformation .second
              (P.take 7 ++ wide "$Recycle.Bin\\" ++ R.sid ++ wide "\\" ++ wide ".flinux" ++
                R.hex64 host.IndexNumber ++ wide "_" ++ R.hex32 (R.hash (P ++ g))) false,
            .FileDispositionInformation .second, .NtClose .second]⟩)) := by
  refine ⟨?_, ?_, ?_⟩
  · intro handle pathname hint hfit
    exact move_to_recycle_bin_fit R host handle pathname hint hfit
  · intro p1 p2 id1 id2 hfit1 hfit2 hroot hinj64 hinj32 hsep h
    rw [recycle_name_fit R p1 id1 hfit1, recycle_name_fit R p2 id2 hfit2, hroot] at h
    have hw : wide "_" = [0x5F] := by decide
    rw [hw] at h
    simp only [List.append_assoc, List.append_cancel_left_eq, List.singleton_append] at h
    obtain ⟨e1, e2⟩ := append_separator_inj 0x5F _ _ _ _ (hsep id1) (hsep id2) h
    exact ⟨hinj64 e1, hinj32 e2⟩
  · intro conv cwd w pathname P g hfile hconv hw hcwd hlen hcwd0 hw0 hP hg
    obtain ⟨hpos, hnm, hpk⟩ := unlink_names conv cwd w pathname R host.IndexNumber P g hfile
      hconv hw hcwd hlen hcwd0 hw0 hP hg
    have hPl : P.length ≤ 4096 := by
      rw [hP]; simp only [List.length_append, List.length_cons, List.length_nil]; omega
    have hlim : 32766 - P.length = (32765 - P.length) + 1 := by omega
    refine ⟨?_, ?_, ?_⟩
    · intro h0
      rw [hg, hlim, wide_string_at_succ, if_pos h0]
    · intro h0
      rw [hg, hlim, wide_string_at_succ, if_neg h0]
      exact ⟨_, rfl⟩
    · intro h1 h2 h3 h4 h5 hfit
      have hpark := hpk (by omega)
      have hl : (recycle_name R
          (buffer_after R.wpathname (filename_to_nt_pathname conv cwd pathname PATH_MAX).stores)
          host.IndexNumber).length ≤ 29 + R.sid.length + (R.hex64 host.IndexNumber).length +
            (R.hex32 (R.hash (P ++ g))).length := by
        have e1 : (wide "$Recycle.Bin\\").length = 13 := by decide
        have e2 : (wide "\\").length = 1 := by decide
        have e3 : (wide ".flinux").length = 7 := by decide
        have e4 : (wide "_").length = 1 := by decide
        rw [hpark]
        simp only [List.length_append, List.length_take]
        omega
      rw [(winfs_unlink_cases conv cwd R host pathname _ _ rfl rfl hpos).2.2.2.2.2.2.2.2 h1 h2 h3
        (by omega) h4 h5, hnm, hpark]

theorem hex_digit_injective : Function.Injective hex_digit := by
  intro a b h
  have h2 : (if a < 10 then 48 + a else 87 + a : Nat) = (if b < 10 then 48 + b else 87 + b) := h
  split_ifs at h2 <;> omega

theorem hex_digits_injective : Function.Injective hex_digits := by
  intro a b h
  unfold hex_digits at h
  exact Nat.digits.injective 16
    (List.reverse_injective ((List.map_injective_iff.mpr hex_digit_injective) h))

theorem hex_digits_no_separator (n : Nat) : 0x5F ∉ hex_digits n := by
  unfold hex_digits
  intro h
  obtain ⟨d, hd, he⟩ := List.mem_map.mp h
  have hlt : d < 16 := Nat.digits_lt_base (by decide) (List.mem_reverse.mp hd)
  have h2 : (if d < 10 then 48 + d else 87 + d : Nat) = 0x5F := he
  split_ifs at h2 <;> omega

theorem sample_hash_dirty :
    dirtyRecycler.hash
      ([0x5C, 0x3F, 0x3F, 0x5C, 0x43, 0x3A, 0x5C, 0x78, 0x5C, 0x6C] ++ [0x41, 0x41]) = 0x3d1 := by
  decide

/-- Witness of C18: the file `l` in `C:\x`, open elsewhere, with the file id 0x2A, unlinked
while the buffer holds `AA` after the first 10 units.  The translated path `\??\C:\x\l`
has the hash 0x34f, but the string hashed is `\??\C:\x\lAA`, whose hash is 0x3d1, and the
file is renamed to `\??\C:\$Recycle.Bin\S-1-5-18\.flinux2a_3d1`.  With a zeroed buffer the
names of `\??\C:\x\l` with the file id 0x2A and of `\??\C:\x\m` with the file id 0x2B
differ. -/
theorem parking_name_covers_buffer_witness :
    winfs_unlink ascii_to_utf16 [0x43, 0x3A, 0x5C, 0x78] dirtyRecycler busyUnlinkHost [0x6C] =
      some ⟨0,
        [.NtOpenFile [0x5C, 0x3F, 0x3F, 0x5C, 0x43, 0x3A, 0x5C, 0x78, 0x5C, 0x6C] 0x10000 4 0x4040,
          .NtOpenFile [0x5C, 0x3F, 0x3F, 0x5C, 0x43, 0x3A, 0x5C, 0x78, 0x5C, 0x6C] 0x10000 7 0x4040,
          .FileInternalInformation .second,
          .FileRenameInformation .second
            [0x5C, 0x3F, 0x3F, 0x5C, 0x43, 0x3A, 0x5C, 0x24, 0x52, 0x65, 0x63, 0x79, 0x63,
             0x6C, 0x65, 0x2E, 0x42, 0x69, 0x6E, 0x5C, 0x53, 0x2D, 0x31, 0x2D, 0x35, 0x2D,
             0x31, 0x38, 0x5C, 0x2E, 0x66, 0x6C, 0x69, 0x6E, 0x75, 0x78, 0x32, 0x61, 0x5F,
             0x33, 0x64, 0x31]
            false,
          .FileDispositionInformation .second, .NtClose .second]⟩ ∧
    dirtyRecycler.hex32 (dirtyRecycler.hash
      [0x5C, 0x3F, 0x3F, 0x5C, 0x43, 0x3A, 0x5C, 0x78, 0x5C, 0x6C]) = [0x33, 0x34, 0x66] ∧
    recycle_name sampleRecycler
        (buffer_after (fun _ => 0) (stores_from 0
          [0x5C, 0x3F, 0x3F, 0x5C, 0x43, 0x3A, 0x5C, 0x78, 0x5C, 0x6C])) 0x2A ≠
      recycle_name sampleRecycler
        (buffer_after (fun _ => 0) (stores_from 0
          [0x5C, 0x3F, 0x3F, 0x5C, 0x43, 0x3A, 0x5C, 0x78, 0x5C, 0x6D])) 0x2B := by
  obtain ⟨d1, d2, d3, d4⟩ := hex_digits_samples
  have h := parking_name_covers_buffer dirtyRecycler busyUnlinkHost
  have hfit : dirtyRecycler.FileName_offset + 2 * (29 + dirtyRecycler.sid.length +
      (dirtyRecycler.hex64 busyUnlinkHost.IndexNumber).length +
      (dirtyRecycler.hex32 (dirtyRecycler.hash
        ([0x5C, 0x3F, 0x3F, 0x5C, 0x43, 0x3A, 0x5C, 0x78, 0x5C, 0x6C] ++ [0x41, 0x41]))).length) ≤ 512 := by
    rw [sample_hash_dirty]
    show _ + 2 * (_ + _ + (hex_digits 0x2A).length + (hex_digits 0x3d1).length) ≤ 512
    rw [d1, d4]
    decide
  have h3 := (h.2.2 ascii_to_utf16 [0x43, 0x3A, 0x5C, 0x78] [0x6C] [0x6C]
    [0x5C, 0x3F, 0x3F, 0x5C, 0x43, 0x3A, 0x5C, 0x78, 0x5C, 0x6C] [0x41, 0x41]
    (by decide) (by decide) (by decide) (by decide) (by decide) (by decide) (by decide) rfl
    (by decide)).2.2 rfl (by decide) (by decide) (by decide) (by decide) hfit
  refine ⟨?_, ?_, ?_⟩
  · rw [h3, sample_hash_dirty]
    show some (Unlinked.mk 0 [_, _, _, HostCall.FileRenameInformation _
      (_ ++ hex_digits 0x2A ++ _ ++ hex_digits 0x3d1) false, _, _]) = _
    rw [d1, d4]
    decide
  · have : dirtyRecycler.hash [0x5C, 0x3F, 0x3F, 0x5C, 0x43, 0x3A, 0x5C, 0x78, 0x5C, 0x6C] = 0x34f := by decide
    rw [this]
    exact d3
  · intro he
    have hs1 : RtlInitUnicodeString (buffer_after (fun _ => 0) (stores_from 0
        [0x5C, 0x3F, 0x3F, 0x5C, 0x43, 0x3A, 0x5C, 0x78, 0x5C, 0x6C])) = [0x5C, 0x3F, 0x3F, 0x5C, 0x43, 0x3A, 0x5C, 0x78, 0x5C, 0x6C] := by decide
    have hs2 : RtlInitUnicodeString (buffer_after (fun _ => 0) (stores_from 0
        [0x5C, 0x3F, 0x3F, 0x5C, 0x43, 0x3A, 0x5C, 0x78, 0x5C, 0x6D])) = [0x5C, 0x3F, 0x3F, 0x5C, 0x43, 0x3A, 0x5C, 0x78, 0x5C, 0x6D] := by decide
    have hh1 : sampleRecycler.hash [0x5C, 0x3F, 0x3F, 0x5C, 0x43, 0x3A, 0x5C, 0x78, 0x5C, 0x6C] = 0x34f := by decide
    have hh2 : sampleRecycler.hash [0x5C, 0x3F, 0x3F, 0x5C, 0x43, 0x3A, 0x5C, 0x78, 0x5C, 0x6D] = 0x350 := by decide
    have hd5 : hex_digits 0x350 = [0x33, 0x35, 0x30] := by norm_num [hex_digits, hex_digit]
    have hi := (parking_name_covers_buffer sampleRecycler busyUnlinkHost).2.1
      (buffer_after (fun _ => 0) (stores_from 0 [0x5C, 0x3F, 0x3F, 0x5C, 0x43, 0x3A, 0x5C, 0x78, 0x5C, 0x6C]))
      (buffer_after (fun _ => 0) (stores_from 0 [0x5C, 0x3F, 0x3F, 0x5C, 0x43, 0x3A, 0x5C, 0x78, 0x5C, 0x6D])) 0x2A 0x2B
      (by
        rw [hs1, hh1]
        show _ + _ + (hex_digits 0x2A).length + (hex_digits 0x34f).length ≤ 512
        rw [d1, d3]; decide)
      (by
        rw [hs2, hh2]
        show _ + _ + (hex_digits 0x2B).length + (hex_digits 0x350).length ≤ 512
        rw [d2, hd5]; decide)
      (by decide) hex_digits_injective hex_digits_injective hex_digits_no_separator he
    exact absurd hi.1 (by decide)

end Flinux
